import Mathlib

/-!
Fleet dispatch and upgrade planning of the `node` commands, and the checks
of the `subnet create`, `subnet import public`, `network start`,
`network clean`, `node ssh` and `config metrics` commands.

A shallow embedding of `cmd/nodecmd/status.go`, `cmd/nodecmd/upgrade.go`,
`cmd/nodecmd/ssh.go`, `cmd/subnetcmd/create.go`,
`cmd/subnetcmd/import_from_api.go`, `cmd/networkcmd/start.go`,
`cmd/networkcmd/clean.go` and `cmd/configcmd/metrics.go`.

* A Go `error` is kept as its message (`String`); `nil` is `none`.
* Raw response bytes are kept as a `String`.
* A Go map is an association list with pairwise distinct keys; `range` visits
  the entries in list order.  Go leaves that order unspecified, so every
  theorem is stated for an arbitrary list order.
* A fan-out of goroutines that each take the lock of the shared result set
  once is a left fold of the goroutine body over the order in which the
  goroutines take the lock; that order is an arbitrary permutation of the
  launched hosts, chosen by a scheduler `sched`.
* A command that writes or prints returns, with its error, the list of the
  writes or prints it issued, in order; its collaborators outside the sources
  (prompt, files, network clients) are the fields of an environment.
* `clean` removes files by itself: it takes the file system, a list of
  entries at paths, and returns the one it leaves; a path is the list of its
  components.
* A function that indexes `args[0]` returns `none` for the run-time panic on
  an empty `args`.
-/

namespace LuxCli

/-! ## `pkg/constants` -/

def AVMKeyName : String := "avm"

def EVMKeyName : String := "evm"

def PlatformKeyName : String := "platform"

/-! ## Go maps -/

/-- A Go map with keys `κ`: an association list, keys pairwise distinct. -/
abbrev GoMap (κ : Type) (V : Type) := List (κ × V)

/-- The read `m[k]`, with `none` for an absent key. -/
def mapGet {κ V : Type} [BEq κ] (m : GoMap κ V) (k : κ) : Option V :=
  List.lookup k m

/-- The write `m[k] = v`: replaces the entry of `k`, or adds one. -/
def mapSet {κ V : Type} [BEq κ] (m : GoMap κ V) (k : κ) (v : V) : GoMap κ V :=
  if (mapGet m k).isSome then
    m.map (fun p => if p.1 == k then (k, v) else p)
  else
    m ++ [(k, v)]

/-- The keys of a map, as `maps.Keys` lists them. -/
def mapKeys {κ V : Type} (m : GoMap κ V) : List κ :=
  m.map Prod.fst

/-! ## `pkg/models` -/

/-- Modelled from the spec: `models.Host` is not among the sources.  The spec
gives a host an identity (the field `NodeID` read by the commands), a network
address (`IP`) and a credential reference (`SSHPrivateKeyPath`). -/
structure Host where
  NodeID : String
  IP : String
  SSHPrivateKeyPath : String
deriving DecidableEq, Repr

/-- Modelled from the spec: `models.NodeResult` is not among the sources.  A
per-host outcome is exactly one of a value (an opaque payload, possibly the
`nil` interface) and an error, never both. -/
inductive NodeResult (α : Type) where
  | value (v : Option α)
  | error (err : String)
deriving DecidableEq, Repr

/-- Modelled from the spec: `models.NodeResults` is not among the sources.  A
result set is a mapping from host identity to that host's outcome. -/
structure NodeResults (α : Type) where
  Results : GoMap String (NodeResult α)
deriving DecidableEq, Repr

/-- Modelled from the spec: `AddResult` of `models.NodeResults` is not among
the sources.  A worker writes its outcome, value or error, into the result set
under the host identity: the error when `err` is not `nil`, the value
otherwise. -/
def NodeResults.AddResult {α : Type} (nr : NodeResults α) (nodeID : String)
    (value : Option α) (err : Option String) : NodeResults α :=
  match err with
  | some e => ⟨mapSet nr.Results nodeID (NodeResult.error e)⟩
  | none => ⟨mapSet nr.Results nodeID (NodeResult.value value)⟩

/-- Modelled from the spec: `HasErrors` of `models.NodeResults` is not among
the sources.  True iff at least one entry of the set holds an error. -/
def NodeResults.HasErrors {α : Type} (nr : NodeResults α) : Bool :=
  nr.Results.any (fun p => match p.2 with
    | NodeResult.error _ => true
    | NodeResult.value _ => false)

/-- Modelled from the spec: `GetErrorHostMap` of `models.NodeResults` is not
among the sources.  Exactly the entries holding an error, keyed by host. -/
def NodeResults.GetErrorHostMap {α : Type} (nr : NodeResults α) : GoMap String String :=
  nr.Results.filterMap (fun p => match p.2 with
    | NodeResult.error e => some (p.1, e)
    | NodeResult.value _ => none)

/-- Modelled from the spec: `GetResultMap` of `models.NodeResults` is not
among the sources.  Exactly the entries holding a value, keyed by host. -/
def NodeResults.GetResultMap {α : Type} (nr : NodeResults α) : GoMap String (Option α) :=
  nr.Results.filterMap (fun p => match p.2 with
    | NodeResult.value v => some (p.1, v)
    | NodeResult.error _ => none)

/-! ## `cmd/nodecmd/status.go` -/

/-- The goroutine body of the version round of `statusNode`.  The remote
query `ssh.RunSSHCheckLuxdVersion` and the decoder `parseLuxdOutput` are
collaborators outside the sources and are taken as parameters. -/
def statusVersionWorker (RunSSHCheckLuxdVersion : Host → Except String String)
    (parseLuxdOutput : String → Except String String)
    (nodeResults : NodeResults String) (host : Host) : NodeResults String :=
  match RunSSHCheckLuxdVersion host with
  | Except.error err => nodeResults.AddResult host.NodeID none (some err)
  | Except.ok resp =>
    match parseLuxdOutput resp with
    | Except.error err => nodeResults.AddResult host.NodeID none (some err)
    | Except.ok luxdVersion => nodeResults.AddResult host.NodeID (some luxdVersion) none

/-- The version round of `statusNode`: one goroutine per host, then
`wg.Wait()`.  The list `sched hosts` is the order in which the goroutines
launched for `hosts` write their result. -/
def statusVersionRound (RunSSHCheckLuxdVersion : Host → Except String String)
    (parseLuxdOutput : String → Except String String)
    (sched : List Host → List Host) (hosts : List Host) : NodeResults String :=
  (sched hosts).foldl (statusVersionWorker RunSSHCheckLuxdVersion parseLuxdOutput) ⟨[]⟩

/-- The part of `statusNode` from the version round to `nodeVersionForNode`:
an error when some host failed, the version of every host otherwise. -/
def statusNodeVersions (RunSSHCheckLuxdVersion : Host → Except String String)
    (parseLuxdOutput : String → Except String String)
    (sched : List Host → List Host) (hosts : List Host) :
    Except (GoMap String String) (GoMap String String) :=
  let wgResults := statusVersionRound RunSSHCheckLuxdVersion parseLuxdOutput sched hosts
  if wgResults.HasErrors then
    Except.error wgResults.GetErrorHostMap
  else
    Except.ok (wgResults.GetResultMap.foldl
      (fun nodeVersionForNode p => mapSet nodeVersionForNode p.1 (p.2.getD "<nil>")) [])

/-- The text of `status.Syncing` in the node library. -/
def statusSyncingString : String := "Syncing"

/-- The text of `status.Validating` in the node library. -/
def statusValidatingString : String := "Validating"

/-- The three lists `statusNode` sorts the hosts of a cluster into when a
subnet is given. -/
structure SyncLists where
  notSyncedNodes : List String
  subnetSyncedNodes : List String
  subnetValidatingNodes : List String
deriving DecidableEq, Repr

/-- The loop of `statusNode` over `ansibleHostIDs` that puts the hosts that
are not bootstrapped into `notSyncedNodes` and the others into
`hostsToCheckSyncStatus`; the state is the pair of the two lists. -/
def splitNotBootstrapped (notBootstrappedNodes : List String) (ansibleHostIDs : List String) :
    List String × List String :=
  ansibleHostIDs.foldl (fun st ansibleHostID =>
    if notBootstrappedNodes.contains ansibleHostID then
      (st.1 ++ [ansibleHostID], st.2)
    else
      (st.1, st.2 ++ [ansibleHostID])) ([], [])

/-- The goroutine body of the subnet sync round of `statusNode`.  The remote
query `ssh.RunSSHSubnetSyncStatus` and the decoder `parseSubnetSyncOutput` are
collaborators outside the sources and are taken as parameters. -/
def syncStatusWorker (RunSSHSubnetSyncStatus : Host → String → Except String String)
    (parseSubnetSyncOutput : String → Except String String) (blockchainID : String)
    (nodeResults : NodeResults String) (host : Host) : NodeResults String :=
  match RunSSHSubnetSyncStatus host blockchainID with
  | Except.error err => nodeResults.AddResult host.NodeID none (some err)
  | Except.ok syncstatus =>
    match parseSubnetSyncOutput syncstatus with
    | Except.error err => nodeResults.AddResult host.NodeID none (some err)
    | Except.ok subnetSyncStatus => nodeResults.AddResult host.NodeID (some subnetSyncStatus) none

/-- The `switch` of `statusNode` on one entry of the result map: the value is
an interface, equal to a status text only when it holds that very string. -/
def classifySyncEntry (lists : SyncLists) (nodeID : String) (subnetSyncStatus : Option String) :
    SyncLists :=
  if subnetSyncStatus = some statusSyncingString then
    { lists with subnetSyncedNodes := lists.subnetSyncedNodes ++ [nodeID] }
  else if subnetSyncStatus = some statusValidatingString then
    { lists with subnetValidatingNodes := lists.subnetValidatingNodes ++ [nodeID] }
  else
    { lists with notSyncedNodes := lists.notSyncedNodes ++ [nodeID] }

/-- The subnet part of `statusNode` (taken when `subnetName` is not empty),
from the three empty lists to the lists handed to `printOutput`, once the
clusters config and the sidecar are loaded and have given `blockchainID`.  It
fails with the error host map when the sync round has an error. -/
def statusNodeSync (RunSSHSubnetSyncStatus : Host → String → Except String String)
    (parseSubnetSyncOutput : String → Except String String) (blockchainID : String)
    (sched : List Host → List Host)
    (ansibleHostIDs : List String) (notBootstrappedNodes : List String) (hosts : List Host) :
    Except (GoMap String String) SyncLists :=
  let split := splitNotBootstrapped notBootstrappedNodes ansibleHostIDs
  let notSyncedNodes := split.1
  let hostsToCheckSyncStatus := split.2
  if hostsToCheckSyncStatus.length != 0 then
    let hostsToCheck := hosts.filter (fun h => hostsToCheckSyncStatus.contains h.NodeID)
    let wgResults := (sched hostsToCheck).foldl
      (syncStatusWorker RunSSHSubnetSyncStatus parseSubnetSyncOutput blockchainID) ⟨[]⟩
    if wgResults.HasErrors then
      Except.error wgResults.GetErrorHostMap
    else
      Except.ok (wgResults.GetResultMap.foldl
        (fun lists p => classifySyncEntry lists p.1 p.2) ⟨notSyncedNodes, [], []⟩)
  else
    Except.ok ⟨notSyncedNodes, [], []⟩

/-! ## `cmd/nodecmd/upgrade.go` -/

/-- A JSON value as `encoding/json` decodes it into an `interface{}`; a
number is kept as its literal text. -/
inductive JVal where
  | null
  | bool (b : Bool)
  | num (literal : String)
  | str (s : String)
  | arr (items : List JVal)
  | obj (fields : List (String × JVal))

/-- The Go comparison `v == s` of an interface with a string: true only when
the interface holds that very string. -/
def interfaceEqString (v : Option JVal) (s : String) : Bool :=
  match v with
  | some (JVal.str t) => t == s
  | _ => false

/-- The Go type assertion `v.(map[string]interface{})`. -/
def assertMap (v : Option JVal) : Option (GoMap String JVal) :=
  match v with
  | some (JVal.obj fields) => some fields
  | _ => none

/-- The record `nodeUpgradeInfo`: the versions to update to on the cloud
server, empty when no update is needed, and the IDs of the Subnet EVMs to
upgrade. -/
structure nodeUpgradeInfo where
  LuxdVersion : String
  SubnetEVMVersion : String
  SubnetEVMIDsToUpgrade : List String
deriving DecidableEq, Repr

/-- Checks if vmName is "avm", "evm" or "platform". -/
def checkIfKeyIsStandardVMName (vmName : String) : Bool :=
  let standardVMNames := [PlatformKeyName, EVMKeyName, AVMKeyName]
  standardVMNames.contains vmName

/-- The function `parseNodeVersionOutput`; the result is the Go pair of the
map (`none` for the `nil` map) and the error.  `unmarshal` is `json.Unmarshal`
into a `map[string]interface{}`. -/
def parseNodeVersionOutput (unmarshal : String → Except String (GoMap String JVal))
    (byteValue : String) : Option (GoMap String JVal) × Option String :=
  match unmarshal byteValue with
  | Except.error err => (none, some err)
  | Except.ok result =>
    match assertMap (mapGet result "result") with
    | some nodeIDInterface =>
      match assertMap (mapGet nodeIDInterface "vmVersions") with
      | some vmVersions => (some vmVersions, none)
      | none => (none, none)
    | none => (none, none)

/-- The goroutine body of the version round of `getNodesUpgradeInfo`.  The
payload of a result is the map returned by `parseNodeVersionOutput`. -/
def upgradeVersionWorker (RunSSHCheckLuxdVersion : Host → Except String String)
    (unmarshal : String → Except String (GoMap String JVal))
    (nodeResults : NodeResults (Option (GoMap String JVal))) (host : Host) :
    NodeResults (Option (GoMap String JVal)) :=
  match RunSSHCheckLuxdVersion host with
  | Except.error err => nodeResults.AddResult host.NodeID none (some err)
  | Except.ok resp =>
    match parseNodeVersionOutput unmarshal resp with
    | (_, some err) => nodeResults.AddResult host.NodeID none (some err)
    | (vmVersions, none) => nodeResults.AddResult host.NodeID (some vmVersions) none

/-- The version round of `getNodesUpgradeInfo`: one goroutine per host, then
`wg.Wait()`. -/
def upgradeVersionRound (RunSSHCheckLuxdVersion : Host → Except String String)
    (unmarshal : String → Except String (GoMap String JVal))
    (sched : List Host → List Host) (hosts : List Host) :
    NodeResults (Option (GoMap String JVal)) :=
  (sched hosts).foldl (upgradeVersionWorker RunSSHCheckLuxdVersion unmarshal) ⟨[]⟩

/-- The variables the loop of `getNodesUpgradeInfo` over the components of one
host reads and writes. -/
structure VMLoopState where
  nodeErrors : GoMap String String
  info : nodeUpgradeInfo
  luxdVersionToUpdateTo : String

/-- One pass of the loop `for vmName, vmVersion := range vmVersions`.  The
resolver `GetLatestLuxdVersionForRPC` is outside the sources and is taken as a
parameter returning the Go pair of the version and the error. -/
def vmLoopStep (GetLatestLuxdVersionForRPC : Int → String × Option String) (rpcVersion : Int)
    (latestSubnetEVMVersion : String) (hostID : String)
    (st : VMLoopState) (entry : String × JVal) : VMLoopState :=
  let vmName := entry.1
  let vmVersion := entry.2
  if !checkIfKeyIsStandardVMName vmName then
    let info :=
      if !interfaceEqString (some vmVersion) latestSubnetEVMVersion then
        { st.info with
          SubnetEVMVersion := latestSubnetEVMVersion
          SubnetEVMIDsToUpgrade := st.info.SubnetEVMIDsToUpgrade ++ [vmName] }
      else
        st.info
    match GetLatestLuxdVersionForRPC rpcVersion with
    | (luxdVersion, some err) =>
      { nodeErrors := mapSet st.nodeErrors hostID err, info := info,
        luxdVersionToUpdateTo := luxdVersion }
    | (luxdVersion, none) =>
      { nodeErrors := st.nodeErrors, info := info, luxdVersionToUpdateTo := luxdVersion }
  else
    st

/-- The loop `for vmName, vmVersion := range vmVersions` of
`getNodesUpgradeInfo`, entered with an empty `nodeUpgradeInfo` and with
`luxdVersionToUpdateTo` set to the latest release. -/
def vmLoop (GetLatestLuxdVersionForRPC : Int → String × Option String) (rpcVersion : Int)
    (latestLuxdVersion : String) (latestSubnetEVMVersion : String)
    (nodeErrors : GoMap String String) (hostID : String) (vmVersions : GoMap String JVal) :
    VMLoopState :=
  vmVersions.foldl
    (vmLoopStep GetLatestLuxdVersionForRPC rpcVersion latestSubnetEVMVersion hostID)
    { nodeErrors := nodeErrors, info := ⟨"", "", []⟩,
      luxdVersionToUpdateTo := latestLuxdVersion }

/-- The maps `nodeErrors` and `nodesToUpgrade` of `getNodesUpgradeInfo`.  A
key of `nodesToUpgrade` is a host pointer, `none` for `nil`. -/
structure PlannerState where
  nodeErrors : GoMap String String
  nodesToUpgrade : GoMap (Option Host) nodeUpgradeInfo

/-- The body of the loop of `getNodesUpgradeInfo` over the result map, after
`ConvertInterfaceToMap`: the plan of one host. -/
def planHost (GetLatestLuxdVersionForRPC : Int → String × Option String) (rpcVersion : Int)
    (latestLuxdVersion : String) (latestSubnetEVMVersion : String)
    (nodeIDToHost : GoMap String Host)
    (st : PlannerState) (hostID : String) (vmVersions : GoMap String JVal) : PlannerState :=
  let currentLuxdVersion := mapGet vmVersions PlatformKeyName
  let loop := vmLoop GetLatestLuxdVersionForRPC rpcVersion latestLuxdVersion
    latestSubnetEVMVersion st.nodeErrors hostID vmVersions
  if (mapGet loop.nodeErrors hostID).isSome then
    { nodeErrors := loop.nodeErrors, nodesToUpgrade := st.nodesToUpgrade }
  else
    let info :=
      if !interfaceEqString currentLuxdVersion loop.luxdVersionToUpdateTo then
        { loop.info with LuxdVersion := loop.luxdVersionToUpdateTo }
      else
        loop.info
    { nodeErrors := loop.nodeErrors,
      nodesToUpgrade := mapSet st.nodesToUpgrade (mapGet nodeIDToHost hostID) info }

/-- The errors `getNodesUpgradeInfo` returns. -/
inductive UpgradeError where
  | collaborator (err : String)
  | versionRound (errorHostMap : GoMap String String)
  | failedToUpgrade (nodes : List String)
deriving DecidableEq, Repr

/-- The collaborators of `getNodesUpgradeInfo` that are outside the sources:
the two latest release versions as the downloader reports them, and
`vm.GetRPCProtocolVersion`, `ssh.RunSSHCheckLuxdVersion`, `json.Unmarshal`,
`utils.ConvertInterfaceToMap`, `GetLatestLuxdVersionForRPC`. -/
structure UpgradeEnv where
  latestLuxdRelease : Except String String
  latestSubnetEVMRelease : Except String String
  GetRPCProtocolVersion : String → Except String Int
  RunSSHCheckLuxdVersion : Host → Except String String
  unmarshal : String → Except String (GoMap String JVal)
  ConvertInterfaceToMap : Option (Option (GoMap String JVal)) → Except String (GoMap String JVal)
  GetLatestLuxdVersionForRPC : Int → String × Option String

/-- The loop of `getNodesUpgradeInfo` over the result map; a failure of
`ConvertInterfaceToMap` returns at once. -/
def planLoop (env : UpgradeEnv) (rpcVersion : Int)
    (latestLuxdVersion : String) (latestSubnetEVMVersion : String)
    (nodeIDToHost : GoMap String Host) :
    List (String × Option (Option (GoMap String JVal))) → PlannerState →
      Except UpgradeError PlannerState
  | [], st => Except.ok st
  | (hostID, vmVersionsInterface) :: rest, st =>
    match env.ConvertInterfaceToMap vmVersionsInterface with
    | Except.error err => Except.error (UpgradeError.collaborator err)
    | Except.ok vmVersions =>
      planLoop env rpcVersion latestLuxdVersion latestSubnetEVMVersion nodeIDToHost rest
        (planHost env.GetLatestLuxdVersionForRPC rpcVersion latestLuxdVersion
          latestSubnetEVMVersion nodeIDToHost st hostID vmVersions)

/-- The function `getNodesUpgradeInfo`. -/
def getNodesUpgradeInfo (env : UpgradeEnv) (sched : List Host → List Host)
    (hosts : List Host) : Except UpgradeError (GoMap (Option Host) nodeUpgradeInfo) :=
  match env.latestLuxdRelease with
  | Except.error err => Except.error (UpgradeError.collaborator err)
  | Except.ok latestLuxdVersion =>
    match env.latestSubnetEVMRelease with
    | Except.error err => Except.error (UpgradeError.collaborator err)
    | Except.ok latestSubnetEVMVersion =>
      match env.GetRPCProtocolVersion latestSubnetEVMVersion with
      | Except.error err => Except.error (UpgradeError.collaborator err)
      | Except.ok rpcVersion =>
        let wgResults :=
          upgradeVersionRound env.RunSSHCheckLuxdVersion env.unmarshal sched hosts
        if wgResults.HasErrors then
          Except.error (UpgradeError.versionRound wgResults.GetErrorHostMap)
        else
          let nodeIDToHost : GoMap String Host :=
            hosts.foldl (fun m host => mapSet m host.NodeID host) []
          match planLoop env rpcVersion latestLuxdVersion latestSubnetEVMVersion nodeIDToHost
              wgResults.GetResultMap ⟨[], []⟩ with
          | Except.error err => Except.error err
          | Except.ok st =>
            if st.nodeErrors.length > 0 then
              Except.error (UpgradeError.failedToUpgrade (mapKeys st.nodeErrors))
            else
              Except.ok st.nodesToUpgrade

/-! ## `upgrade` of `cmd/nodecmd/upgrade.go` -/

/-- The text `fmt.Sprintf(constants.SubnetEVMArchive, v)`. -/
def SubnetEVMArchive (versionWoPrefix : String) : String :=
  "subnet-evm_" ++ versionWoPrefix ++ "_linux_amd64.tar.gz"

/-- The text `fmt.Sprintf(constants.SubnetEVMReleaseURL, version, archive)`. -/
def SubnetEVMReleaseURL (version : String) (archive : String) : String :=
  "https://github.com/luxdefi/subnet-evm/releases/download/" ++ version ++ "/" ++ archive

/-- The text `fmt.Sprintf(constants.CloudNodeSubnetEvmBinaryPath, vmID)`. -/
def CloudNodeSubnetEvmBinaryPath (vmID : String) : String :=
  "/home/ubuntu/.node/plugins/" ++ vmID

/-- The Go call `strings.TrimPrefix(s, "v")`. -/
def trimPrefixV (s : String) : String :=
  match s.toList with
  | 'v' :: rest => String.mk rest
  | _ => s

/-- The remote steps `upgrade` issues, each with the host pointer it is
issued for (`none` for `nil`) and its arguments: `ssh.RunSSHUpgradeLuxd`,
`ssh.RunSSHGetNewSubnetEVMRelease`, `ssh.RunSSHStopNode`,
`ssh.RunSSHUpgradeSubnetEVM` and `ssh.RunSSHStartNode`. -/
inductive RemoteAction where
  | upgradeLuxd (host : Option Host) (luxdVersion : String)
  | getNewSubnetEVMRelease (host : Option Host) (subnetEVMReleaseURL : String)
      (subnetEVMArchive : String)
  | stopNode (host : Option Host)
  | upgradeSubnetEVM (host : Option Host) (subnetEVMBinaryPath : String)
  | startNode (host : Option Host)
deriving DecidableEq, Repr

/-- What a run of remote steps leaves behind: the steps issued so far, in
order, and the error that stopped the run, if any. -/
structure RemoteRun where
  issued : List RemoteAction
  err : Option String
deriving DecidableEq, Repr

/-- Issues one remote step after a run: nothing when the run has already
stopped on an error.  The remote layer `run` is outside the sources: it gives
the error of a step, `none` when the step succeeds. -/
def issue (run : RemoteAction → Option String) (r : RemoteRun) (a : RemoteAction) : RemoteRun :=
  match r.err with
  | some _ => r
  | none => { issued := r.issued ++ [a], err := run a }

/-- The function `upgradeLuxd`. -/
def upgradeLuxd (run : RemoteAction → Option String) (r : RemoteRun) (host : Option Host)
    (avaGoVersionToUpdateTo : String) : RemoteRun :=
  issue run r (RemoteAction.upgradeLuxd host avaGoVersionToUpdateTo)

/-- The function `upgradeSubnetEVM`. -/
def upgradeSubnetEVM (run : RemoteAction → Option String) (r : RemoteRun) (host : Option Host)
    (subnetEVMBinaryPath : String) (_subnetEVMVersion : String) : RemoteRun :=
  issue run r (RemoteAction.upgradeSubnetEVM host subnetEVMBinaryPath)

/-- The function `getNewSubnetEVMRelease`. -/
def getNewSubnetEVMRelease (run : RemoteAction → Option String) (r : RemoteRun)
    (host : Option Host) (subnetEVMReleaseURL : String) (subnetEVMArchive : String)
    (_subnetEVMVersion : String) : RemoteRun :=
  issue run r (RemoteAction.getNewSubnetEVMRelease host subnetEVMReleaseURL subnetEVMArchive)

/-- The body of the loop of `upgrade` over `toUpgradeNodesMap`, for one host
and its `upgradeInfo`; every `return err` is the run stopping on that error. -/
def upgradeNode (run : RemoteAction → Option String) (r : RemoteRun) (host : Option Host)
    (upgradeInfo : nodeUpgradeInfo) : RemoteRun :=
  let r1 :=
    if upgradeInfo.LuxdVersion != "" then upgradeLuxd run r host upgradeInfo.LuxdVersion
    else r
  if upgradeInfo.SubnetEVMVersion != "" then
    let subnetEVMVersionToUpgradeToWoPrefix := trimPrefixV upgradeInfo.SubnetEVMVersion
    let subnetEVMArchive := SubnetEVMArchive subnetEVMVersionToUpgradeToWoPrefix
    let subnetEVMReleaseURL := SubnetEVMReleaseURL upgradeInfo.SubnetEVMVersion subnetEVMArchive
    let r2 := getNewSubnetEVMRelease run r1 host subnetEVMReleaseURL subnetEVMArchive
      upgradeInfo.SubnetEVMVersion
    let r3 := issue run r2 (RemoteAction.stopNode host)
    let r4 := upgradeInfo.SubnetEVMIDsToUpgrade.foldl
      (fun acc vmID =>
        upgradeSubnetEVM run acc host (CloudNodeSubnetEvmBinaryPath vmID)
          upgradeInfo.SubnetEVMVersion) r3
    issue run r4 (RemoteAction.startNode host)
  else
    r1

/-- The loop of `upgrade` over `toUpgradeNodesMap`. -/
def upgradeLoop (run : RemoteAction → Option String)
    (toUpgradeNodesMap : GoMap (Option Host) nodeUpgradeInfo) : RemoteRun :=
  toUpgradeNodesMap.foldl (fun r entry => upgradeNode run r entry.1 entry.2) ⟨[], none⟩

/-- The function `upgrade`, from the call of `getNodesUpgradeInfo` on, for the
hosts of the inventory: the error of the planner, or the run of remote
steps. -/
def upgrade (env : UpgradeEnv) (run : RemoteAction → Option String)
    (sched : List Host → List Host) (hosts : List Host) : Except UpgradeError RemoteRun :=
  match getNodesUpgradeInfo env sched hosts with
  | Except.error err => Except.error err
  | Except.ok toUpgradeNodesMap => Except.ok (upgradeLoop run toUpgradeNodesMap)

/-! ## The runtime resolver -/

/-- The value of a run of decimal digits. -/
def digitsToNat (cs : List Char) : Nat :=
  cs.foldl (fun n c => 10 * n + (c.toNat - '0'.toNat)) 0

/-- The parts of a text between its dots. -/
def splitDot : List Char → List (List Char)
  | [] => [[]]
  | c :: rest =>
    if c = '.' then [] :: splitDot rest
    else
      match splitDot rest with
      | [] => [[c]]
      | part :: parts => (c :: part) :: parts

/-- Modelled from the spec: a prerelease identifier of a semantic version,
numeric or alphanumeric. -/
inductive PreId where
  | num (n : Nat)
  | alnum (cs : List Char)
deriving DecidableEq, Repr

/-- Modelled from the spec: what a semantic version says for the ordering:
major, minor and patch number, and the prerelease identifiers (none for a
release).  Build metadata has no part in the ordering and is not kept. -/
structure SemVer where
  major : Nat
  minor : Nat
  patch : Nat
  prerelease : List PreId
deriving DecidableEq, Repr

/-- Modelled from the spec: part of the grammar of `parseSemVer`.  A number
at the head of a version text: a run of digits, not empty and without a
leading zero (the run "0" apart), and the rest of the text. -/
def parseVersionNumber (cs : List Char) : Option (Nat × List Char) :=
  let ds := cs.takeWhile Char.isDigit
  if ds.isEmpty then none
  else if ds.head? == some '0' && ds.length != 1 then none
  else some (digitsToNat ds, cs.dropWhile Char.isDigit)

/-- Modelled from the spec: part of the grammar of `parseSemVer`.  A
character of an identifier: an ASCII letter, an ASCII digit or a hyphen. -/
def isIdentChar (c : Char) : Bool :=
  c.isAlphanum || c == '-'

/-- Modelled from the spec: part of the grammar of `parseSemVer`.  An
identifier: not empty, of identifier characters only. -/
def validIdent (ident : List Char) : Bool :=
  !ident.isEmpty && ident.all isIdentChar

/-- Modelled from the spec: part of the grammar of `parseSemVer`.  A numeric
identifier with a leading zero. -/
def isBadNum (ident : List Char) : Bool :=
  ident.all Char.isDigit && decide (1 < ident.length) && ident.head? == some '0'

/-- Modelled from the spec: part of the grammar of `parseSemVer`.  The
prerelease identifier a valid identifier text stands for. -/
def toPreId (ident : List Char) : PreId :=
  if ident.all Char.isDigit then PreId.num (digitsToNat ident) else PreId.alnum ident

/-- Modelled from the spec: part of the grammar of `parseSemVer`.  The
prerelease identifiers of the text after the hyphen: identifiers between
dots, none of them a numeric one with a leading zero. -/
def parsePrerelease (cs : List Char) : Option (List PreId) :=
  if (splitDot cs).all (fun ident => validIdent ident && !isBadNum ident) then
    some ((splitDot cs).map toPreId)
  else none

/-- Modelled from the spec: part of the grammar of `parseSemVer`.  Whether
the text after the plus sign is build metadata: identifiers between dots. -/
def validBuild (cs : List Char) : Bool :=
  (splitDot cs).all validIdent

/-- Modelled from the spec: part of the grammar of `parseSemVer`.  What
follows the patch number: nothing, or a hyphen and a prerelease, or a plus
sign and build metadata, or both in that order.  The result is the
prerelease. -/
def parseVersionTail (cs : List Char) : Option (List PreId) :=
  match cs with
  | [] => some []
  | c :: rest =>
    if c = '-' then
      match parsePrerelease (rest.takeWhile (fun d => d != '+')) with
      | none => none
      | some ids =>
        match rest.dropWhile (fun d => d != '+') with
        | [] => some ids
        | _ :: build => if validBuild build then some ids else none
    else if c = '+' then
      if validBuild rest then some [] else none
    else none

/-- Modelled from the spec: part of the grammar of `parseSemVer`.  What
follows the major number: nothing, or a dot and the minor number, then
nothing, or a dot, the patch number and the tail.  A number left out is
zero. -/
def parseAfterMajor (major : Nat) (cs : List Char) : Option SemVer :=
  match cs with
  | [] => some ⟨major, 0, 0, []⟩
  | c :: r1 =>
    if c = '.' then
      match parseVersionNumber r1 with
      | none => none
      | some (minor, r2) =>
        match r2 with
        | [] => some ⟨major, minor, 0, []⟩
        | d :: r3 =>
          if d = '.' then
            match parseVersionNumber r3 with
            | none => none
            | some (patch, r4) =>
              match parseVersionTail r4 with
              | none => none
              | some pre => some ⟨major, minor, patch, pre⟩
          else none
    else none

/-- Modelled from the spec: the spec orders version texts as semantic
versions and names no grammar.  The grammar taken is the one of Semantic
Versioning 2.0.0 behind a leading `v`, as `golang.org/x/mod/semver` (the
library `create.go` checks version texts with) reads it: `vMAJOR.MINOR.PATCH`
with an optional `-prerelease` and `+build`, and the short forms `vMAJOR` and
`vMAJOR.MINOR`.  A text of another form is no semantic version. -/
def parseSemVer (version : String) : Option SemVer :=
  match version.toList with
  | [] => none
  | c :: rest =>
    if c = 'v' then
      match parseVersionNumber rest with
      | none => none
      | some (major, r1) => parseAfterMajor major r1
    else none

/-- The lexicographic order of two lists over an order `le` of their
elements: the first place where they differ decides, and a list is below the
lists it begins. -/
def listLexLE {α : Type} [DecidableEq α] (le : α → α → Bool) : List α → List α → Bool
  | [], _ => true
  | _ :: _, [] => false
  | x :: xs, y :: ys => if x = y then listLexLE le xs ys else le x y

/-- The order of two characters by their code points. -/
def charLE (c d : Char) : Bool :=
  decide (c.toNat ≤ d.toNat)

/-- The order of two texts as texts, character by character. -/
def textLE (a b : String) : Bool :=
  listLexLE charLE a.toList b.toList

/-- Modelled from the spec: the order of two prerelease identifiers in
Semantic Versioning: numeric ones by their value, alphanumeric ones as texts,
and a numeric one below an alphanumeric one. -/
def PreId.le : PreId → PreId → Bool
  | PreId.num m, PreId.num n => decide (m ≤ n)
  | PreId.num _, PreId.alnum _ => true
  | PreId.alnum _, PreId.num _ => false
  | PreId.alnum a, PreId.alnum b => listLexLE charLE a b

/-- Modelled from the spec: the order of two prereleases in Semantic
Versioning: a release (no identifier) is above every prerelease; two
prereleases are ordered identifier by identifier, the longer one above the
one it begins. -/
def prereleaseLE : List PreId → List PreId → Bool
  | [], [] => true
  | [], _ :: _ => false
  | _ :: _, [] => true
  | x :: xs, y :: ys => listLexLE PreId.le (x :: xs) (y :: ys)

/-- Modelled from the spec: the semantic-version order: higher major wins,
then higher minor, then higher patch, then the prerelease. -/
def SemVer.le (x y : SemVer) : Bool :=
  if x.major ≠ y.major then decide (x.major < y.major)
  else if x.minor ≠ y.minor then decide (x.minor < y.minor)
  else if x.patch ≠ y.patch then decide (x.patch < y.patch)
  else prereleaseLE x.prerelease y.prerelease

/-- Modelled from the spec: `a` is at most `b` in the order the resolver
picks the highest version by ("the lexicographically/semantically highest
version string", semantic-version ordering first): two semantic versions are
ordered as such, and as texts when they are the same semantic version (they
differ in the short form or the build metadata only); a text that is no
semantic version is below every semantic version, and two such texts are
ordered as texts. -/
def semverLE (a b : String) : Bool :=
  match parseSemVer a, parseSemVer b with
  | none, none => textLE a b
  | none, some _ => true
  | some _, none => false
  | some x, some y => if x = y then textLE a b else SemVer.le x y

/-- Modelled from the spec: a compatibility table is an ordered sequence of
entries, each a runtime version with the set of the protocol versions it
supports. -/
abbrev CompatibilityTable := List (String × List Int)

/-- The failure of the resolver the spec calls `NoCompatibleVersion`. -/
def NoCompatibleVersion : String := "NoCompatibleVersion"

/-- Modelled from the spec: one step of the scan of `ResolveRuntimeFor`: an
entry that supports the protocol version replaces the best version so far
when it is at least as high. -/
def resolveStep (protocolVersion : Int) (best : Option String) (entry : String × List Int) :
    Option String :=
  if entry.2.contains protocolVersion then
    match best with
    | none => some entry.1
    | some b => if semverLE b entry.1 then some entry.1 else some b
  else
    best

/-- Modelled from the spec: `ResolveRuntimeFor` scans the table entries for
the highest runtime version whose supported protocol set contains
`protocolVersion`, and fails with `NoCompatibleVersion` if none match. -/
def ResolveRuntimeFor (protocolVersion : Int) (table : CompatibilityTable) :
    Except String String :=
  match table.foldl (resolveStep protocolVersion) none with
  | none => Except.error NoCompatibleVersion
  | some version => Except.ok version

/-- Modelled from the spec: `GetLatestLuxdVersionForRPC`, the resolver
`getNodesUpgradeInfo` calls, is not among the sources; it is the spec's
`ResolveRuntimeFor` on the table it loads, with the result as the Go pair of
the version and the error. -/
def GetLatestLuxdVersionForRPC (table : CompatibilityTable) (rpcVersion : Int) :
    String × Option String :=
  match ResolveRuntimeFor rpcVersion table with
  | Except.ok version => (version, none)
  | Except.error err => ("", some err)

/-! ## `cmd/subnetcmd/create.go` -/

/-- The constant `forceFlag`. -/
def subnetcmd.forceFlag : String := "force"

/-- The constant `latest`. -/
def subnetcmd.latest : String := "latest"

/-- The package variables the flags of `subnet create` are bound to. -/
structure subnetcmd.CreateFlags where
  forceCreate : Bool
  useSubnetEvm : Bool
  genesisFile : String
  vmFile : String
  useCustom : Bool
  evmVersion : String
  useLatestEvmVersion : Bool
  customVMRepoURL : String
  customVMBranch : String
  customVMBuildScript : String

/-- The record `models.Sidecar`, with the fields the commands set.  An ID of
the node library is kept as its text, the networks map as an association
list from the network name to subnet ID and blockchain ID. -/
structure Sidecar where
  Name : String
  VM : String
  VMVersion : String
  RPCVersion : Int
  Subnet : String
  TokenName : String
  ChainID : String
  Version : String
  Networks : GoMap String (String × String)
  ImportedFromAPM : Bool
  ImportedVMID : String
deriving DecidableEq, Repr

/-- The errors of `createSubnetConfig`, each standing for the message built
at its `return`. -/
inductive subnetcmd.CreateError where
  | configurationAlreadyExists
  | invalidSubnetName (subnetName : String) (err : String)
  | tooManyVMs
  | invalidVersionString (evmVersion : String)
  | notImplemented
  | collaborator (err : String)
deriving DecidableEq, Repr

/-- What a subnet command does to the application directory and to the
metrics service. -/
inductive subnetcmd.Effect where
  | WriteGenesisFile (subnetName : String) (genesisBytes : String)
  | CreateSidecar (sc : Sidecar)
  | HandleTracking (repoName : String) (subnetName : String)
deriving DecidableEq, Repr

/-- The collaborators of `createSubnetConfig` that are outside the sources:
the application directory (`GenesisExists`, `WriteGenesisFile`,
`CreateSidecar`, `LoadEvmGenesis`), the prompt, the VM type names and
conversions of `pkg/models`, `semver.IsValid`, the two config builders of
`pkg/vm`, and the tables of the `unicode` library above ASCII. -/
structure subnetcmd.CreateEnv where
  GenesisExists : String → Bool
  WriteGenesisFile : String → String → Option String
  CreateSidecar : Sidecar → Option String
  LoadEvmGenesis : String → Option String
  CaptureList : String → List String → Except String String
  SubnetEvm : String
  CustomVM : String
  VMTypeFromString : String → String
  RepoName : String → String
  semverIsValid : String → Bool
  CreateEvmSubnetConfig : String → String → String → Except String (String × Sidecar)
  CreateCustomSubnetConfig :
    String → String → String → String → String → String → Except String (String × Sidecar)
  letterAboveASCII : Char → Bool
  numberAboveASCII : Char → Bool

/-- The result of a subnet command: what it did, in order, and its error. -/
structure subnetcmd.Outcome (ε : Type) where
  effects : List subnetcmd.Effect
  err : Option ε

/-- The constant `unicode.MaxASCII`. -/
def unicodeMaxASCII : Nat := 0x7F

/-- The library function `unicode.IsLetter`: the Latin letters on ASCII, the
library's table above. -/
def unicodeIsLetter (aboveASCII : Char → Bool) (r : Char) : Bool :=
  if r.toNat ≤ unicodeMaxASCII then
    (decide ('A'.toNat ≤ r.toNat) && decide (r.toNat ≤ 'Z'.toNat)) ||
      (decide ('a'.toNat ≤ r.toNat) && decide (r.toNat ≤ 'z'.toNat))
  else aboveASCII r

/-- The library function `unicode.IsNumber`: the decimal digits on ASCII, the
library's table above. -/
def unicodeIsNumber (aboveASCII : Char → Bool) (r : Char) : Bool :=
  if r.toNat ≤ unicodeMaxASCII then
    decide ('0'.toNat ≤ r.toNat) && decide (r.toNat ≤ '9'.toNat)
  else aboveASCII r

/-- The error `errIllegalNameCharacter`. -/
def subnetcmd.errIllegalNameCharacter : String :=
  "illegal name character: only letters, no special characters allowed"

/-- The loop of `checkInvalidSubnetNames` over the runes of the name. -/
def subnetcmd.checkRunes (letterAboveASCII numberAboveASCII : Char → Bool) :
    List Char → Option String
  | [] => none
  | r :: rest =>
    if decide (r.toNat > unicodeMaxASCII) ||
        !(unicodeIsLetter letterAboveASCII r || unicodeIsNumber numberAboveASCII r ||
          r == ' ') then
      some subnetcmd.errIllegalNameCharacter
    else
      subnetcmd.checkRunes letterAboveASCII numberAboveASCII rest

/-- The function `checkInvalidSubnetNames`. -/
def subnetcmd.checkInvalidSubnetNames (letterAboveASCII numberAboveASCII : Char → Bool)
    (name : String) : Option String :=
  subnetcmd.checkRunes letterAboveASCII numberAboveASCII name.toList

/-- The loop of `moreThanOneVMSelected`, with `firstSelect` as its state. -/
def subnetcmd.moreThanOneLoop : List Bool → Bool → Bool
  | [], _ => false
  | val :: rest, firstSelect =>
    if firstSelect && val then true
    else if val then subnetcmd.moreThanOneLoop rest true
    else subnetcmd.moreThanOneLoop rest firstSelect

/-- The function `moreThanOneVMSelected`. -/
def subnetcmd.moreThanOneVMSelected (useSubnetEvm useCustom : Bool) : Bool :=
  let vmVars := [useSubnetEvm, useCustom]
  subnetcmd.moreThanOneLoop vmVars false

/-- The function `getVMFromFlag`. -/
def subnetcmd.getVMFromFlag (SubnetEvm CustomVM : String) (useSubnetEvm useCustom : Bool) :
    String :=
  if useSubnetEvm then SubnetEvm
  else if useCustom then CustomVM
  else ""

/-- The function `sendMetrics`: it fails when the genesis cannot be loaded,
and hands the flags to `metrics.HandleTracking` otherwise (the flags
themselves are left out). -/
def subnetcmd.sendMetrics (env : subnetcmd.CreateEnv) (repoName subnetName : String) :
    subnetcmd.Outcome subnetcmd.CreateError :=
  match env.LoadEvmGenesis subnetName with
  | some err => ⟨[], some (subnetcmd.CreateError.collaborator err)⟩
  | none => ⟨[subnetcmd.Effect.HandleTracking repoName subnetName], none⟩

/-- The part of `createSubnetConfig` that settles `subnetType`: the VM of the
flags, or the answer to the prompt when no VM flag is given. -/
def subnetcmd.chooseSubnetType (env : subnetcmd.CreateEnv) (flags : subnetcmd.CreateFlags) :
    Except String String :=
  let subnetType :=
    subnetcmd.getVMFromFlag env.SubnetEvm env.CustomVM flags.useSubnetEvm flags.useCustom
  if subnetType == "" then
    match env.CaptureList "Choose your VM" [env.SubnetEvm, env.CustomVM] with
    | Except.error err => Except.error err
    | Except.ok subnetTypeStr => Except.ok (env.VMTypeFromString subnetTypeStr)
  else
    Except.ok subnetType

/-- The value of `evmVersion` after `if useLatestEvmVersion`. -/
def subnetcmd.effectiveEvmVersion (flags : subnetcmd.CreateFlags) : String :=
  if flags.useLatestEvmVersion then subnetcmd.latest else flags.evmVersion

/-- The part of `createSubnetConfig` from the `switch subnetType` on. -/
def subnetcmd.createAndWrite (env : subnetcmd.CreateEnv) (flags : subnetcmd.CreateFlags)
    (subnetName subnetType evmVersion : String) : subnetcmd.Outcome subnetcmd.CreateError :=
  let built : Except subnetcmd.CreateError (String × Sidecar) :=
    if subnetType == env.SubnetEvm then
      match env.CreateEvmSubnetConfig subnetName flags.genesisFile evmVersion with
      | Except.error err => Except.error (subnetcmd.CreateError.collaborator err)
      | Except.ok r => Except.ok r
    else if subnetType == env.CustomVM then
      match env.CreateCustomSubnetConfig subnetName flags.genesisFile flags.customVMRepoURL
          flags.customVMBranch flags.customVMBuildScript flags.vmFile with
      | Except.error err => Except.error (subnetcmd.CreateError.collaborator err)
      | Except.ok r => Except.ok r
    else
      Except.error subnetcmd.CreateError.notImplemented
  match built with
  | Except.error err => ⟨[], some err⟩
  | Except.ok (genesisBytes, sc) =>
    match env.WriteGenesisFile subnetName genesisBytes with
    | some err =>
      ⟨[subnetcmd.Effect.WriteGenesisFile subnetName genesisBytes],
        some (subnetcmd.CreateError.collaborator err)⟩
    | none =>
      let sc' := { sc with ImportedFromAPM := false }
      match env.CreateSidecar sc' with
      | some err =>
        ⟨[subnetcmd.Effect.WriteGenesisFile subnetName genesisBytes,
            subnetcmd.Effect.CreateSidecar sc'],
          some (subnetcmd.CreateError.collaborator err)⟩
      | none =>
        if subnetType == env.SubnetEvm then
          let m := subnetcmd.sendMetrics env (env.RepoName subnetType) subnetName
          ⟨[subnetcmd.Effect.WriteGenesisFile subnetName genesisBytes,
              subnetcmd.Effect.CreateSidecar sc'] ++ m.effects, m.err⟩
        else
          ⟨[subnetcmd.Effect.WriteGenesisFile subnetName genesisBytes,
              subnetcmd.Effect.CreateSidecar sc'], none⟩

/-- The function `createSubnetConfig`, for the subnet name `args[0]`. -/
def subnetcmd.createSubnetConfig (env : subnetcmd.CreateEnv) (flags : subnetcmd.CreateFlags)
    (subnetName : String) : subnetcmd.Outcome subnetcmd.CreateError :=
  if env.GenesisExists subnetName && !flags.forceCreate then
    ⟨[], some subnetcmd.CreateError.configurationAlreadyExists⟩
  else
    match subnetcmd.checkInvalidSubnetNames env.letterAboveASCII env.numberAboveASCII
        subnetName with
    | some err => ⟨[], some (subnetcmd.CreateError.invalidSubnetName subnetName err)⟩
    | none =>
      if subnetcmd.moreThanOneVMSelected flags.useSubnetEvm flags.useCustom then
        ⟨[], some subnetcmd.CreateError.tooManyVMs⟩
      else
        match subnetcmd.chooseSubnetType env flags with
        | Except.error err => ⟨[], some (subnetcmd.CreateError.collaborator err)⟩
        | Except.ok subnetType =>
          let evmVersion := subnetcmd.effectiveEvmVersion flags
          if evmVersion != subnetcmd.latest && evmVersion != "" &&
              !env.semverIsValid evmVersion then
            ⟨[], some (subnetcmd.CreateError.invalidVersionString evmVersion)⟩
          else
            subnetcmd.createAndWrite env flags subnetName subnetType evmVersion

/-! ## `cmd/subnetcmd/import_from_api.go` -/

/-- The constant `constants.SidecarVersion`. -/
def SidecarVersion : String := "1.4.0"

/-- The constant `constants.DefaultTokenName`. -/
def DefaultTokenName : String := "TEST"

/-- The constant `constants.FujiAPIEndpoint`. -/
def FujiAPIEndpoint : String := "https://api.lux-test.network"

/-- The constant `constants.MainnetAPIEndpoint`. -/
def MainnetAPIEndpoint : String := "https://api.lux.network"

/-- The constant `constants.SubnetEVMRepoName`. -/
def SubnetEVMRepoName : String := "subnet-evm"

/-- The networks of `models.Network` the import command tells apart. -/
inductive Network where
  | Undefined
  | Mainnet
  | Fuji
  | Local
deriving DecidableEq, Repr

/-- The package variables the flags of `subnet import public` are bound to. -/
structure subnetcmd.ImportFlags where
  deployTestnet : Bool
  deployMainnet : Bool
  useSubnetEvm : Bool
  useSpacesVM : Bool
  useCustom : Bool
  overwriteImport : Bool
  genesisFilePath : String
  subnetIDstr : String
  nodeURL : String

/-- The reply `info.GetNodeVersionReply` of the node library, with the fields
the import reads. -/
structure GetNodeVersionReply where
  VMVersions : GoMap String String
  RPCProtocolVersion : Nat
deriving DecidableEq, Repr

/-- A chain as `GetBlockchains` of the node library lists it; IDs are kept as
their text. -/
structure APIBlockchain where
  ID : String
  Name : String
  SubnetID : String
  VMID : String
deriving DecidableEq, Repr

/-- The errors of `importRunningSubnet`, each standing for the message built
at its `return`. -/
inductive subnetcmd.ImportError where
  | collaborator (err : String)
  | failedToQueryNode (err : String)
  | subnetNotFound (subnetIDstr : String)
  | customNotImplemented
  | unexpectedVMType (vmType : String)
  | failedGettingRPCVersion (vmType : String) (vmVersion : String)
  | failedCreatingSidecar (err : String)
deriving DecidableEq, Repr

/-- The collaborators of `importRunningSubnet` that are outside the sources:
the application directory, the prompt, the names and conversions of
`pkg/models`, the info and platform clients of the node library, `ids`,
`os.ReadFile`, the downloader, `vm.GetRPCProtocolVersion` and the decoding of
the genesis (the chain ID of an EVM genesis, the validity of a SpacesVM
genesis). -/
structure subnetcmd.ImportEnv where
  GenesisExists : String → Bool
  WriteGenesisFile : String → String → Option String
  CreateSidecar : Sidecar → Option String
  CaptureList : String → List String → Except String String
  CaptureExistingFilepath : String → Except String String
  CaptureYesNo : String → Except String Bool
  CaptureString : String → Except String String
  CaptureID : String → Except String String
  NetworkFromString : String → Network
  NetworkString : Network → String
  GetNodeVersion : String → Except String GetNodeVersionReply
  idsFromString : String → Except String String
  idsEmpty : String
  GetBlockchains : String → Except String (List APIBlockchain)
  ReadFile : String → Except String String
  SubnetEvm : String
  SpacesVM : String
  CustomVM : String
  VMTypeFromString : String → String
  AvaLabsOrg : String
  SpacesVMRepoName : String
  GetAllReleasesForRepo : String → String → Except String (List String)
  GetRPCProtocolVersion : String → String → Except String Int
  evmGenesisChainID : String → Except String String
  spacesGenesisCheck : String → Option String

/-- What `importRunningSubnet` has gathered when it reaches the write of the
genesis file. -/
structure subnetcmd.Gathered where
  network : Network
  reply : Option GetNodeVersionReply
  subnetID : String
  blockchainID : String
  vmID : String
  subnetName : String
  genBytes : String

/-- The part of `importRunningSubnet` that settles `network`. -/
def subnetcmd.chooseNetwork (env : subnetcmd.ImportEnv) (flags : subnetcmd.ImportFlags) :
    Except subnetcmd.ImportError Network :=
  let network :=
    if flags.deployTestnet then Network.Fuji
    else if flags.deployMainnet then Network.Mainnet
    else Network.Undefined
  if network = Network.Undefined then
    match env.CaptureList "Choose a network to import from"
        [env.NetworkString Network.Fuji, env.NetworkString Network.Mainnet] with
    | Except.error err => Except.error (subnetcmd.ImportError.collaborator err)
    | Except.ok networkStr => Except.ok (env.NetworkFromString networkStr)
  else
    Except.ok network

/-- The part of `importRunningSubnet` that settles `genesisFilePath`. -/
def subnetcmd.chooseGenesisFilePath (env : subnetcmd.ImportEnv)
    (flags : subnetcmd.ImportFlags) : Except subnetcmd.ImportError String :=
  if flags.genesisFilePath == "" then
    match env.CaptureExistingFilepath "Provide the path to the genesis file" with
    | Except.error err => Except.error (subnetcmd.ImportError.collaborator err)
    | Except.ok p => Except.ok p
  else
    Except.ok flags.genesisFilePath

/-- The part of `importRunningSubnet` that settles `reply`: a node is queried
only when no `--node-url` is given and the user says that nodes are
deployed. -/
def subnetcmd.queryNode (env : subnetcmd.ImportEnv) (flags : subnetcmd.ImportFlags) :
    Except subnetcmd.ImportError (Option GetNodeVersionReply) :=
  if flags.nodeURL == "" then
    match env.CaptureYesNo "Have nodes already been deployed to this subnet?" with
    | Except.error err => Except.error (subnetcmd.ImportError.collaborator err)
    | Except.ok yes =>
      if yes then
        match env.CaptureString
            "Please provide an API URL of such a node so we can query its VM version (e.g. http://111.22.33.44:5555)" with
        | Except.error err => Except.error (subnetcmd.ImportError.collaborator err)
        | Except.ok nodeURL =>
          match env.GetNodeVersion nodeURL with
          | Except.error err => Except.error (subnetcmd.ImportError.failedToQueryNode err)
          | Except.ok reply => Except.ok (some reply)
      else
        Except.ok none
  else
    Except.ok none

/-- The part of `importRunningSubnet` that settles `subnetID`. -/
def subnetcmd.chooseSubnetID (env : subnetcmd.ImportEnv) (flags : subnetcmd.ImportFlags) :
    Except subnetcmd.ImportError String :=
  if flags.subnetIDstr == "" then
    match env.CaptureID "What is the ID of the subnet?" with
    | Except.error err => Except.error (subnetcmd.ImportError.collaborator err)
    | Except.ok subnetID => Except.ok subnetID
  else
    match env.idsFromString flags.subnetIDstr with
    | Except.error err => Except.error (subnetcmd.ImportError.collaborator err)
    | Except.ok subnetID => Except.ok subnetID

/-- The loop of `importRunningSubnet` over the chains: the first chain of the
subnet gives `blockchainID`, `vmID` and `subnetName`, which keep their zero
values when there is none. -/
def subnetcmd.findChain (idsEmpty : String) (subnetID : String) :
    List APIBlockchain → String × String × String
  | [] => (idsEmpty, idsEmpty, "")
  | ch :: rest =>
    if ch.SubnetID == subnetID then (ch.ID, ch.VMID, ch.Name)
    else subnetcmd.findChain idsEmpty subnetID rest

/-- The part of `importRunningSubnet` before the write of the genesis
file. -/
def subnetcmd.importGather (env : subnetcmd.ImportEnv) (flags : subnetcmd.ImportFlags) :
    Except subnetcmd.ImportError subnetcmd.Gathered :=
  match subnetcmd.chooseNetwork env flags with
  | Except.error err => Except.error err
  | Except.ok network =>
    match subnetcmd.chooseGenesisFilePath env flags with
    | Except.error err => Except.error err
    | Except.ok genesisFilePath =>
      match subnetcmd.queryNode env flags with
      | Except.error err => Except.error err
      | Except.ok reply =>
        match subnetcmd.chooseSubnetID env flags with
        | Except.error err => Except.error err
        | Except.ok subnetID =>
          let pubAPI :=
            match network with
            | Network.Fuji => FujiAPIEndpoint
            | Network.Mainnet => MainnetAPIEndpoint
            | _ => ""
          match env.GetBlockchains pubAPI with
          | Except.error err => Except.error (subnetcmd.ImportError.collaborator err)
          | Except.ok chains =>
            let found := subnetcmd.findChain env.idsEmpty subnetID chains
            let blockchainID := found.1
            let vmID := found.2.1
            let subnetName := found.2.2
            if blockchainID == env.idsEmpty || vmID == env.idsEmpty then
              Except.error (subnetcmd.ImportError.subnetNotFound flags.subnetIDstr)
            else
              match env.ReadFile genesisFilePath with
              | Except.error err => Except.error (subnetcmd.ImportError.collaborator err)
              | Except.ok genBytes =>
                Except.ok
                  { network := network, reply := reply, subnetID := subnetID,
                    blockchainID := blockchainID, vmID := vmID, subnetName := subnetName,
                    genBytes := genBytes }

/-- The part of `importRunningSubnet` that settles `vmType`, with the
`getVMFromFlag` of `create.go`. -/
def subnetcmd.chooseImportVMType (env : subnetcmd.ImportEnv) (flags : subnetcmd.ImportFlags) :
    Except subnetcmd.ImportError String :=
  let vmType :=
    subnetcmd.getVMFromFlag env.SubnetEvm env.CustomVM flags.useSubnetEvm flags.useCustom
  if vmType == "" then
    match env.CaptureList "What's this VM's type?" [env.SubnetEvm, env.SpacesVM, env.CustomVM] with
    | Except.error err => Except.error (subnetcmd.ImportError.collaborator err)
    | Except.ok subnetTypeStr => Except.ok (env.VMTypeFromString subnetTypeStr)
  else
    Except.ok vmType

/-- The loop `for _, v := range reply.VMVersions` of `importRunningSubnet`:
it ranges over the values of the map and keeps the first one that equals the
text of the VM ID. -/
def subnetcmd.pickVMVersion (vmIDstr : String) (current : String) :
    GoMap String String → String
  | [] => current
  | (_, v) :: rest =>
    if v == vmIDstr then v else subnetcmd.pickVMVersion vmIDstr current rest

/-- The part of `importRunningSubnet` that fills `VMVersion` and `RPCVersion`
of the sidecar: from the reply when a node was queried, from the user and
the downloader otherwise. -/
def subnetcmd.fillVersions (env : subnetcmd.ImportEnv) (g : subnetcmd.Gathered)
    (vmType : String) (sc : Sidecar) : Except subnetcmd.ImportError Sidecar :=
  match g.reply with
  | some reply =>
    Except.ok
      { sc with
        VMVersion := subnetcmd.pickVMVersion g.vmID sc.VMVersion reply.VMVersions
        RPCVersion := Int.ofNat reply.RPCProtocolVersion }
  | none =>
    let picked : Except subnetcmd.ImportError String :=
      if vmType == env.SubnetEvm then
        match env.GetAllReleasesForRepo env.AvaLabsOrg SubnetEVMRepoName with
        | Except.error err => Except.error (subnetcmd.ImportError.collaborator err)
        | Except.ok versions =>
          match env.CaptureList "Pick the version for this VM" versions with
          | Except.error err => Except.error (subnetcmd.ImportError.collaborator err)
          | Except.ok v => Except.ok v
      else if vmType == env.SpacesVM then
        match env.GetAllReleasesForRepo env.AvaLabsOrg env.SpacesVMRepoName with
        | Except.error err => Except.error (subnetcmd.ImportError.collaborator err)
        | Except.ok versions =>
          match env.CaptureList "Pick the version for this VM" versions with
          | Except.error err => Except.error (subnetcmd.ImportError.collaborator err)
          | Except.ok v => Except.ok v
      else if vmType == env.CustomVM then
        Except.error subnetcmd.ImportError.customNotImplemented
      else
        Except.error (subnetcmd.ImportError.unexpectedVMType vmType)
    match picked with
    | Except.error err => Except.error err
    | Except.ok vmVersion =>
      match env.GetRPCProtocolVersion vmType vmVersion with
      | Except.error _ =>
        Except.error (subnetcmd.ImportError.failedGettingRPCVersion vmType vmVersion)
      | Except.ok rpcVersion =>
        Except.ok { sc with VMVersion := vmVersion, RPCVersion := rpcVersion }

/-- The last `switch vmType` of `importRunningSubnet`: the genesis is decoded
for the chain ID of an EVM subnet, and checked for a SpacesVM subnet. -/
def subnetcmd.fillChainID (env : subnetcmd.ImportEnv) (g : subnetcmd.Gathered)
    (vmType : String) (sc : Sidecar) : Except subnetcmd.ImportError Sidecar :=
  if vmType == env.SubnetEvm then
    match env.evmGenesisChainID g.genBytes with
    | Except.error err => Except.error (subnetcmd.ImportError.collaborator err)
    | Except.ok chainID => Except.ok { sc with ChainID := chainID }
  else if vmType == env.SpacesVM then
    match env.spacesGenesisCheck g.genBytes with
    | some err => Except.error (subnetcmd.ImportError.collaborator err)
    | none => Except.ok sc
  else
    Except.ok sc

/-- The part of `importRunningSubnet` between the write of the genesis file
and the write of the sidecar: the sidecar to write. -/
def subnetcmd.importSidecar (env : subnetcmd.ImportEnv) (flags : subnetcmd.ImportFlags)
    (g : subnetcmd.Gathered) : Except subnetcmd.ImportError Sidecar :=
  match subnetcmd.chooseImportVMType env flags with
  | Except.error err => Except.error err
  | Except.ok vmType =>
    let vmIDstr := g.vmID
    let sc : Sidecar :=
      { Name := g.subnetName
        VM := vmType
        VMVersion := ""
        RPCVersion := 0
        Subnet := g.subnetName
        TokenName := DefaultTokenName
        ChainID := ""
        Version := SidecarVersion
        Networks := [(env.NetworkString g.network, (g.subnetID, g.blockchainID))]
        ImportedFromAPM := true
        ImportedVMID := vmIDstr }
    match subnetcmd.fillVersions env g vmType sc with
    | Except.error err => Except.error err
    | Except.ok sc1 => subnetcmd.fillChainID env g vmType sc1

/-- The function `importRunningSubnet`. -/
def subnetcmd.importRunningSubnet (env : subnetcmd.ImportEnv) (flags : subnetcmd.ImportFlags) :
    subnetcmd.Outcome subnetcmd.ImportError :=
  match subnetcmd.importGather env flags with
  | Except.error err => ⟨[], some err⟩
  | Except.ok g =>
    match env.WriteGenesisFile g.subnetName g.genBytes with
    | some err =>
      ⟨[subnetcmd.Effect.WriteGenesisFile g.subnetName g.genBytes],
        some (subnetcmd.ImportError.collaborator err)⟩
    | none =>
      match subnetcmd.importSidecar env flags g with
      | Except.error err =>
        ⟨[subnetcmd.Effect.WriteGenesisFile g.subnetName g.genBytes], some err⟩
      | Except.ok sc =>
        match env.CreateSidecar sc with
        | some err =>
          ⟨[subnetcmd.Effect.WriteGenesisFile g.subnetName g.genBytes,
              subnetcmd.Effect.CreateSidecar sc],
            some (subnetcmd.ImportError.failedCreatingSidecar err)⟩
        | none =>
          ⟨[subnetcmd.Effect.WriteGenesisFile g.subnetName g.genBytes,
              subnetcmd.Effect.CreateSidecar sc], none⟩

/-! ## `cmd/networkcmd/start.go` -/

/-- The constant `constants.DefaultSnapshotName`. -/
def DefaultSnapshotName : String := "default-1654102509"

/-- The options `startNetwork` passes to `LoadSnapshot`. -/
inductive networkcmd.OpOption where
  | WithExecPath (execPath : String)
  | WithRootDataDir (rootDataDir : String)
  | WithReassignPortsIfUsed (reassign : Bool)
  | WithPluginDir (pluginDir : String)
  | WithGlobalNodeConfig (nodeConfig : String)
deriving DecidableEq, Repr

/-- What `startNetwork` prints, in order; `ι` is the cluster information of
the network runner. -/
inductive networkcmd.Output (ι : Type) where
  | PrintToUser (msg : String)
  | Println
  | PrintTableEndpoints (clusterInfo : ι)
deriving DecidableEq, Repr

/-- The errors of `startNetwork`, each standing for the message built at its
`return`. -/
inductive networkcmd.StartError where
  | collaborator (err : String)
  | failedToStart (err : String)
  | failedWaiting (err : String)
deriving DecidableEq, Repr

/-- The collaborators of `startNetwork` that are outside the sources: the
local deployer made for the node version (`StartServer`, `SetupLocalEnv`,
`WaitForHealthy`), the gRPC client and its `LoadSnapshot`, the run directory,
`path.Join`, `utils.MkDirWithTimestamp`, the node configuration,
`server.IsServerError` with `server.ErrAlreadyBootstrapped`, and
`subnet.GetEndpoints`. -/
structure networkcmd.StartEnv (ι : Type) where
  StartServer : String → Option String
  SetupLocalEnv : String → Except String (String × String)
  NewGRPCClient : Option String
  GetRunDir : String
  pathJoin : String → String → String
  MkDirWithTimestamp : String → Except String String
  LoadNodeConfig : Except String String
  LoadSnapshot : String → List networkcmd.OpOption → Option String
  IsServerError : String → String → Bool
  ErrAlreadyBootstrapped : String
  WaitForHealthy : String → Except String ι
  GetEndpoints : ι → List String

/-- What a run of `startNetwork` printed and the error it returned. -/
structure networkcmd.StartOutcome (ι : Type) where
  printed : List (networkcmd.Output ι)
  err : Option networkcmd.StartError

/-- The message `startNetwork` prints before it loads the snapshot. -/
def networkcmd.startMsg (snapshotName : String) : String :=
  if snapshotName == DefaultSnapshotName then
    "Starting previously deployed and stopped snapshot"
  else
    "Starting previously deployed and stopped snapshot " ++ snapshotName ++ "..."

/-- The options of `LoadSnapshot` as `startNetwork` builds them. -/
def networkcmd.loadSnapshotOpts (avalancheGoBinPath pluginDir outputDir configStr : String) :
    List networkcmd.OpOption :=
  let opts :=
    [networkcmd.OpOption.WithExecPath avalancheGoBinPath,
      networkcmd.OpOption.WithRootDataDir outputDir,
      networkcmd.OpOption.WithReassignPortsIfUsed true,
      networkcmd.OpOption.WithPluginDir pluginDir]
  if configStr != "" then opts ++ [networkcmd.OpOption.WithGlobalNodeConfig configStr]
  else opts

/-- The end of `startNetwork`, from `WaitForHealthy` on; `printed` is what
has been printed so far. -/
def networkcmd.waitAndReport {ι : Type} (env : networkcmd.StartEnv ι) (avagoVersion : String)
    (printed : List (networkcmd.Output ι)) : networkcmd.StartOutcome ι :=
  match env.WaitForHealthy avagoVersion with
  | Except.error err => ⟨printed, some (networkcmd.StartError.failedWaiting err)⟩
  | Except.ok clusterInfo =>
    let endpoints := env.GetEndpoints clusterInfo
    if endpoints.length > 0 then
      ⟨printed ++
          [networkcmd.Output.Println,
            networkcmd.Output.PrintToUser "Network ready to use. Local network node endpoints:",
            networkcmd.Output.PrintTableEndpoints clusterInfo], none⟩
    else
      ⟨printed ++ [networkcmd.Output.Println], none⟩

/-- The part of `startNetwork` from `LoadSnapshot` on. -/
def networkcmd.loadAndWait {ι : Type} (env : networkcmd.StartEnv ι)
    (avagoVersion snapshotName : String) (opts : List networkcmd.OpOption)
    (printed : List (networkcmd.Output ι)) : networkcmd.StartOutcome ι :=
  match env.LoadSnapshot snapshotName opts with
  | some err =>
    if !env.IsServerError err env.ErrAlreadyBootstrapped then
      ⟨printed, some (networkcmd.StartError.failedToStart err)⟩
    else
      networkcmd.waitAndReport env avagoVersion
        (printed ++
          [networkcmd.Output.PrintToUser "Network has already been booted. Wait until healthy..."])
  | none =>
    networkcmd.waitAndReport env avagoVersion
      (printed ++ [networkcmd.Output.PrintToUser "Booting Network. Wait until healthy..."])

/-- The function `startNetwork`; `avagoVersion` and `snapshotName` are the
package variables the flags `--node-version` and `--snapshot-name` are bound
to. -/
def networkcmd.startNetwork {ι : Type} (env : networkcmd.StartEnv ι)
    (avagoVersion snapshotName : String) : networkcmd.StartOutcome ι :=
  match env.StartServer avagoVersion with
  | some err => ⟨[], some (networkcmd.StartError.collaborator err)⟩
  | none =>
    match env.SetupLocalEnv avagoVersion with
    | Except.error err => ⟨[], some (networkcmd.StartError.collaborator err)⟩
    | Except.ok (avalancheGoBinPath, pluginDir) =>
      match env.NewGRPCClient with
      | some err => ⟨[], some (networkcmd.StartError.collaborator err)⟩
      | none =>
        let printed : List (networkcmd.Output ι) :=
          [networkcmd.Output.PrintToUser (networkcmd.startMsg snapshotName)]
        let outputDirPrefix := env.pathJoin env.GetRunDir "restart"
        match env.MkDirWithTimestamp outputDirPrefix with
        | Except.error err => ⟨printed, some (networkcmd.StartError.collaborator err)⟩
        | Except.ok outputDir =>
          match env.LoadNodeConfig with
          | Except.error err => ⟨printed, some (networkcmd.StartError.collaborator err)⟩
          | Except.ok configStr =>
            networkcmd.loadAndWait env avagoVersion snapshotName
              (networkcmd.loadSnapshotOpts avalancheGoBinPath pluginDir outputDir configStr)
              printed

/-! ## The file system behind `os` -/

/-- A path, as the list of its components: `filepath.Join` of a path and of
names of directory entries appends the names. -/
abbrev OsPath := List String

/-- An entry of the file system: a regular file or a directory at a path. -/
structure OsEntry where
  path : OsPath
  isDir : Bool
deriving DecidableEq, Repr

/-- The file system: the entries that exist.  An entry lies in the directory
at the path that is its own path without the last component. -/
abbrev FileSystem := List OsEntry

/-- The calls of `os` that `clean` makes by itself. -/
inductive OsCall where
  | Stat (name : OsPath)
  | ReadDir (name : OsPath)
  | Remove (name : OsPath)
deriving DecidableEq, Repr

/-- The errors of `os.Stat`, told apart as `errors.Is(err, os.ErrNotExist)`
tells them apart. -/
inductive StatError where
  | notExist
  | other (err : String)
deriving DecidableEq, Repr

/-- Whether there is an entry at the path. -/
def osExists (fs : FileSystem) (name : OsPath) : Bool :=
  fs.any (fun e => e.path == name)

/-- The name under which the path lies in the directory `dir`, if it lies
there. -/
def childName (dir : OsPath) (name : OsPath) : Option String :=
  if name.dropLast = dir then name.getLast? else none

/-- The names of the entries of the directory `dir`. -/
def osChildren (fs : FileSystem) (dir : OsPath) : List String :=
  fs.filterMap (fun e => childName dir e.path)

/-- Whether a regular file lies on the way to the path: an entry that is no
directory at a path that is a proper beginning of `name`. -/
def osUnderFile (fs : FileSystem) (name : OsPath) : Bool :=
  fs.any (fun e => !e.isDir && decide (e.path.length < name.length) &&
    name.take e.path.length == e.path)

/-- The call `os.Stat(name)`, as far as `clean` reads it: no error when there
is an entry; when there is none, the error `ENOTDIR` (which is not
`os.ErrNotExist`) if a regular file lies on the way to the path, and
`os.ErrNotExist` otherwise.  `fault` is what else can go wrong (permissions,
the device): an error for that call, whatever the entries. -/
def osStat (fault : OsCall → Option String) (fs : FileSystem) (name : OsPath) :
    Option StatError :=
  match fault (OsCall.Stat name) with
  | some err => some (StatError.other err)
  | none =>
    if osExists fs name then none
    else if osUnderFile fs name then some (StatError.other "stat: not a directory")
    else some StatError.notExist

/-- The call `os.ReadDir(name)`: the names of the entries of the directory,
an error when there is no directory at the path. -/
def osReadDir (fault : OsCall → Option String) (fs : FileSystem) (name : OsPath) :
    Except String (List String) :=
  match fault (OsCall.ReadDir name) with
  | some err => Except.error err
  | none =>
    if fs.any (fun e => e.path == name && e.isDir) then Except.ok (osChildren fs name)
    else Except.error "readdir: no such directory"

/-- The call `os.Remove(name)`: it removes a file or an empty directory, and
fails when there is nothing at the path or the directory has an entry. -/
def osRemove (fault : OsCall → Option String) (fs : FileSystem) (name : OsPath) :
    Except String FileSystem :=
  match fault (OsCall.Remove name) with
  | some err => Except.error err
  | none =>
    if !osExists fs name then Except.error "remove: no such file or directory"
    else if !(osChildren fs name).isEmpty then Except.error "remove: directory not empty"
    else Except.ok (fs.filter (fun e => e.path != name))

/-! ## `cmd/networkcmd/clean.go` -/

/-- The constant `constants.LuxCliBinDir`. -/
def LuxCliBinDir : String := "bin"

/-- The constant `constants.BackendCmd`. -/
def BackendCmd : String := "cli-backend"

/-- A process of `process.Processes()`: what `Cmdline` and `Terminate` return
for it. -/
structure Process where
  Cmdline : Except String String
  Terminate : Option String

/-- What `clean` logs, prints and terminates, in order. -/
inductive networkcmd.CleanOutput where
  | LogInfo (msg : String)
  | LogWarn (msg : String) (err : String)
  | PrintToUser (msg : String)
  | Terminate (cmdline : String)
deriving DecidableEq, Repr

/-- The collaborators of `clean` that are outside the sources:
`subnet.SetDefaultSnapshot` and `binutils.KillgRPCServerProcess`, which may
change the file system as they see fit, the directories of the application,
the constant `constants.EVMPlugin`, the faults of the `os` calls,
`os.RemoveAll`, the process table and `regexp`. -/
structure networkcmd.CleanEnv where
  GetSnapshotsDir : OsPath
  SetDefaultSnapshot : OsPath → Bool → FileSystem → FileSystem × Option String
  KillgRPCServerProcess : FileSystem → FileSystem × Option String
  GetBaseDir : OsPath
  GetNodeBinDir : OsPath
  EVMPlugin : String
  ioFault : OsCall → Option String
  RemoveAll : OsPath → FileSystem → FileSystem × Option String
  Processes : Except String (List Process)
  MatchString : String → String → Bool

/-- The file system `clean` leaves, what it logged and printed, and the error
it returned. -/
structure networkcmd.CleanOutcome where
  fs : FileSystem
  output : List networkcmd.CleanOutput
  err : Option String

/-- The function `cleanBins`. -/
def networkcmd.cleanBins (env : networkcmd.CleanEnv) (dir : OsPath) (fs : FileSystem) :
    FileSystem × List networkcmd.CleanOutput :=
  match env.RemoveAll dir fs with
  | (fs1, some err) =>
    (fs1, [networkcmd.CleanOutput.PrintToUser ("Removal failed: " ++ err),
      networkcmd.CleanOutput.PrintToUser "All existing binaries removed."])
  | (fs1, none) => (fs1, [networkcmd.CleanOutput.PrintToUser "All existing binaries removed."])

/-- The loop of `killAllBackendsByName` over the processes. -/
def networkcmd.killLoop (regexMatch : String → Bool) :
    List Process → List networkcmd.CleanOutput × Option String
  | [] => ([], none)
  | p :: rest =>
    match p.Cmdline with
    | Except.error _ => networkcmd.killLoop regexMatch rest
    | Except.ok name =>
      if regexMatch name then
        match p.Terminate with
        | some err => ([networkcmd.CleanOutput.Terminate name], some err)
        | none =>
          let r := networkcmd.killLoop regexMatch rest
          (networkcmd.CleanOutput.Terminate name :: r.1, r.2)
      else networkcmd.killLoop regexMatch rest

/-- The function `killAllBackendsByName`. -/
def networkcmd.killAllBackendsByName (env : networkcmd.CleanEnv) :
    List networkcmd.CleanOutput × Option String :=
  match env.Processes with
  | Except.error err => ([], some err)
  | Except.ok procs =>
    networkcmd.killLoop (env.MatchString (".* " ++ BackendCmd ++ ".*")) procs

/-- The inner loop of `clean`, over the entries of one plugins directory. -/
def networkcmd.removePlugins (env : networkcmd.CleanEnv) (pluginDir : OsPath) :
    List String → FileSystem → FileSystem × Option String
  | [], fs => (fs, none)
  | plugin :: rest, fs =>
    if plugin != env.EVMPlugin then
      match osRemove env.ioFault fs (pluginDir ++ [plugin]) with
      | Except.error err => (fs, some err)
      | Except.ok fs1 => networkcmd.removePlugins env pluginDir rest fs1
    else networkcmd.removePlugins env pluginDir rest fs

/-- The outer loop of `clean`, over the installed node versions. -/
def networkcmd.cleanVersions (env : networkcmd.CleanEnv) :
    List String → FileSystem → FileSystem × Option String
  | [], fs => (fs, none)
  | avagoDir :: rest, fs =>
    let pluginDir := env.GetNodeBinDir ++ [avagoDir, "plugins"]
    match osReadDir env.ioFault fs pluginDir with
    | Except.error err => (fs, some err)
    | Except.ok installedPlugins =>
      match networkcmd.removePlugins env pluginDir installedPlugins fs with
      | (fs1, some err) => (fs1, some err)
      | (fs1, none) => networkcmd.cleanVersions env rest fs1

/-- The function `clean`; `hard` is the package variable the flag `--hard` is
bound to. -/
def networkcmd.clean (env : networkcmd.CleanEnv) (hard : Bool) (fs : FileSystem) :
    networkcmd.CleanOutcome :=
  let out0 := [networkcmd.CleanOutput.LogInfo "killing gRPC server process..."]
  let r1 := env.SetDefaultSnapshot env.GetSnapshotsDir true fs
  let out1 :=
    match r1.2 with
    | some err =>
      out0 ++ [networkcmd.CleanOutput.LogWarn "failed resetting default snapshot" err]
    | none => out0
  let r2 := env.KillgRPCServerProcess r1.1
  let out2 :=
    match r2.2 with
    | some err => out1 ++ [networkcmd.CleanOutput.LogWarn "failed killing server process" err]
    | none => out1 ++ [networkcmd.CleanOutput.PrintToUser "Process terminated."]
  if hard then
    let out3 := out2 ++
      [networkcmd.CleanOutput.PrintToUser
        "hard clean requested via flag, removing all downloaded node and plugin binaries"]
    let binDir := env.GetBaseDir ++ [LuxCliBinDir]
    let rb := networkcmd.cleanBins env binDir r2.1
    let rk := networkcmd.killAllBackendsByName env
    ⟨rb.1, out3 ++ rb.2 ++ rk.1, none⟩
  else
    match osStat env.ioFault r2.1 env.GetNodeBinDir with
    | some StatError.notExist => ⟨r2.1, out2, none⟩
    | _ =>
      match osReadDir env.ioFault r2.1 env.GetNodeBinDir with
      | Except.error err => ⟨r2.1, out2, some err⟩
      | Except.ok installedVersions =>
        let r := networkcmd.cleanVersions env installedVersions r2.1
        ⟨r.1, out2, r.2⟩

/-! ## `cmd/nodecmd/ssh.go` -/

/-- What the `ssh` command prints and runs, in order: a line for the user,
or the run of a command made by `exec.Command(name, arg...)`. -/
inductive SshEffect where
  | PrintToUser (msg : String)
  | Run (name : String) (arg : List String)
deriving DecidableEq, Repr

/-- The collaborators of the `ssh` command that are outside the sources:
`checkCluster`, the inventory of `pkg/ansible`, the connection string of
`pkg/utils`, the method `GetCloudID` of a host, the run of a command, the
clusters configuration with the name of the network of a cluster (over
cluster configurations `κ`), and the `%q` of `fmt`. -/
structure SshEnv (κ : Type) where
  checkCluster : String → Option String
  GetAnsibleInventoryDirPath : String → String
  GetInventoryFromAnsibleInventoryFile : String → Except String (List Host)
  GetSSHConnectionString : String → String → String
  GetCloudID : Host → String
  Run : String → List String → Option String
  ClustersConfigExists : Bool
  LoadClustersConfig : Except String (GoMap String κ)
  NetworkName : κ → String
  quote : String → String

/-- What a run of the `ssh` command printed and ran, and the error it
returned. -/
structure SshOutcome where
  effects : List SshEffect
  err : Option String
deriving DecidableEq, Repr

/-- The body of the loop of `sshCluster` for one host; `rest` is `args[1:]`,
so `len(args) > 1` is `rest.length + 1 > 1`. -/
def sshHost {κ : Type} (env : SshEnv κ) (rest : List String) (indent : String) (host : Host) :
    List SshEffect :=
  let cmdLine :=
    env.GetSSHConnectionString host.IP host.SSHPrivateKeyPath ++ " " ++ " ".intercalate rest
  let printed :=
    [SshEffect.PrintToUser (indent ++ "[" ++ env.GetCloudID host ++ "] " ++ cmdLine)]
  if rest.length + 1 > 1 then
    let splitCmdLine := cmdLine.splitOn " "
    match env.Run (splitCmdLine.headD "") splitCmdLine.tail with
    | some err =>
      printed ++
        [SshEffect.Run (splitCmdLine.headD "") splitCmdLine.tail,
          SshEffect.PrintToUser ("Error: " ++ err), SshEffect.PrintToUser ""]
    | none =>
      printed ++
        [SshEffect.Run (splitCmdLine.headD "") splitCmdLine.tail, SshEffect.PrintToUser ""]
  else printed

/-- The function `sshCluster` on `args = clusterName :: rest`. -/
def sshClusterArgs {κ : Type} (env : SshEnv κ) (clusterName : String) (rest : List String)
    (indent : String) : SshOutcome :=
  match env.checkCluster clusterName with
  | some err => ⟨[], some err⟩
  | none =>
    match env.GetInventoryFromAnsibleInventoryFile
        (env.GetAnsibleInventoryDirPath clusterName) with
    | Except.error err => ⟨[], some err⟩
    | Except.ok hosts => ⟨(hosts.map (sshHost env rest indent)).flatten, none⟩

/-- The function `sshCluster`; `none` is the run-time panic of `args[0]` on
an empty `args`. -/
def sshCluster {κ : Type} (env : SshEnv κ) (args : List String) (indent : String) :
    Option SshOutcome :=
  match args with
  | [] => none
  | clusterName :: rest => some (sshClusterArgs env clusterName rest indent)

/-- The loop of `sshNode` over the clusters, when no argument is given. -/
def sshNodeLoop {κ : Type} (env : SshEnv κ) : List (String × κ) → SshOutcome
  | [] => ⟨[], none⟩
  | (clusterName, clusterConfig) :: rest =>
    let header := SshEffect.PrintToUser
      ("Cluster " ++ env.quote clusterName ++ " (" ++ env.NetworkName clusterConfig ++ ")")
    let r := sshClusterArgs env clusterName [] "  "
    match r.err with
    | some err => ⟨header :: r.effects, some err⟩
    | none =>
      let rs := sshNodeLoop env rest
      ⟨header :: r.effects ++ [SshEffect.PrintToUser ""] ++ rs.effects, rs.err⟩

/-- The function `sshNode`. -/
def sshNode {κ : Type} (env : SshEnv κ) (args : List String) : Option SshOutcome :=
  if args.length = 0 then
    let loaded : Except String (GoMap String κ) :=
      if env.ClustersConfigExists then env.LoadClustersConfig else Except.ok []
    match loaded with
    | Except.error err => some ⟨[], some err⟩
    | Except.ok clusters =>
      if clusters.length = 0 then
        some ⟨[SshEffect.PrintToUser "There are no clusters defined."], none⟩
      else some (sshNodeLoop env clusters)
  else sshCluster env args ""

/-! ## `cmd/configcmd/metrics.go` -/

/-- The constant `constants.Enable`. -/
def Enable : String := "enable"

/-- The constant `constants.Disable`. -/
def Disable : String := "disable"

/-- The constant `constants.ConfigMetricsEnabledKey`. -/
def ConfigMetricsEnabledKey : String := "MetricsEnabled"

/-- What `handleMetricsSettings` prints and stores, in order: a line for the
user, or the call `app.Conf.SetConfigValue(key, value)`. -/
inductive configcmd.Effect where
  | PrintToUser (msg : String)
  | SetConfigValue (key : String) (value : Bool)
deriving DecidableEq, Repr

/-- What a run of `handleMetricsSettings` printed and stored, and the error
it returned. -/
structure configcmd.Outcome where
  effects : List configcmd.Effect
  err : Option String
deriving DecidableEq, Repr

/-- The function `saveMetricsPreferences`; `SetConfigValue` is the method of
`app.Conf`, outside the sources, as the error it returns. -/
def configcmd.saveMetricsPreferences (SetConfigValue : String → Bool → Option String)
    (enableMetrics : Bool) : configcmd.Outcome :=
  ⟨[configcmd.Effect.SetConfigValue ConfigMetricsEnabledKey enableMetrics],
    SetConfigValue ConfigMetricsEnabledKey enableMetrics⟩

/-- The function `handleMetricsSettings` on `args = arg :: rest`. -/
def configcmd.handleMetricsArg (SetConfigValue : String → Bool → Option String)
    (arg : String) : configcmd.Outcome :=
  if arg = Enable then
    let saved := configcmd.saveMetricsPreferences SetConfigValue true
    ⟨configcmd.Effect.PrintToUser "Thank you for opting in Lux CLI usage metrics collection"
        :: saved.effects, saved.err⟩
  else if arg = Disable then
    let saved := configcmd.saveMetricsPreferences SetConfigValue false
    ⟨configcmd.Effect.PrintToUser "Lux CLI usage metrics will no longer be collected"
        :: saved.effects, saved.err⟩
  else
    ⟨[], some ("Invalid metrics argument '" ++ arg ++ "'")⟩

/-- The function `handleMetricsSettings`; `none` is the run-time panic of
`args[0]` on an empty `args`, which `cobra.ExactArgs(1)` keeps away. -/
def configcmd.handleMetricsSettings (SetConfigValue : String → Bool → Option String)
    (args : List String) : Option configcmd.Outcome :=
  match args with
  | [] => none
  | arg :: _ => some (configcmd.handleMetricsArg SetConfigValue arg)

/-! ## Specification vocabulary -/

/-- The outcome the version worker of `statusNode` records for a host. -/
def statusVersionResult (RunSSHCheckLuxdVersion : Host → Except String String)
    (parseLuxdOutput : String → Except String String) (host : Host) : NodeResult String :=
  match RunSSHCheckLuxdVersion host with
  | Except.error err => NodeResult.error err
  | Except.ok resp =>
    match parseLuxdOutput resp with
    | Except.error err => NodeResult.error err
    | Except.ok luxdVersion => NodeResult.value (some luxdVersion)

/-- The outcome the version worker of `getNodesUpgradeInfo` records for a
host. -/
def upgradeVersionResult (RunSSHCheckLuxdVersion : Host → Except String String)
    (unmarshal : String → Except String (GoMap String JVal)) (host : Host) :
    NodeResult (Option (GoMap String JVal)) :=
  match RunSSHCheckLuxdVersion host with
  | Except.error err => NodeResult.error err
  | Except.ok resp =>
    match parseNodeVersionOutput unmarshal resp with
    | (_, some err) => NodeResult.error err
    | (vmVersions, none) => NodeResult.value (some vmVersions)

/-- A result set has exactly one entry per host of `hosts`, and its value map
and error host map split the host identities: none in both, none in neither,
no key that is not a host. -/
def PartitionsHosts {α : Type} (hosts : List Host) (nr : NodeResults α) : Prop :=
  (mapKeys nr.Results).Perm (hosts.map Host.NodeID) ∧
  nr.Results.length = hosts.length ∧
  nr.GetResultMap.length + nr.GetErrorHostMap.length = hosts.length ∧
  (∀ host ∈ hosts,
    (host.NodeID ∈ mapKeys nr.GetResultMap ∧ host.NodeID ∉ mapKeys nr.GetErrorHostMap) ∨
    (host.NodeID ∉ mapKeys nr.GetResultMap ∧ host.NodeID ∈ mapKeys nr.GetErrorHostMap)) ∧
  (∀ nodeID, nodeID ∈ mapKeys nr.GetResultMap ∨ nodeID ∈ mapKeys nr.GetErrorHostMap →
    nodeID ∈ hosts.map Host.NodeID)

/-- The remote operation of the version round of `statusNode` fails for a
host: the query returns an error, or the decoder does on its response. -/
def versionOperationFails (RunSSHCheckLuxdVersion : Host → Except String String)
    (parseLuxdOutput : String → Except String String) (host : Host) : Bool :=
  match RunSSHCheckLuxdVersion host with
  | Except.error _ => true
  | Except.ok resp =>
    match parseLuxdOutput resp with
    | Except.error _ => true
    | Except.ok _ => false

/-- Two result sets have the same content: the same value and the same error
under every host identity. -/
def SameContent {α : Type} (a b : NodeResults α) : Prop :=
  (∀ nodeID, mapGet a.GetResultMap nodeID = mapGet b.GetResultMap nodeID) ∧
  (∀ nodeID, mapGet a.GetErrorHostMap nodeID = mapGet b.GetErrorHostMap nodeID)

/-- The outcome the sync worker of `statusNode` records for a host. -/
def syncStatusResult (RunSSHSubnetSyncStatus : Host → String → Except String String)
    (parseSubnetSyncOutput : String → Except String String) (blockchainID : String)
    (host : Host) : NodeResult String :=
  match RunSSHSubnetSyncStatus host blockchainID with
  | Except.error err => NodeResult.error err
  | Except.ok syncstatus =>
    match parseSubnetSyncOutput syncstatus with
    | Except.error err => NodeResult.error err
    | Except.ok subnetSyncStatus => NodeResult.value (some subnetSyncStatus)

/-- The subnet sync query fails for a host: the query returns an error, or the
decoder does on its response. -/
def syncOperationFails (RunSSHSubnetSyncStatus : Host → String → Except String String)
    (parseSubnetSyncOutput : String → Except String String) (blockchainID : String)
    (host : Host) : Bool :=
  match RunSSHSubnetSyncStatus host blockchainID with
  | Except.error _ => true
  | Except.ok syncstatus =>
    match parseSubnetSyncOutput syncstatus with
    | Except.error _ => true
    | Except.ok _ => false

/-- The sync status vocabulary of the spec. -/
inductive SyncStatus where
  | NOT_SYNCED
  | SYNCING
  | VALIDATING
deriving DecidableEq, Repr

/-- The function `InterpretSync` in the words of the spec: NOT_SYNCED when the
host was not bootstrapped, whatever the raw text; else SYNCING for "Syncing",
VALIDATING for "Validating", NOT_SYNCED for anything else. -/
def InterpretSync (raw : String) (wasBootstrapped : Bool) : SyncStatus :=
  if !wasBootstrapped then SyncStatus.NOT_SYNCED
  else if raw = "Syncing" then SyncStatus.SYNCING
  else if raw = "Validating" then SyncStatus.VALIDATING
  else SyncStatus.NOT_SYNCED

/-- The list of `statusNode` that stands for a sync status. -/
def SyncLists.nodesOf (lists : SyncLists) : SyncStatus → List String
  | SyncStatus.NOT_SYNCED => lists.notSyncedNodes
  | SyncStatus.SYNCING => lists.subnetSyncedNodes
  | SyncStatus.VALIDATING => lists.subnetValidatingNodes

/-- The names of the components of a host that `getNodesUpgradeInfo` marks for
upgrade: not a standard name, and a version that is not the latest one. -/
def pluginsToUpgrade (latestSubnetEVMVersion : String) (vmVersions : GoMap String JVal) :
    List String :=
  (vmVersions.filter (fun e =>
    !checkIfKeyIsStandardVMName e.1 &&
      !interfaceEqString (some e.2) latestSubnetEVMVersion)).map Prod.fst

/-- The host has a component whose name is not a standard name. -/
def hasPlugin (vmVersions : GoMap String JVal) : Bool :=
  vmVersions.any (fun e => !checkIfKeyIsStandardVMName e.1)

/-- The entry the loop body of `getNodesUpgradeInfo` writes for a host whose
pass records no error, in closed form. -/
def hostPlan (GetLatestLuxdVersionForRPC : Int → String × Option String) (rpcVersion : Int)
    (latestLuxdVersion : String) (latestSubnetEVMVersion : String)
    (vmVersions : GoMap String JVal) : nodeUpgradeInfo :=
  { LuxdVersion :=
      if interfaceEqString (mapGet vmVersions PlatformKeyName)
          (if hasPlugin vmVersions then (GetLatestLuxdVersionForRPC rpcVersion).1
            else latestLuxdVersion) then ""
      else (if hasPlugin vmVersions then (GetLatestLuxdVersionForRPC rpcVersion).1
        else latestLuxdVersion)
    SubnetEVMVersion :=
      if pluginsToUpgrade latestSubnetEVMVersion vmVersions = [] then ""
      else latestSubnetEVMVersion
    SubnetEVMIDsToUpgrade := pluginsToUpgrade latestSubnetEVMVersion vmVersions }

/-- The value of an outcome as the result map shows it (`none`, the `nil`
interface, for an error). -/
def NodeResult.payload {α : Type} : NodeResult α → Option α
  | NodeResult.value v => v
  | NodeResult.error _ => none

/-- The payload the version round of `getNodesUpgradeInfo` holds for a host
in its result map (`none`, the `nil` interface, for a host with an error). -/
def upgradePayload (RunSSHCheckLuxdVersion : Host → Except String String)
    (unmarshal : String → Except String (GoMap String JVal)) (host : Host) :
    Option (Option (GoMap String JVal)) :=
  (upgradeVersionResult RunSSHCheckLuxdVersion unmarshal host).payload

/-! ## Concrete inputs -/

def exHostA : Host := ⟨"NodeID-A", "10.0.0.1", "/keys/a.pem"⟩

def exHostB : Host := ⟨"NodeID-B", "10.0.0.2", "/keys/b.pem"⟩

/-- A host that shares the node ID of `exHostA` but is another machine. -/
def exHostA2 : Host := ⟨"NodeID-A", "10.0.0.3", "/keys/c.pem"⟩

/-- A remote query that fails on the machine at 10.0.0.2 and answers with the
address of the machine elsewhere. -/
def exRun (host : Host) : Except String String :=
  if host.IP = "10.0.0.2" then Except.error "connection refused" else Except.ok host.IP

/-- A decoder that fails on the response of the machine at 10.0.0.3. -/
def exParse (resp : String) : Except String String :=
  if resp = "10.0.0.3" then Except.error "unexpected end of JSON input" else Except.ok "v1.10.12"

/-- A sync query that fails on the machine at 10.0.0.2 and answers with the
address of the machine elsewhere. -/
def exSyncRun (host : Host) (_blockchainID : String) : Except String String :=
  if host.IP = "10.0.0.2" then Except.error "connection refused" else Except.ok host.IP

/-- A sync query that answers with the address of the machine. -/
def exSyncRunOk (host : Host) (_blockchainID : String) : Except String String :=
  Except.ok host.IP

/-- A decoder of sync replies: the machine at 10.0.0.1 is syncing, every other
one reports a text that is no status. -/
def exSyncParse (resp : String) : Except String String :=
  if resp = "10.0.0.1" then Except.ok "Syncing" else Except.ok "Unknown"

/-- The raw sync text of a machine under `exSyncRunOk` and `exSyncParse`. -/
def exRaw (host : Host) : String :=
  if host.IP = "10.0.0.1" then "Syncing" else "Unknown"

/-- A decoder of version replies that knows two texts: a reply whose `result`
object has no `vmVersions`, and a full reply. -/
def exUnmarshal (byteValue : String) : Except String (GoMap String JVal) :=
  if byteValue = "\x7b\"result\":\x7b\x7d\x7d" then
    Except.ok [("result", JVal.obj [])]
  else if byteValue = "full" then
    Except.ok [("result", JVal.obj [("vmVersions", JVal.obj
      [("avm", JVal.str "v1.10.12"), ("evm", JVal.str "v0.12.5"),
       ("platform", JVal.str "v1.10.12")])])]
  else
    Except.error "invalid character"

/-- A version query every host answers with a `result` object that has no
`vmVersions`. -/
def exRunNoVersions (_host : Host) : Except String String :=
  Except.ok "\x7b\"result\":\x7b\x7d\x7d"

/-- A version query that fails on every host. -/
def exRunDown (_host : Host) : Except String String :=
  Except.error "connection refused"

/-- The components of a host with one Subnet EVM at v0.5.0 on a v1.2.0
node. -/
def exVersionsOld : GoMap String JVal :=
  [("avm", JVal.str "v1.2.0"), ("evm", JVal.str "v0.11.0"),
   ("subnetEvmA", JVal.str "v0.5.0"), ("platform", JVal.str "v1.2.0")]

/-- The components of a host with one Subnet EVM at v0.6.0 on a v1.3.0
node. -/
def exVersionsNew : GoMap String JVal :=
  [("platform", JVal.str "v1.3.0"), ("subnetEvmA", JVal.str "v0.6.0")]

/-- The components of a host that runs no Subnet EVM, on a v1.2.0 node. -/
def exVersionsPlain : GoMap String JVal :=
  [("avm", JVal.str "v1.2.0"), ("evm", JVal.str "v0.11.0"), ("platform", JVal.str "v1.2.0")]

/-- A resolver that gives v1.3.0 for protocol 19 and fails otherwise. -/
def exResolver (rpcVersion : Int) : String × Option String :=
  if rpcVersion = 19 then ("v1.3.0", none) else ("", some "no compatible version")

/-- A resolver that gives v1.2.0 for every protocol. -/
def exResolverOld (_rpcVersion : Int) : String × Option String :=
  ("v1.2.0", none)

/-- The components in the reply quoted in `getNodesUpgradeInfo`. -/
def exVersionsQuoted : GoMap String JVal :=
  [("avm", JVal.str "v1.10.12"), ("evm", JVal.str "v0.12.5"),
   ("n8Anw9kErmgk7KHviddYtecCmziLZTphDwfL1V2DfnFjWZXbE", JVal.str "v0.5.6"),
   ("platform", JVal.str "v1.10.12")]

/-- A resolver that gives v1.10.11 for every protocol. -/
def exResolverQuoted (_rpcVersion : Int) : String × Option String :=
  ("v1.10.11", none)

/-- A resolver that gives v1.10.12 for every protocol. -/
def exResolverLatest (_rpcVersion : Int) : String × Option String :=
  ("v1.10.12", none)

/-- A resolver that fails for every protocol. -/
def exResolverFails (_rpcVersion : Int) : String × Option String :=
  ("", some "no compatible version")

/-- The components a machine reports in the cluster of `exEnv`: the machine at
10.0.0.1 runs a Subnet EVM, every other one runs the standard components
only. -/
def exHostVersions (host : Host) : GoMap String JVal :=
  if host.IP = "10.0.0.1" then exVersionsOld else exVersionsPlain

/-- The collaborators of a cluster whose latest releases are v1.3.0 and
v0.6.0 (protocol 19), where every machine answers the version query with its
address and the reply decodes to the components of `exHostVersions`. -/
def exEnv (resolver : Int → String × Option String) : UpgradeEnv :=
  { latestLuxdRelease := Except.ok "v1.3.0"
    latestSubnetEVMRelease := Except.ok "v0.6.0"
    GetRPCProtocolVersion := fun _ => Except.ok 19
    RunSSHCheckLuxdVersion := fun host => Except.ok host.IP
    unmarshal := fun byteValue =>
      if byteValue = "10.0.0.1" then
        Except.ok [("result", JVal.obj [("vmVersions", JVal.obj exVersionsOld)])]
      else
        Except.ok [("result", JVal.obj [("vmVersions", JVal.obj exVersionsPlain)])]
    ConvertInterfaceToMap := fun value =>
      match value with
      | some (some m) => Except.ok m
      | _ => Except.error "value is not a map"
    GetLatestLuxdVersionForRPC := resolver }

/-! ## Vocabulary for `upgrade` -/

/-- The host a remote step is issued for. -/
def RemoteAction.host : RemoteAction → Option Host
  | RemoteAction.upgradeLuxd host _ => host
  | RemoteAction.getNewSubnetEVMRelease host _ _ => host
  | RemoteAction.stopNode host => host
  | RemoteAction.upgradeSubnetEVM host _ => host
  | RemoteAction.startNode host => host

/-- The steps of a run that are issued for a host, in the order of the run. -/
def actionsFor (host : Option Host) (issued : List RemoteAction) : List RemoteAction :=
  issued.filter (fun a => a.host == host)

/-- The download step `upgrade` issues for a host and a plugin version. -/
def downloadAction (host : Option Host) (subnetEVMVersion : String) : RemoteAction :=
  RemoteAction.getNewSubnetEVMRelease host
    (SubnetEVMReleaseURL subnetEVMVersion (SubnetEVMArchive (trimPrefixV subnetEVMVersion)))
    (SubnetEVMArchive (trimPrefixV subnetEVMVersion))

/-- The replacement steps `upgrade` issues for the marked plugin instances of
a host, in list order. -/
def replaceActions (host : Option Host) (vmIDs : List String) : List RemoteAction :=
  vmIDs.map (fun vmID => RemoteAction.upgradeSubnetEVM host (CloudNodeSubnetEvmBinaryPath vmID))

/-- The steps `upgradeNode` issues for a host when every step succeeds, in
closed form. -/
def nodeActions (host : Option Host) (upgradeInfo : nodeUpgradeInfo) : List RemoteAction :=
  (if upgradeInfo.LuxdVersion != "" then [RemoteAction.upgradeLuxd host upgradeInfo.LuxdVersion]
    else []) ++
  (if upgradeInfo.SubnetEVMVersion != "" then
    [downloadAction host upgradeInfo.SubnetEVMVersion, RemoteAction.stopNode host] ++
      replaceActions host upgradeInfo.SubnetEVMIDsToUpgrade ++ [RemoteAction.startNode host]
    else [])

/-- A remote layer on which every step succeeds. -/
def exRunAllOk (_a : RemoteAction) : Option String :=
  none

/-- A plan that marks the runtime (to v1.3.0) and one plugin instance (to
v0.6.0). -/
def exPlanBoth : nodeUpgradeInfo :=
  ⟨"v1.3.0", "v0.6.0", ["subnetEvmA"]⟩

/-- A plan that marks two plugin instances (to v0.6.0) and leaves the runtime
as it is. -/
def exPlanPlugins : nodeUpgradeInfo :=
  ⟨"", "v0.6.0", ["subnetEvmA", "subnetEvmB"]⟩

/-- A plan for two hosts: two plugin instances for the first, the runtime and
one plugin instance for the second. -/
def exPlanMap : GoMap (Option Host) nodeUpgradeInfo :=
  [(some exHostA, exPlanPlugins), (some exHostB, exPlanBoth)]

/-- The compatibility table of the spec: v1.2.0 supports protocol 18, v1.3.0
supports protocols 18 and 19. -/
def exTable : CompatibilityTable :=
  [("v1.2.0", [18]), ("v1.3.0", [18, 19])]

/-- A table where the order of the texts and the semantic order differ. -/
def exTableTen : CompatibilityTable :=
  [("v1.10.0", [18]), ("v1.9.0", [18]), ("v1.2.0", [17, 18])]

/-! ## Vocabulary for the subnet commands -/

/-- A character a subnet name may hold: an ASCII letter, an ASCII digit or a
space. -/
def isLetterDigitOrSpace (r : Char) : Bool :=
  (decide ('A'.toNat ≤ r.toNat) && decide (r.toNat ≤ 'Z'.toNat)) ||
  (decide ('a'.toNat ≤ r.toNat) && decide (r.toNat ≤ 'z'.toNat)) ||
  (decide ('0'.toNat ≤ r.toNat) && decide (r.toNat ≤ '9'.toNat)) ||
  r == ' '

/-- A sidecar as a config builder returns it for a Subnet-EVM subnet. -/
def exSidecar (subnetName vmVersion : String) : Sidecar :=
  { Name := subnetName, VM := "Subnet-EVM", VMVersion := vmVersion, RPCVersion := 19,
    Subnet := subnetName, TokenName := "TEST", ChainID := "12345", Version := "1.4.0",
    Networks := [], ImportedFromAPM := true, ImportedVMID := "" }

/-- The collaborators of a `subnet create` where every step succeeds, the
only valid version text is v0.6.0, and `configExists` tells whether the
subnet is already configured. -/
def exCreateEnv (configExists : Bool) : subnetcmd.CreateEnv :=
  { GenesisExists := fun _ => configExists
    WriteGenesisFile := fun _ _ => none
    CreateSidecar := fun _ => none
    LoadEvmGenesis := fun _ => none
    CaptureList := fun _ _ => Except.ok "Subnet-EVM"
    SubnetEvm := "Subnet-EVM"
    CustomVM := "Custom"
    VMTypeFromString := fun s => s
    RepoName := fun _ => "subnet-evm"
    semverIsValid := fun v => v == "v0.6.0"
    CreateEvmSubnetConfig := fun subnetName _ evmVersion =>
      Except.ok ("genesis of " ++ subnetName, exSidecar subnetName evmVersion)
    CreateCustomSubnetConfig := fun subnetName _ _ _ _ _ =>
      Except.ok ("genesis of " ++ subnetName, exSidecar subnetName "")
    letterAboveASCII := fun _ => true
    numberAboveASCII := fun _ => true }

/-- The flags of `subnet create --evm --vm-version <v>`, with or without
`--force` and `--latest`. -/
def exCreateFlags (force : Bool) (useLatest : Bool) (v : String) : subnetcmd.CreateFlags :=
  { forceCreate := force, useSubnetEvm := true, genesisFile := "", vmFile := "",
    useCustom := false, evmVersion := v, useLatestEvmVersion := useLatest,
    customVMRepoURL := "", customVMBranch := "", customVMBuildScript := "" }

/-- An import environment in which everything succeeds: the public network
lists one chain, named `mysubnet`, of the subnet `subnetX`; whether a
configuration of that name already exists is `configExists`. -/
def exImportEnv (configExists : Bool) : subnetcmd.ImportEnv :=
  { GenesisExists := fun subnetName => configExists && subnetName == "mysubnet"
    WriteGenesisFile := fun _ _ => none
    CreateSidecar := fun _ => none
    CaptureList := fun _ options => Except.ok (options.headD "")
    CaptureExistingFilepath := fun _ => Except.ok "genesis.json"
    CaptureYesNo := fun _ => Except.ok false
    CaptureString := fun _ => Except.ok "http://127.0.0.1:9650"
    CaptureID := fun _ => Except.ok "subnetX"
    NetworkFromString := fun s => if s == "Fuji" then Network.Fuji else Network.Mainnet
    NetworkString := fun n =>
      match n with
      | Network.Fuji => "Fuji"
      | Network.Mainnet => "Mainnet"
      | Network.Local => "Local Network"
      | Network.Undefined => "Invalid network"
    GetNodeVersion := fun _ => Except.ok ⟨[("vmX", "v0.6.0")], 19⟩
    idsFromString := fun s => Except.ok s
    idsEmpty := ""
    GetBlockchains := fun _ => Except.ok [⟨"chainX", "mysubnet", "subnetX", "vmX"⟩]
    ReadFile := fun path => Except.ok ("contents of " ++ path)
    SubnetEvm := "Subnet-EVM"
    SpacesVM := "Spaces VM"
    CustomVM := "Custom"
    VMTypeFromString := fun s => s
    AvaLabsOrg := "luxdefi"
    SpacesVMRepoName := "spacesvm"
    GetAllReleasesForRepo := fun _ _ => Except.ok ["v0.6.0", "v0.5.0"]
    GetRPCProtocolVersion := fun _ _ => Except.ok 19
    evmGenesisChainID := fun _ => Except.ok "43214"
    spacesGenesisCheck := fun _ => none }

/-- The flags of `subnet import public --fuji --evm --genesis-file-path
genesis.json --subnet-id subnetX --node-url http://127.0.0.1:9650`, with
`--force` as given. -/
def exImportFlags (force : Bool) : subnetcmd.ImportFlags :=
  { deployTestnet := true
    deployMainnet := false
    useSubnetEvm := true
    useSpacesVM := false
    useCustom := false
    overwriteImport := force
    genesisFilePath := "genesis.json"
    subnetIDstr := "subnetX"
    nodeURL := "http://127.0.0.1:9650" }

/-- The sidecar the import of `exImportEnv` writes. -/
def exImportedSidecar : Sidecar :=
  { Name := "mysubnet"
    VM := "Subnet-EVM"
    VMVersion := "v0.6.0"
    RPCVersion := 19
    Subnet := "mysubnet"
    TokenName := "TEST"
    ChainID := "43214"
    Version := "1.4.0"
    Networks := [("Fuji", ("subnetX", "chainX"))]
    ImportedFromAPM := true
    ImportedVMID := "vmX" }

/-- A start environment in which the local network is already running:
everything before `LoadSnapshot` succeeds, `LoadSnapshot` reports
`ErrAlreadyBootstrapped`, and the network is healthy. -/
def exStartEnv : networkcmd.StartEnv (List String) :=
  { StartServer := fun _ => none
    SetupLocalEnv := fun _ => Except.ok ("bin/luxd", "plugins")
    NewGRPCClient := none
    GetRunDir := "runs"
    pathJoin := fun a b => a ++ "/" ++ b
    MkDirWithTimestamp := fun p => Except.ok (p ++ "_20221104")
    LoadNodeConfig := Except.ok ""
    LoadSnapshot := fun _ _ => some "already bootstrapped"
    IsServerError := fun err target => err == target
    ErrAlreadyBootstrapped := "already bootstrapped"
    WaitForHealthy := fun _ => Except.ok ["http://127.0.0.1:9650"]
    GetEndpoints := fun clusterInfo => clusterInfo }

/-! ## Vocabulary for `clean` -/

/-- The file system on which the removal loop of `clean` starts: the one that
`SetDefaultSnapshot` and `KillgRPCServerProcess`, called before it, leave. -/
def networkcmd.afterShutdown (env : networkcmd.CleanEnv) (fs : FileSystem) : FileSystem :=
  (env.KillgRPCServerProcess (env.SetDefaultSnapshot env.GetSnapshotsDir true fs).1).1

/-- Whether the entry lies in the plugins directory of the node version `v`
under a name other than the name of the EVM plugin. -/
def networkcmd.removable (env : networkcmd.CleanEnv) (v : String) (e : OsEntry) : Bool :=
  match childName (env.GetNodeBinDir ++ [v, "plugins"]) e.path with
  | some n => n != env.EVMPlugin
  | none => false

/-- A directory of the application with two installed node versions; the
first has the EVM plugin and two other plugins, the second has one other
plugin and no EVM plugin. -/
def exCleanFS : FileSystem :=
  [⟨["cli"], true⟩,
    ⟨["cli", "snapshots"], true⟩,
    ⟨["cli", "snapshots", "default"], false⟩,
    ⟨["cli", "bin"], true⟩,
    ⟨["cli", "bin", "node"], true⟩,
    ⟨["cli", "bin", "node", "node-v1.2.0"], true⟩,
    ⟨["cli", "bin", "node", "node-v1.2.0", "node"], false⟩,
    ⟨["cli", "bin", "node", "node-v1.2.0", "plugins"], true⟩,
    ⟨["cli", "bin", "node", "node-v1.2.0", "plugins", "evm"], false⟩,
    ⟨["cli", "bin", "node", "node-v1.2.0", "plugins", "subnetEvmA"], false⟩,
    ⟨["cli", "bin", "node", "node-v1.2.0", "plugins", "subnetEvmB"], false⟩,
    ⟨["cli", "bin", "node", "node-v1.3.0"], true⟩,
    ⟨["cli", "bin", "node", "node-v1.3.0", "node"], false⟩,
    ⟨["cli", "bin", "node", "node-v1.3.0", "plugins"], true⟩,
    ⟨["cli", "bin", "node", "node-v1.3.0", "plugins", "subnetEvmA"], false⟩]

/-- What is left of `exCleanFS` after a clean that is not hard. -/
def exCleanedFS : FileSystem :=
  [⟨["cli"], true⟩,
    ⟨["cli", "snapshots"], true⟩,
    ⟨["cli", "snapshots", "default"], false⟩,
    ⟨["cli", "bin"], true⟩,
    ⟨["cli", "bin", "node"], true⟩,
    ⟨["cli", "bin", "node", "node-v1.2.0"], true⟩,
    ⟨["cli", "bin", "node", "node-v1.2.0", "node"], false⟩,
    ⟨["cli", "bin", "node", "node-v1.2.0", "plugins"], true⟩,
    ⟨["cli", "bin", "node", "node-v1.2.0", "plugins", "evm"], false⟩,
    ⟨["cli", "bin", "node", "node-v1.3.0"], true⟩,
    ⟨["cli", "bin", "node", "node-v1.3.0", "node"], false⟩,
    ⟨["cli", "bin", "node", "node-v1.3.0", "plugins"], true⟩]

/-- The environment `exCleanEnv` with a `SetDefaultSnapshot` that, when
forced, removes the default snapshot of the snapshots directory. -/
def exCleanEnvReset : networkcmd.CleanEnv :=
  { GetSnapshotsDir := ["cli", "snapshots"]
    SetDefaultSnapshot := fun snapshotsDir force fs =>
      if force then (fs.filter (fun e => e.path != snapshotsDir ++ ["default"]), none)
      else (fs, none)
    KillgRPCServerProcess := fun fs => (fs, some "no server process")
    GetBaseDir := ["cli"]
    GetNodeBinDir := ["cli", "bin", "node"]
    EVMPlugin := "evm"
    ioFault := fun _ => none
    RemoveAll := fun dir fs => (fs.filter (fun e => e.path.take dir.length != dir), none)
    Processes := Except.ok []
    MatchString := fun _ _ => false }

/-- An environment of `clean` in which no call of `os` is at fault, the
server process is not running, and the two collaborators leave the file
system as it is. -/
def exCleanEnv : networkcmd.CleanEnv :=
  { GetSnapshotsDir := ["cli", "snapshots"]
    SetDefaultSnapshot := fun _ _ fs => (fs, none)
    KillgRPCServerProcess := fun fs => (fs, some "no server process")
    GetBaseDir := ["cli"]
    GetNodeBinDir := ["cli", "bin", "node"]
    EVMPlugin := "evm"
    ioFault := fun _ => none
    RemoveAll := fun dir fs => (fs.filter (fun e => e.path.take dir.length != dir), none)
    Processes := Except.ok []
    MatchString := fun _ _ => false }

/-! ## Vocabulary for `ssh` -/

/-- The line `sshCluster` prints for a host when no command is given: the
indent, the cloud ID in brackets, and the connection string followed by the
blank that `fmt.Sprintf("%s %s", ...)` puts before the empty command. -/
def sshLine {κ : Type} (env : SshEnv κ) (indent : String) (host : Host) : SshEffect :=
  SshEffect.PrintToUser
    (indent ++ "[" ++ env.GetCloudID host ++ "] " ++
      (env.GetSSHConnectionString host.IP host.SSHPrivateKeyPath ++ " "))

/-- Whether the effect is the run of a command. -/
def SshEffect.isRun : SshEffect → Bool
  | SshEffect.Run _ _ => true
  | SshEffect.PrintToUser _ => false

/-- An `ssh` environment with the cluster `mycluster` of the hosts `exHostA`
and `exHostB`; `inventoryOk` tells whether the inventory of the cluster can
be read. -/
def exSshEnv (inventoryOk : Bool) : SshEnv String :=
  { checkCluster := fun clusterName =>
      if clusterName == "mycluster" then none else some "cluster not found"
    GetAnsibleInventoryDirPath := fun clusterName => "inventories/" ++ clusterName
    GetInventoryFromAnsibleInventoryFile := fun _ =>
      if inventoryOk then Except.ok [exHostA, exHostB]
      else Except.error "open inventories/mycluster/hosts: no such file or directory"
    GetSSHConnectionString := fun ip key => "ssh -i " ++ key ++ " ubuntu@" ++ ip
    GetCloudID := fun host => host.NodeID
    Run := fun _ _ => none
    ClustersConfigExists := true
    LoadClustersConfig := Except.ok [("mycluster", "Fuji")]
    NetworkName := fun n => n
    quote := fun s => "\"" ++ s ++ "\"" }

/-- The reply of a node that runs the imported VM `vmX` at version v0.6.0,
with the protocol version 21. -/
def exReply : GetNodeVersionReply :=
  ⟨[("avm", "v1.3.0"), ("evm", "v0.12.0"), ("platform", "v1.3.0"), ("vmX", "v0.6.0")], 21⟩

/-- The import environment `exImportEnv false` in which the user says that
nodes are deployed and the queried node answers `exReply`. -/
def exQueriedImportEnv : subnetcmd.ImportEnv :=
  { exImportEnv false with
    CaptureYesNo := fun _ => Except.ok true
    GetNodeVersion := fun _ => Except.ok exReply }

/-- The flags of `subnet import public --fuji --evm --genesis-file-path
genesis.json --subnet-id subnetX`, without `--node-url`. -/
def exQueriedImportFlags : subnetcmd.ImportFlags :=
  { exImportFlags false with nodeURL := "" }

/-- A host that shares the node ID of `exHostB` but is another machine. -/
def exHostB2 : Host := ⟨"NodeID-B", "10.0.0.4", "/keys/d.pem"⟩

/-! ## Maps and result sets -/

theorem mapGet_eq_none_iff {κ V : Type} [BEq κ] [LawfulBEq κ] (m : GoMap κ V) (k : κ) :
    mapGet m k = none ↔ k ∉ mapKeys m := by
  unfold mapGet mapKeys
  rw [List.lookup_eq_none_iff]
  constructor
  · intro h hk
    obtain ⟨p, hp, rfl⟩ := List.mem_map.1 hk
    simpa using h p hp
  · intro h p hp
    have : p.1 ≠ k := fun e => h (List.mem_map.2 ⟨p, hp, e⟩)
    simpa [bne_iff_ne, ne_comm] using this

theorem mapSet_of_not_mem {κ V : Type} [BEq κ] [LawfulBEq κ] (m : GoMap κ V) (k : κ) (v : V)
    (h : k ∉ mapKeys m) : mapSet m k v = m ++ [(k, v)] := by
  unfold mapSet
  rw [(mapGet_eq_none_iff m k).2 h]
  simp

theorem foldl_worker_results {α : Type} (worker : NodeResults α → Host → NodeResults α)
    (res : Host → NodeResult α)
    (hw : ∀ nr h, (worker nr h).Results = mapSet nr.Results h.NodeID (res h)) :
    ∀ (l : List Host) (init : NodeResults α), (l.map Host.NodeID).Nodup →
      (∀ h ∈ l, h.NodeID ∉ mapKeys init.Results) →
      (l.foldl worker init).Results = init.Results ++ l.map (fun h => (h.NodeID, res h)) := by
  intro l
  induction l with
  | nil => intro init _ _; simp
  | cons a t ih =>
    intro init hnd hfresh
    rw [List.map_cons, List.nodup_cons] at hnd
    have ha : a.NodeID ∉ mapKeys init.Results := hfresh a (List.mem_cons_self _ _)
    have hstep : (worker init a).Results = init.Results ++ [(a.NodeID, res a)] := by
      rw [hw, mapSet_of_not_mem _ _ _ ha]
    rw [List.foldl_cons, ih (worker init a) hnd.2, hstep]
    · simp
    · intro h hh hmem
      rw [hstep] at hmem
      unfold mapKeys at hmem
      rw [List.map_append, List.mem_append] at hmem
      rcases hmem with hmem | hmem
      · exact hfresh h (List.mem_cons_of_mem _ hh) hmem
      · simp at hmem
        exact hnd.1 (hmem ▸ List.mem_map_of_mem _ hh)

theorem statusVersionWorker_results (run : Host → Except String String)
    (parse : String → Except String String) (nr : NodeResults String) (h : Host) :
    (statusVersionWorker run parse nr h).Results =
      mapSet nr.Results h.NodeID (statusVersionResult run parse h) := by
  unfold statusVersionWorker statusVersionResult
  cases run h with
  | error e => rfl
  | ok resp => cases hp : parse resp <;> simp [hp, NodeResults.AddResult]

theorem upgradeVersionWorker_results (run : Host → Except String String)
    (unmarshal : String → Except String (GoMap String JVal))
    (nr : NodeResults (Option (GoMap String JVal))) (h : Host) :
    (upgradeVersionWorker run unmarshal nr h).Results =
      mapSet nr.Results h.NodeID (upgradeVersionResult run unmarshal h) := by
  unfold upgradeVersionWorker upgradeVersionResult
  cases run h with
  | error e => rfl
  | ok resp =>
    rcases hp : parseNodeVersionOutput unmarshal resp with ⟨m, _ | e⟩ <;>
      simp [hp, NodeResults.AddResult]

theorem mem_keys_getErrorHostMap {α : Type} (nr : NodeResults α) (nodeID : String) :
    nodeID ∈ mapKeys nr.GetErrorHostMap ↔ ∃ e, (nodeID, NodeResult.error e) ∈ nr.Results := by
  unfold mapKeys NodeResults.GetErrorHostMap
  simp only [List.mem_map, List.mem_filterMap]
  constructor
  · rintro ⟨q, ⟨⟨k, r⟩, hp, hq⟩, rfl⟩
    cases r with
    | value v => simp at hq
    | error e =>
      simp at hq
      subst hq
      exact ⟨e, hp⟩
  · rintro ⟨e, he⟩
    exact ⟨(nodeID, e), ⟨(nodeID, NodeResult.error e), he, rfl⟩, rfl⟩

theorem mem_keys_getResultMap {α : Type} (nr : NodeResults α) (nodeID : String) :
    nodeID ∈ mapKeys nr.GetResultMap ↔ ∃ v, (nodeID, NodeResult.value v) ∈ nr.Results := by
  unfold mapKeys NodeResults.GetResultMap
  simp only [List.mem_map, List.mem_filterMap]
  constructor
  · rintro ⟨q, ⟨⟨k, r⟩, hp, hq⟩, rfl⟩
    cases r with
    | error e => simp at hq
    | value v =>
      simp at hq
      subst hq
      exact ⟨v, hp⟩
  · rintro ⟨v, hv⟩
    exact ⟨(nodeID, v), ⟨(nodeID, NodeResult.value v), hv, rfl⟩, rfl⟩

theorem length_getResultMap_add {α : Type} (nr : NodeResults α) :
    nr.GetResultMap.length + nr.GetErrorHostMap.length = nr.Results.length := by
  unfold NodeResults.GetResultMap NodeResults.GetErrorHostMap
  induction nr.Results with
  | nil => rfl
  | cons p t ih =>
    obtain ⟨k, r⟩ := p
    cases r with
    | value v => simp [List.filterMap_cons] at ih ⊢; omega
    | error e => simp [List.filterMap_cons] at ih ⊢; omega

theorem hasErrors_iff {α : Type} (nr : NodeResults α) :
    nr.HasErrors = true ↔ ∃ nodeID e, (nodeID, NodeResult.error e) ∈ nr.Results := by
  unfold NodeResults.HasErrors
  rw [List.any_eq_true]
  constructor
  · rintro ⟨⟨k, r⟩, hp, hq⟩
    cases r with
    | value v => simp at hq
    | error e => exact ⟨k, e, hp⟩
  · rintro ⟨k, e, he⟩
    exact ⟨(k, NodeResult.error e), he, rfl⟩

/-- In a list of hosts with pairwise distinct identities, the entry recorded
under the identity of a host is the outcome of that host. -/
theorem mem_results_iff {α : Type} (l : List Host) (res : Host → NodeResult α)
    (hnd : (l.map Host.NodeID).Nodup) (h : Host) (hh : h ∈ l) (r : NodeResult α) :
    (h.NodeID, r) ∈ l.map (fun h => (h.NodeID, res h)) ↔ res h = r := by
  rw [List.mem_map]
  constructor
  · rintro ⟨h', hh', he⟩
    have hid : h'.NodeID = h.NodeID := (Prod.mk.inj he).1
    have : h' = h := List.inj_on_of_nodup_map hnd hh' hh hid
    rw [← this]
    exact (Prod.mk.inj he).2
  · intro hr
    exact ⟨h, hh, by rw [hr]⟩

theorem partitionsHosts_of_results {α : Type} (hosts l : List Host) (res : Host → NodeResult α)
    (nr : NodeResults α) (hperm : l.Perm hosts) (hnd : (hosts.map Host.NodeID).Nodup)
    (hres : nr.Results = l.map (fun h => (h.NodeID, res h))) : PartitionsHosts hosts nr := by
  have hndl : (l.map Host.NodeID).Nodup := (hperm.map _).nodup_iff.2 hnd
  have hkeys : mapKeys nr.Results = l.map Host.NodeID := by
    unfold mapKeys
    rw [hres, List.map_map]
    rfl
  have hlen : nr.Results.length = hosts.length := by
    rw [hres, List.length_map, hperm.length_eq]
  refine ⟨?_, hlen, ?_, ?_, ?_⟩
  · rw [hkeys]
    exact hperm.map _
  · rw [length_getResultMap_add, hlen]
  · intro host hhost
    have hl : host ∈ l := hperm.mem_iff.2 hhost
    rw [mem_keys_getResultMap, mem_keys_getErrorHostMap, hres]
    cases hr : res host with
    | value v =>
      left
      refine ⟨⟨v, (mem_results_iff l res hndl host hl _).2 hr⟩, ?_⟩
      rintro ⟨e, he⟩
      have := (mem_results_iff l res hndl host hl _).1 he
      rw [hr] at this
      cases this
    | error e =>
      right
      refine ⟨?_, ⟨e, (mem_results_iff l res hndl host hl _).2 hr⟩⟩
      rintro ⟨v, hv⟩
      have := (mem_results_iff l res hndl host hl _).1 hv
      rw [hr] at this
      cases this
  · intro nodeID hmem
    have hk : nodeID ∈ mapKeys nr.Results := by
      rcases hmem with hmem | hmem
      · obtain ⟨v, hv⟩ := (mem_keys_getResultMap nr nodeID).1 hmem
        exact List.mem_map.2 ⟨_, hv, rfl⟩
      · obtain ⟨e, he⟩ := (mem_keys_getErrorHostMap nr nodeID).1 hmem
        exact List.mem_map.2 ⟨_, he, rfl⟩
    rw [hkeys] at hk
    exact (hperm.map _).mem_iff.1 hk

theorem statusVersionRound_results (run : Host → Except String String)
    (parse : String → Except String String) (sched : List Host → List Host)
    (hosts : List Host) (hsched : (sched hosts).Perm hosts)
    (hnd : (hosts.map Host.NodeID).Nodup) :
    (statusVersionRound run parse sched hosts).Results =
      (sched hosts).map (fun h => (h.NodeID, statusVersionResult run parse h)) := by
  unfold statusVersionRound
  rw [foldl_worker_results _ _ (statusVersionWorker_results run parse) (sched hosts) ⟨[]⟩
    ((hsched.map _).nodup_iff.2 hnd) (by intro h _; simp [mapKeys])]
  simp

theorem upgradeVersionRound_results (run : Host → Except String String)
    (unmarshal : String → Except String (GoMap String JVal)) (sched : List Host → List Host)
    (hosts : List Host) (hsched : (sched hosts).Perm hosts)
    (hnd : (hosts.map Host.NodeID).Nodup) :
    (upgradeVersionRound run unmarshal sched hosts).Results =
      (sched hosts).map (fun h => (h.NodeID, upgradeVersionResult run unmarshal h)) := by
  unfold upgradeVersionRound
  rw [foldl_worker_results _ _ (upgradeVersionWorker_results run unmarshal) (sched hosts) ⟨[]⟩
    ((hsched.map _).nodup_iff.2 hnd) (by intro h _; simp [mapKeys])]
  simp

/-! ## The dispatch round -/

/-- C1: for hosts with pairwise distinct node IDs, whatever the remote query
and the decoder return and in whatever order the workers finish, the version
round of `statusNode` and that of `getNodesUpgradeInfo` leave a result set
with exactly one entry per host, and the value map and the error host map
split the host IDs with no overlap and no omission. -/
theorem version_round_partitions_hosts (run : Host → Except String String)
    (parseLuxdOutput : String → Except String String)
    (unmarshal : String → Except String (GoMap String JVal))
    (sched : List Host → List Host) (hosts : List Host)
    (hsched : (sched hosts).Perm hosts) (hnd : (hosts.map Host.NodeID).Nodup) :
    PartitionsHosts hosts (statusVersionRound run parseLuxdOutput sched hosts) ∧
    PartitionsHosts hosts (upgradeVersionRound run unmarshal sched hosts) :=
  ⟨partitionsHosts_of_results hosts (sched hosts) _ _ hsched hnd
      (statusVersionRound_results run parseLuxdOutput sched hosts hsched hnd),
   partitionsHosts_of_results hosts (sched hosts) _ _ hsched hnd
      (upgradeVersionRound_results run unmarshal sched hosts hsched hnd)⟩

theorem keys_getErrorHostMap_map {α : Type} (res : Host → NodeResult α) (p : Host → Bool)
    (hp : ∀ h, p h = true ↔ ∃ e, res h = NodeResult.error e) (l : List Host) :
    mapKeys (NodeResults.GetErrorHostMap ⟨l.map (fun h => (h.NodeID, res h))⟩) =
      (l.filter p).map Host.NodeID := by
  unfold mapKeys NodeResults.GetErrorHostMap
  induction l with
  | nil => rfl
  | cons a t ih =>
    simp only [List.map_cons, List.filterMap_cons, List.filter_cons]
    cases hr : res a with
    | value v =>
      have hpa : p a = false := by
        cases hb : p a with
        | false => rfl
        | true =>
          obtain ⟨e, he⟩ := (hp a).1 hb
          rw [hr] at he
          cases he
      simp only [hpa]
      exact ih
    | error e =>
      have hpa : p a = true := (hp a).2 ⟨e, hr⟩
      simp only [hpa, if_true, List.map_cons]
      rw [ih]

theorem versionOperationFails_iff (run : Host → Except String String)
    (parse : String → Except String String) (h : Host) :
    versionOperationFails run parse h = true ↔
      ∃ e, statusVersionResult run parse h = NodeResult.error e := by
  unfold versionOperationFails statusVersionResult
  cases run h with
  | error e => simp
  | ok resp => cases hp : parse resp <;> simp [hp]

/-- C2: for hosts with pairwise distinct node IDs, when the remote operation
of the version round of `statusNode` (query or decoding) fails for the host
`H` and for no other host, `HasErrors` is true and the keys of the error host
map are exactly `H`. -/
theorem single_failure_error_host_map (run : Host → Except String String)
    (parseLuxdOutput : String → Except String String)
    (sched : List Host → List Host) (hosts : List Host) (H : Host)
    (hsched : (sched hosts).Perm hosts) (hnd : (hosts.map Host.NodeID).Nodup)
    (hH : H ∈ hosts)
    (hfail : ∀ h ∈ hosts, versionOperationFails run parseLuxdOutput h = true ↔ h = H) :
    (statusVersionRound run parseLuxdOutput sched hosts).HasErrors = true ∧
    mapKeys (statusVersionRound run parseLuxdOutput sched hosts).GetErrorHostMap = [H.NodeID] := by
  have hres := statusVersionRound_results run parseLuxdOutput sched hosts hsched hnd
  have hHl : H ∈ sched hosts := hsched.mem_iff.2 hH
  have hndl : (sched hosts).Nodup :=
    List.Nodup.of_map _ ((hsched.map Host.NodeID).nodup_iff.2 hnd)
  obtain ⟨e, he⟩ := (versionOperationFails_iff run parseLuxdOutput H).1 ((hfail H hH).2 rfl)
  constructor
  · rw [hasErrors_iff, hres]
    exact ⟨H.NodeID, e, List.mem_map.2 ⟨H, hHl, by rw [he]⟩⟩
  · have hkeys := keys_getErrorHostMap_map (statusVersionResult run parseLuxdOutput)
      (versionOperationFails run parseLuxdOutput)
      (versionOperationFails_iff run parseLuxdOutput) (sched hosts)
    rw [← hres] at hkeys
    rw [hkeys]
    have hfilter : (sched hosts).filter (versionOperationFails run parseLuxdOutput) =
        (sched hosts).filter (fun h => h == H) := by
      apply List.filter_congr
      intro h hh
      have := hfail h (hsched.mem_iff.1 hh)
      by_cases hc : h = H
      · rw [this.2 hc]; simp [hc]
      · have hf : versionOperationFails run parseLuxdOutput h = false := by
          cases hb : versionOperationFails run parseLuxdOutput h with
          | false => rfl
          | true => exact absurd (this.1 hb) hc
        rw [hf]; simp [hc]
    rw [hfilter, List.filter_beq, List.count_eq_one_of_mem hndl hHl]
    rfl

/-- C2, at a concrete input: two hosts, the query fails on the second, the
workers finish in reverse order. -/
theorem single_failure_error_host_map_witness :
    (List.reverse [exHostA, exHostB]).Perm [exHostA, exHostB] ∧
    ([exHostA, exHostB].map Host.NodeID).Nodup ∧
    exHostB ∈ [exHostA, exHostB] ∧
    (∀ h ∈ [exHostA, exHostB], versionOperationFails exRun exParse h = true ↔ h = exHostB) ∧
    (statusVersionRound exRun exParse List.reverse [exHostA, exHostB]).HasErrors = true ∧
    mapKeys (statusVersionRound exRun exParse List.reverse [exHostA, exHostB]).GetErrorHostMap
      = [exHostB.NodeID] :=
  ⟨List.reverse_perm _, by decide, by decide, by decide,
    single_failure_error_host_map exRun exParse List.reverse [exHostA, exHostB] exHostB
      (List.reverse_perm _) (by decide) (by decide) (by decide)⟩

/-- C1, at a concrete input: two hosts, the query fails on the second, the
workers finish in reverse order. -/
theorem version_round_partitions_hosts_witness :
    (List.reverse [exHostA, exHostB]).Perm [exHostA, exHostB] ∧
    ([exHostA, exHostB].map Host.NodeID).Nodup ∧
    PartitionsHosts [exHostA, exHostB]
      (statusVersionRound exRun exParse List.reverse [exHostA, exHostB]) ∧
    PartitionsHosts [exHostA, exHostB]
      (upgradeVersionRound exRun (fun _ => Except.ok []) List.reverse [exHostA, exHostB]) :=
  ⟨List.reverse_perm _, by decide,
    version_round_partitions_hosts exRun exParse (fun _ => Except.ok []) List.reverse
      [exHostA, exHostB] (List.reverse_perm _) (by decide)⟩

theorem mapGet_eq_some_iff {κ V : Type} [BEq κ] [LawfulBEq κ] (m : GoMap κ V)
    (hnd : (mapKeys m).Nodup) (k : κ) (v : V) : mapGet m k = some v ↔ (k, v) ∈ m := by
  unfold mapGet
  induction m with
  | nil => simp
  | cons p t ih =>
    obtain ⟨a, b⟩ := p
    have hnd' : a ∉ mapKeys t ∧ (mapKeys t).Nodup := by
      simpa [mapKeys] using hnd
    rw [List.lookup_cons]
    by_cases hka : k = a
    · subst hka
      simp only [beq_self_eq_true, List.mem_cons, Prod.mk.injEq, true_and, Option.some.injEq]
      constructor
      · intro h; exact Or.inl h.symm
      · rintro (h | h)
        · exact h.symm
        · exact absurd (List.mem_map.2 ⟨_, h, rfl⟩) hnd'.1
    · have hne : (k == a) = false := by simpa using hka
      simp only [hne, List.mem_cons, Prod.mk.injEq, hka, false_and, false_or]
      exact ih hnd'.2

theorem mapGet_perm {κ V : Type} [BEq κ] [LawfulBEq κ] (m₁ m₂ : GoMap κ V)
    (hp : m₁.Perm m₂) (hnd : (mapKeys m₁).Nodup) (k : κ) : mapGet m₁ k = mapGet m₂ k := by
  have hnd₂ : (mapKeys m₂).Nodup := (hp.map Prod.fst).nodup_iff.1 hnd
  apply Option.ext
  intro v
  rw [Option.mem_def, Option.mem_def, mapGet_eq_some_iff m₁ hnd, mapGet_eq_some_iff m₂ hnd₂]
  exact hp.mem_iff

theorem keys_getResultMap_sublist {α : Type} (nr : NodeResults α) :
    (mapKeys nr.GetResultMap).Sublist (mapKeys nr.Results) := by
  unfold mapKeys NodeResults.GetResultMap
  induction nr.Results with
  | nil => simp
  | cons p t ih =>
    obtain ⟨k, r⟩ := p
    cases r with
    | value v => simpa [List.filterMap_cons] using ih
    | error e =>
      simp only [List.filterMap_cons, List.map_cons]
      exact ih.cons _

theorem keys_getErrorHostMap_sublist {α : Type} (nr : NodeResults α) :
    (mapKeys nr.GetErrorHostMap).Sublist (mapKeys nr.Results) := by
  unfold mapKeys NodeResults.GetErrorHostMap
  induction nr.Results with
  | nil => simp
  | cons p t ih =>
    obtain ⟨k, r⟩ := p
    cases r with
    | error e => simpa [List.filterMap_cons] using ih
    | value v =>
      simp only [List.filterMap_cons, List.map_cons]
      exact ih.cons _

theorem sameContent_of_perm {α : Type} (a b : NodeResults α) (hp : a.Results.Perm b.Results)
    (hnd : (mapKeys a.Results).Nodup) : SameContent a b := by
  constructor
  · intro nodeID
    exact mapGet_perm _ _ (hp.filterMap _) ((keys_getResultMap_sublist a).nodup hnd) nodeID
  · intro nodeID
    exact mapGet_perm _ _ (hp.filterMap _) ((keys_getErrorHostMap_sublist a).nodup hnd) nodeID

theorem sameContent_of_results {α : Type} (res : Host → NodeResult α) (a b : NodeResults α)
    (l₁ l₂ : List Host) (hp : l₁.Perm l₂) (hnd : (l₁.map Host.NodeID).Nodup)
    (ha : a.Results = l₁.map (fun h => (h.NodeID, res h)))
    (hb : b.Results = l₂.map (fun h => (h.NodeID, res h))) : SameContent a b := by
  apply sameContent_of_perm
  · rw [ha, hb]
    exact hp.map _
  · unfold mapKeys
    rw [ha, List.map_map]
    exact hnd

/-- C3, as stated, fails: two machines that share a node ID, the query failing
on one of them; the round over the list and the round over the swapped list
end with different content even when the workers finish in launch order. -/
theorem shared_node_id_order_dependent :
    [exHostA2, exHostB, exHostA].Perm [exHostA, exHostB, exHostA2] ∧
    ¬ SameContent (statusVersionRound exRun exParse id [exHostA2, exHostB, exHostA])
        (statusVersionRound exRun exParse id [exHostA, exHostB, exHostA2]) := by
  constructor
  · decide
  · intro h
    have h2 := h.2 "NodeID-A"
    revert h2
    decide

/-- C3, amended: for hosts with pairwise distinct node IDs, a remote operation
whose outcome depends only on the host, every permutation of the host list
and every order in which the workers finish, the version round of
`statusNode` and that of `getNodesUpgradeInfo` end with the same content: the
same value and the same error under every host ID. -/
theorem version_round_order_independent (run : Host → Except String String)
    (parseLuxdOutput : String → Except String String)
    (unmarshal : String → Except String (GoMap String JVal))
    (sched sched' : List Host → List Host) (hosts hosts' : List Host)
    (hperm : hosts'.Perm hosts) (hnd : (hosts.map Host.NodeID).Nodup)
    (hsched : (sched hosts).Perm hosts) (hsched' : (sched' hosts').Perm hosts') :
    SameContent (statusVersionRound run parseLuxdOutput sched' hosts')
      (statusVersionRound run parseLuxdOutput sched hosts) ∧
    SameContent (upgradeVersionRound run unmarshal sched' hosts')
      (upgradeVersionRound run unmarshal sched hosts) := by
  have hnd' : (hosts'.map Host.NodeID).Nodup := (hperm.map _).nodup_iff.2 hnd
  have hp : (sched' hosts').Perm (sched hosts) := (hsched'.trans hperm).trans hsched.symm
  have hndl : ((sched' hosts').map Host.NodeID).Nodup := (hsched'.map _).nodup_iff.2 hnd'
  exact ⟨sameContent_of_results _ _ _ _ _ hp hndl
      (statusVersionRound_results run parseLuxdOutput sched' hosts' hsched' hnd')
      (statusVersionRound_results run parseLuxdOutput sched hosts hsched hnd),
    sameContent_of_results _ _ _ _ _ hp hndl
      (upgradeVersionRound_results run unmarshal sched' hosts' hsched' hnd')
      (upgradeVersionRound_results run unmarshal sched hosts hsched hnd)⟩

/-- C3, amended, at a concrete input: two hosts and the swapped list, the
workers finishing in launch order in one round and in reverse in the other. -/
theorem version_round_order_independent_witness :
    [exHostB, exHostA].Perm [exHostA, exHostB] ∧
    ([exHostA, exHostB].map Host.NodeID).Nodup ∧
    (List.reverse [exHostA, exHostB]).Perm [exHostA, exHostB] ∧
    (id [exHostB, exHostA]).Perm [exHostB, exHostA] ∧
    SameContent (statusVersionRound exRun exParse id [exHostB, exHostA])
      (statusVersionRound exRun exParse List.reverse [exHostA, exHostB]) ∧
    SameContent (upgradeVersionRound exRun (fun _ => Except.ok []) id [exHostB, exHostA])
      (upgradeVersionRound exRun (fun _ => Except.ok []) List.reverse [exHostA, exHostB]) :=
  ⟨by decide, by decide, List.reverse_perm _, List.Perm.refl _,
    version_round_order_independent exRun exParse (fun _ => Except.ok []) List.reverse id
      [exHostA, exHostB] [exHostB, exHostA] (by decide) (by decide)
      (List.reverse_perm _) (List.Perm.refl _)⟩

/-! ## The subnet sync round -/

theorem syncStatusWorker_results (run : Host → String → Except String String)
    (parse : String → Except String String) (chain : String)
    (nr : NodeResults String) (h : Host) :
    (syncStatusWorker run parse chain nr h).Results =
      mapSet nr.Results h.NodeID (syncStatusResult run parse chain h) := by
  unfold syncStatusWorker syncStatusResult
  cases run h chain with
  | error e => rfl
  | ok resp => cases hp : parse resp <;> simp [hp, NodeResults.AddResult]

theorem syncOperationFails_iff (run : Host → String → Except String String)
    (parse : String → Except String String) (chain : String) (h : Host) :
    syncOperationFails run parse chain h = true ↔
      ∃ e, syncStatusResult run parse chain h = NodeResult.error e := by
  unfold syncOperationFails syncStatusResult
  cases run h chain with
  | error e => simp
  | ok resp => cases hp : parse resp <;> simp [hp]

theorem splitNotBootstrapped_foldl (nb : List String) (ids : List String) :
    ∀ st : List String × List String,
      ids.foldl (fun st ansibleHostID =>
        if nb.contains ansibleHostID then (st.1 ++ [ansibleHostID], st.2)
        else (st.1, st.2 ++ [ansibleHostID])) st =
      (st.1 ++ ids.filter (fun i => nb.contains i),
        st.2 ++ ids.filter (fun i => !nb.contains i)) := by
  induction ids with
  | nil => intro st; simp
  | cons a t ih =>
    intro st
    rw [List.foldl_cons, ih]
    by_cases hc : a ∈ nb <;> simp [hc, List.filter_cons]

theorem splitNotBootstrapped_eq (nb : List String) (ids : List String) :
    splitNotBootstrapped nb ids =
      (ids.filter (fun i => nb.contains i), ids.filter (fun i => !nb.contains i)) := by
  unfold splitNotBootstrapped
  rw [splitNotBootstrapped_foldl]
  simp

theorem classify_foldl (entries : List (String × Option String)) :
    ∀ lists : SyncLists,
      entries.foldl (fun lists p => classifySyncEntry lists p.1 p.2) lists =
      { notSyncedNodes := lists.notSyncedNodes ++
          (entries.filter (fun p => decide (p.2 ≠ some statusSyncingString ∧
            p.2 ≠ some statusValidatingString))).map Prod.fst,
        subnetSyncedNodes := lists.subnetSyncedNodes ++
          (entries.filter (fun p => decide (p.2 = some statusSyncingString))).map Prod.fst,
        subnetValidatingNodes := lists.subnetValidatingNodes ++
          (entries.filter (fun p => decide (p.2 ≠ some statusSyncingString ∧
            p.2 = some statusValidatingString))).map Prod.fst } := by
  induction entries with
  | nil => intro lists; simp
  | cons a t ih =>
    intro lists
    rw [List.foldl_cons, ih]
    unfold classifySyncEntry
    have hne : statusValidatingString ≠ statusSyncingString := by decide
    by_cases h1 : a.2 = some statusSyncingString
    · simp [h1, List.filter_cons]
    · by_cases h2 : a.2 = some statusValidatingString
      · simp [h2, hne, List.filter_cons]
      · simp [h1, h2, List.filter_cons]

theorem hostsToCheck_nodup (hosts : List Host) (p : Host → Bool)
    (hnd : (hosts.map Host.NodeID).Nodup) : ((hosts.filter p).map Host.NodeID).Nodup :=
  ((List.filter_sublist hosts).map Host.NodeID).nodup hnd

theorem syncRound_results (run : Host → String → Except String String)
    (parse : String → Except String String) (chain : String) (l : List Host)
    (hnd : (l.map Host.NodeID).Nodup) :
    (l.foldl (syncStatusWorker run parse chain) ⟨[]⟩).Results =
      l.map (fun h => (h.NodeID, syncStatusResult run parse chain h)) := by
  rw [foldl_worker_results _ _ (syncStatusWorker_results run parse chain) l ⟨[]⟩ hnd
    (by intro h _; simp [mapKeys])]
  simp

theorem getResultMap_of_values (l : List Host) (raw : Host → String) :
    (NodeResults.mk (l.map (fun h => (h.NodeID, NodeResult.value (some (raw h)))))).GetResultMap
      = l.map (fun h => (h.NodeID, some (raw h))) ∧
    (NodeResults.mk (l.map (fun h => (h.NodeID, NodeResult.value (some (raw h)))))).HasErrors
      = false := by
  unfold NodeResults.GetResultMap NodeResults.HasErrors
  induction l with
  | nil => simp
  | cons a t ih => simp [List.filterMap_cons, ih.1, ih.2]

/-- The lists `statusNode` builds when every sync query of a host to check
succeeds with the raw text `raw host`. -/
theorem statusNodeSync_eq_ok (run : Host → String → Except String String)
    (parse : String → Except String String) (chain : String)
    (sched : List Host → List Host) (ids nb : List String) (hosts : List Host)
    (raw : Host → String)
    (hsched : ∀ l, (sched l).Perm l) (hnd : (hosts.map Host.NodeID).Nodup)
    (hraw : ∀ h ∈ hosts, h.NodeID ∈ ids → h.NodeID ∉ nb →
      ∃ resp, run h chain = Except.ok resp ∧ parse resp = Except.ok (raw h)) :
    statusNodeSync run parse chain sched ids nb hosts = Except.ok
      { notSyncedNodes := ids.filter (fun i => nb.contains i) ++
          ((sched (hosts.filter (fun h =>
              (ids.filter (fun i => !nb.contains i)).contains h.NodeID))).filter
            (fun h => decide (raw h ≠ statusSyncingString ∧
              raw h ≠ statusValidatingString))).map Host.NodeID,
        subnetSyncedNodes :=
          ((sched (hosts.filter (fun h =>
              (ids.filter (fun i => !nb.contains i)).contains h.NodeID))).filter
            (fun h => decide (raw h = statusSyncingString))).map Host.NodeID,
        subnetValidatingNodes :=
          ((sched (hosts.filter (fun h =>
              (ids.filter (fun i => !nb.contains i)).contains h.NodeID))).filter
            (fun h => decide (raw h ≠ statusSyncingString ∧
              raw h = statusValidatingString))).map Host.NodeID } := by
  unfold statusNodeSync
  rw [splitNotBootstrapped_eq]
  simp only []
  generalize hcheck : hosts.filter (fun h =>
    (ids.filter (fun i => !nb.contains i)).contains h.NodeID) = hostsToCheck
  by_cases hlen : (ids.filter (fun i => !nb.contains i)).length = 0
  · have hnil : ids.filter (fun i => !nb.contains i) = [] := List.length_eq_zero.1 hlen
    have hc : hostsToCheck = [] := by
      rw [← hcheck, hnil]
      simp
    have hs : sched [] = [] := List.Perm.eq_nil (hsched [])
    have hlen' : ¬ ((ids.filter (fun i => !nb.contains i)).length != 0) = true := by
      rw [hnil]
      decide
    rw [if_neg hlen', hc, hs]
    simp
  · have hndc : ((sched hostsToCheck).map Host.NodeID).Nodup := by
      rw [((hsched hostsToCheck).map Host.NodeID).nodup_iff, ← hcheck]
      exact hostsToCheck_nodup hosts _ hnd
    have hres := syncRound_results run parse chain (sched hostsToCheck) hndc
    have hval : (sched hostsToCheck).map
          (fun h => (h.NodeID, syncStatusResult run parse chain h)) =
        (sched hostsToCheck).map (fun h => (h.NodeID, NodeResult.value (some (raw h)))) := by
      apply List.map_congr_left
      intro h hh
      have hh' : h ∈ hosts.filter (fun h =>
          (ids.filter (fun i => !nb.contains i)).contains h.NodeID) := by
        rw [hcheck]
        exact (hsched hostsToCheck).mem_iff.1 hh
      rw [List.mem_filter] at hh'
      have hin : h.NodeID ∈ ids.filter (fun i => !nb.contains i) := by
        simpa using hh'.2
      rw [List.mem_filter] at hin
      have hnb : h.NodeID ∉ nb := by simpa using hin.2
      obtain ⟨resp, h1, h2⟩ := hraw h hh'.1 hin.1 hnb
      simp [syncStatusResult, h1, h2]
    rw [hval] at hres
    have hnr : List.foldl (syncStatusWorker run parse chain) ⟨[]⟩ (sched hostsToCheck) =
        NodeResults.mk ((sched hostsToCheck).map
          (fun h => (h.NodeID, NodeResult.value (some (raw h))))) := by
      cases hf : List.foldl (syncStatusWorker run parse chain) ⟨[]⟩ (sched hostsToCheck) with
      | mk r =>
        rw [hf] at hres
        simp only at hres
        rw [hres]
    have hv := getResultMap_of_values (sched hostsToCheck) raw
    have hlen' : ((ids.filter (fun i => !nb.contains i)).length != 0) = true := by
      simpa using hlen
    rw [if_pos hlen', hnr, hv.2, hv.1, classify_foldl]
    simp [List.filter_map, Function.comp_def]

theorem mem_filter_map_nodeID (hosts l : List Host) (q : Host → Bool) (h : Host)
    (hsub : ∀ x ∈ l, x ∈ hosts) (hnd : (hosts.map Host.NodeID).Nodup) (hh : h ∈ hosts) :
    h.NodeID ∈ (l.filter q).map Host.NodeID ↔ h ∈ l ∧ q h = true := by
  rw [List.mem_map]
  constructor
  · rintro ⟨h', hh', hid⟩
    rw [List.mem_filter] at hh'
    have : h' = h := List.inj_on_of_nodup_map hnd (hsub h' hh'.1) hh hid
    rw [← this]
    exact hh'
  · intro hq
    exact ⟨h, List.mem_filter.2 hq, rfl⟩

/-- C4, as stated, fails: two bootstrapped machines that share the node ID
NodeID-A, the first reporting "Syncing", the second a text that is no status.
The results are keyed by node ID, the later write replaces the earlier one,
and the round lists NodeID-A as not synced although the first host is
bootstrapped and its raw text is "Syncing". -/
theorem shared_node_id_sync_misclassified :
    exHostA ∈ [exHostA, exHostA2] ∧
    exSyncRunOk exHostA "chain" = Except.ok "10.0.0.1" ∧
    exSyncParse "10.0.0.1" = Except.ok "Syncing" ∧
    InterpretSync "Syncing" (!(([] : List String).contains exHostA.NodeID)) =
      SyncStatus.SYNCING ∧
    statusNodeSync exSyncRunOk exSyncParse "chain" id ["NodeID-A"] [] [exHostA, exHostA2] =
      Except.ok ⟨["NodeID-A"], [], []⟩ ∧
    ¬ ∃ lists, statusNodeSync exSyncRunOk exSyncParse "chain" id ["NodeID-A"] []
        [exHostA, exHostA2] = Except.ok lists ∧
      exHostA.NodeID ∈ lists.nodesOf SyncStatus.SYNCING := by
  have h : statusNodeSync exSyncRunOk exSyncParse "chain" id ["NodeID-A"] []
      [exHostA, exHostA2] = Except.ok ⟨["NodeID-A"], [], []⟩ := by rfl
  refine ⟨by decide, rfl, rfl, by decide, h, ?_⟩
  rintro ⟨lists, hl, hmem⟩
  rw [h] at hl
  cases hl
  cases hmem

/-- C4, amended: for the hosts of an inventory with pairwise distinct node
IDs, in a status round where the sync query of every bootstrapped host
succeeds with a raw text, the round does not fail, and every host of the
inventory lands in exactly the list of the status `InterpretSync` gives:
NOT_SYNCED when the host is among the not bootstrapped ones, whatever the
text; else SYNCING for "Syncing", VALIDATING for "Validating", NOT_SYNCED for
every other text. -/
theorem sync_classification (run : Host → String → Except String String)
    (parse : String → Except String String) (chain : String)
    (sched : List Host → List Host) (ids nb : List String) (hosts : List Host)
    (raw : Host → String)
    (hsched : ∀ l, (sched l).Perm l) (hnd : (hosts.map Host.NodeID).Nodup)
    (hraw : ∀ h ∈ hosts, h.NodeID ∈ ids → h.NodeID ∉ nb →
      ∃ resp, run h chain = Except.ok resp ∧ parse resp = Except.ok (raw h)) :
    ∃ lists, statusNodeSync run parse chain sched ids nb hosts = Except.ok lists ∧
      ∀ h ∈ hosts, h.NodeID ∈ ids → ∀ s : SyncStatus,
        h.NodeID ∈ lists.nodesOf s ↔ InterpretSync (raw h) (!nb.contains h.NodeID) = s := by
  refine ⟨_, statusNodeSync_eq_ok run parse chain sched ids nb hosts raw hsched hnd hraw, ?_⟩
  intro h hh hid s
  generalize hcheck : hosts.filter (fun h =>
    (ids.filter (fun i => !nb.contains i)).contains h.NodeID) = hostsToCheck
  have hsub : ∀ x ∈ sched hostsToCheck, x ∈ hosts := by
    intro x hx
    have hx' := (hsched hostsToCheck).mem_iff.1 hx
    rw [← hcheck] at hx'
    exact (List.mem_filter.1 hx').1
  have hmem : h ∈ sched hostsToCheck ↔ h.NodeID ∉ nb := by
    rw [(hsched hostsToCheck).mem_iff, ← hcheck, List.mem_filter]
    simp [hh, hid]
  have hfirst : h.NodeID ∈ ids.filter (fun i => nb.contains i) ↔ h.NodeID ∈ nb := by
    rw [List.mem_filter]
    simp [hid]
  have key := fun q => mem_filter_map_nodeID hosts (sched hostsToCheck) q h hsub hnd hh
  have hS : statusSyncingString = "Syncing" := rfl
  have hV : statusValidatingString = "Validating" := rfl
  cases s with
  | NOT_SYNCED =>
    show h.NodeID ∈ _ ++ _ ↔ _
    rw [List.mem_append, hfirst, key, hmem]
    unfold InterpretSync
    by_cases hnb : h.NodeID ∈ nb
    · simp [hnb]
    · by_cases h1 : raw h = "Syncing"
      · simp [hnb, h1, hS]
      · by_cases h2 : raw h = "Validating"
        · simp [hnb, h1, h2, hS, hV]
        · simp [hnb, h1, h2, hS, hV]
  | SYNCING =>
    show h.NodeID ∈ List.map _ _ ↔ _
    rw [key, hmem]
    unfold InterpretSync
    by_cases hnb : h.NodeID ∈ nb
    · simp [hnb]
    · by_cases h1 : raw h = "Syncing"
      · simp [hnb, h1, hS]
      · by_cases h2 : raw h = "Validating"
        · simp [hnb, h1, h2, hS, hV]
        · simp [hnb, h1, h2, hS, hV]
  | VALIDATING =>
    show h.NodeID ∈ List.map _ _ ↔ _
    rw [key, hmem]
    unfold InterpretSync
    by_cases hnb : h.NodeID ∈ nb
    · simp [hnb]
    · by_cases h1 : raw h = "Syncing"
      · simp [hnb, h1, hS]
      · by_cases h2 : raw h = "Validating"
        · simp [hnb, h1, h2, hS, hV]
        · simp [hnb, h1, h2, hS, hV]

/-- C4, amended, at a concrete input: two hosts, the second not bootstrapped,
the first reporting "Syncing". -/
theorem sync_classification_witness :
    (∀ l : List Host, (id l).Perm l) ∧
    ([exHostA, exHostB].map Host.NodeID).Nodup ∧
    (∀ h ∈ [exHostA, exHostB], h.NodeID ∈ ["NodeID-A", "NodeID-B"] → h.NodeID ∉ ["NodeID-B"] →
      ∃ resp, exSyncRunOk h "chain" = Except.ok resp ∧ exSyncParse resp = Except.ok (exRaw h)) ∧
    ∃ lists, statusNodeSync exSyncRunOk exSyncParse "chain" id ["NodeID-A", "NodeID-B"]
        ["NodeID-B"] [exHostA, exHostB] = Except.ok lists ∧
      ∀ h ∈ [exHostA, exHostB], h.NodeID ∈ ["NodeID-A", "NodeID-B"] → ∀ s : SyncStatus,
        h.NodeID ∈ lists.nodesOf s ↔
          InterpretSync (exRaw h) (!(["NodeID-B"].contains h.NodeID)) = s :=
  have hraw : ∀ h ∈ [exHostA, exHostB], h.NodeID ∈ ["NodeID-A", "NodeID-B"] →
      h.NodeID ∉ ["NodeID-B"] →
      ∃ resp, exSyncRunOk h "chain" = Except.ok resp ∧
        exSyncParse resp = Except.ok (exRaw h) := by
    intro h _ _ _
    refine ⟨h.IP, rfl, ?_⟩
    unfold exSyncParse exRaw
    split <;> rfl
  ⟨fun l => List.Perm.refl l, by decide, hraw,
    sync_classification exSyncRunOk exSyncParse "chain" id ["NodeID-A", "NodeID-B"]
      ["NodeID-B"] [exHostA, exHostB] exRaw (fun l => List.Perm.refl l) (by decide) hraw⟩

/-- C5, as stated, fails: two bootstrapped hosts, the sync query failing on
the second.  The round returns the error host map; it classifies no host and
gives no status for the first host either.  The stop itself needs distinct
node IDs: when a second machine shares the node ID of the failing one and
answers after it, its write replaces the error and the round does not
stop. -/
theorem sync_failure_gives_no_status :
    syncOperationFails exSyncRun exSyncParse "chain" exHostB = true ∧
    statusNodeSync exSyncRun exSyncParse "chain" id ["NodeID-A", "NodeID-B"] []
        [exHostA, exHostB] = Except.error [("NodeID-B", "connection refused")] ∧
    (¬ ∃ lists, statusNodeSync exSyncRun exSyncParse "chain" id ["NodeID-A", "NodeID-B"] []
        [exHostA, exHostB] = Except.ok lists ∧ "NodeID-B" ∈ lists.notSyncedNodes) ∧
    statusNodeSync exSyncRun exSyncParse "chain" id ["NodeID-B"] [] [exHostB, exHostB2] =
      Except.ok ⟨["NodeID-B"], [], []⟩ := by
  have h : statusNodeSync exSyncRun exSyncParse "chain" id ["NodeID-A", "NodeID-B"] []
      [exHostA, exHostB] = Except.error [("NodeID-B", "connection refused")] := by rfl
  refine ⟨by decide, h, ?_, by rfl⟩
  rintro ⟨lists, hl, _⟩
  rw [h] at hl
  cases hl

/-- C5, amended: in an inventory with pairwise distinct node IDs, when the
sync query (or the decoding of its response) fails for a bootstrapped host of
the inventory, the subnet part of `statusNode` returns the error built from
the error host map, that host among its keys, and classifies no host. -/
theorem sync_failure_aborts (run : Host → String → Except String String)
    (parse : String → Except String String) (chain : String)
    (sched : List Host → List Host) (ids nb : List String) (hosts : List Host) (H : Host)
    (hsched : ∀ l, (sched l).Perm l) (hnd : (hosts.map Host.NodeID).Nodup)
    (hH : H ∈ hosts) (hid : H.NodeID ∈ ids) (hnb : H.NodeID ∉ nb)
    (hfail : syncOperationFails run parse chain H = true) :
    ∃ errs, statusNodeSync run parse chain sched ids nb hosts = Except.error errs ∧
      H.NodeID ∈ mapKeys errs := by
  unfold statusNodeSync
  rw [splitNotBootstrapped_eq]
  simp only []
  have hin : H.NodeID ∈ ids.filter (fun i => !nb.contains i) := by
    rw [List.mem_filter]
    simp [hid, hnb]
  have hlen : ((ids.filter (fun i => !nb.contains i)).length != 0) = true := by
    have : (ids.filter (fun i => !nb.contains i)).length ≠ 0 := by
      intro h0
      rw [List.length_eq_zero.1 h0] at hin
      cases hin
    simpa using this
  rw [if_pos hlen]
  generalize hcheck : hosts.filter (fun h =>
    (ids.filter (fun i => !nb.contains i)).contains h.NodeID) = hostsToCheck
  have hHc : H ∈ sched hostsToCheck := by
    rw [(hsched hostsToCheck).mem_iff, ← hcheck, List.mem_filter]
    exact ⟨hH, by simpa using hin⟩
  have hndc : ((sched hostsToCheck).map Host.NodeID).Nodup := by
    rw [((hsched hostsToCheck).map Host.NodeID).nodup_iff, ← hcheck]
    exact hostsToCheck_nodup hosts _ hnd
  have hres := syncRound_results run parse chain (sched hostsToCheck) hndc
  obtain ⟨e, he⟩ := (syncOperationFails_iff run parse chain H).1 hfail
  have hentry : (H.NodeID, NodeResult.error e) ∈
      (List.foldl (syncStatusWorker run parse chain) ⟨[]⟩ (sched hostsToCheck)).Results := by
    rw [hres]
    exact List.mem_map.2 ⟨H, hHc, by rw [he]⟩
  have herr : (List.foldl (syncStatusWorker run parse chain) ⟨[]⟩
      (sched hostsToCheck)).HasErrors = true :=
    (hasErrors_iff _).2 ⟨H.NodeID, e, hentry⟩
  rw [if_pos herr]
  exact ⟨_, rfl, (mem_keys_getErrorHostMap _ _).2 ⟨e, hentry⟩⟩

/-- C5, amended, at a concrete input: two bootstrapped hosts, the sync query
failing on the second. -/
theorem sync_failure_aborts_witness :
    (∀ l : List Host, (id l).Perm l) ∧
    ([exHostA, exHostB].map Host.NodeID).Nodup ∧
    exHostB ∈ [exHostA, exHostB] ∧
    exHostB.NodeID ∈ ["NodeID-A", "NodeID-B"] ∧
    exHostB.NodeID ∉ ([] : List String) ∧
    syncOperationFails exSyncRun exSyncParse "chain" exHostB = true ∧
    ∃ errs, statusNodeSync exSyncRun exSyncParse "chain" id ["NodeID-A", "NodeID-B"] []
        [exHostA, exHostB] = Except.error errs ∧ exHostB.NodeID ∈ mapKeys errs :=
  ⟨fun l => List.Perm.refl l, by decide, by decide, by decide, by decide, by decide,
    sync_failure_aborts exSyncRun exSyncParse "chain" id ["NodeID-A", "NodeID-B"] []
      [exHostA, exHostB] exHostB (fun l => List.Perm.refl l) (by decide) (by decide)
      (by decide) (by decide) (by decide)⟩

/-! ## The upgrade planner -/

theorem checkIfKeyIsStandardVMName_iff (vmName : String) :
    checkIfKeyIsStandardVMName vmName = true ↔
      vmName = "avm" ∨ vmName = "evm" ∨ vmName = "platform" := by
  simp [checkIfKeyIsStandardVMName, PlatformKeyName, EVMKeyName, AVMKeyName]
  tauto

theorem interfaceEqString_iff (v : JVal) (s : String) :
    interfaceEqString (some v) s = true ↔ v = JVal.str s := by
  unfold interfaceEqString
  cases v <;> simp

theorem mapGet_mapSet_self {κ V : Type} [BEq κ] [LawfulBEq κ] (m : GoMap κ V) (k : κ) (v : V) :
    mapGet (mapSet m k v) k = some v := by
  unfold mapSet
  cases hg : (mapGet m k).isSome with
  | false =>
    have hnone : mapGet m k = none := by
      cases h : mapGet m k with
      | none => rfl
      | some x => rw [h] at hg; cases hg
    simp only [Bool.false_eq_true, if_false]
    unfold mapGet at hnone ⊢
    rw [List.lookup_append, hnone]
    simp
  | true =>
    simp only [if_true]
    unfold mapGet at hg ⊢
    induction m with
    | nil => simp at hg
    | cons p t ih =>
      obtain ⟨a, b⟩ := p
      rw [List.map_cons]
      by_cases hka : a = k
      · subst hka
        simp
      · have hne : (a == k) = false := by simpa using hka
        have hne' : (k == a) = false := by simpa using (Ne.symm hka)
        simp only [hne, Bool.false_eq_true, if_false]
        rw [List.lookup_cons, hne']
        rw [List.lookup_cons, hne'] at hg
        exact ih hg

theorem pluginsToUpgrade_cons (latest : String) (a : String × JVal) (t : GoMap String JVal) :
    pluginsToUpgrade latest (a :: t) =
      if (!checkIfKeyIsStandardVMName a.1 && !interfaceEqString (some a.2) latest) = true
      then a.1 :: pluginsToUpgrade latest t else pluginsToUpgrade latest t := by
  unfold pluginsToUpgrade
  rw [List.filter_cons]
  split <;> rfl

theorem vmLoop_info (resolver : Int → String × Option String) (rpc : Int)
    (latest hostID : String) (l : GoMap String JVal) :
    ∀ st : VMLoopState,
      (l.foldl (vmLoopStep resolver rpc latest hostID) st).info =
        { LuxdVersion := st.info.LuxdVersion
          SubnetEVMVersion :=
            if pluginsToUpgrade latest l = [] then st.info.SubnetEVMVersion else latest
          SubnetEVMIDsToUpgrade := st.info.SubnetEVMIDsToUpgrade ++ pluginsToUpgrade latest l } := by
  induction l with
  | nil => intro st; simp [pluginsToUpgrade]
  | cons a t ih =>
    intro st
    rw [List.foldl_cons, ih, pluginsToUpgrade_cons]
    unfold vmLoopStep
    rcases hr : resolver rpc with ⟨v, _ | err⟩ <;>
      cases hs : checkIfKeyIsStandardVMName a.1 <;>
      cases he : interfaceEqString (some a.2) latest <;>
      simp [hs, he]

theorem vmLoop_no_plugin (resolver : Int → String × Option String) (rpc : Int)
    (latest hostID : String) (l : GoMap String JVal) (hp : hasPlugin l = false) :
    ∀ st : VMLoopState, l.foldl (vmLoopStep resolver rpc latest hostID) st = st := by
  induction l with
  | nil => intro st; rfl
  | cons a t ih =>
    intro st
    unfold hasPlugin at hp ih
    rw [List.any_cons, Bool.or_eq_false_iff] at hp
    have hstep : vmLoopStep resolver rpc latest hostID st a = st := by
      unfold vmLoopStep
      simp only [hp.1, Bool.false_eq_true, if_false]
    rw [List.foldl_cons, hstep]
    exact ih hp.2 st

theorem vmLoop_luxdVersion (resolver : Int → String × Option String) (rpc : Int)
    (latest hostID : String) (l : GoMap String JVal) :
    ∀ st : VMLoopState,
      (l.foldl (vmLoopStep resolver rpc latest hostID) st).luxdVersionToUpdateTo =
        if hasPlugin l then (resolver rpc).1 else st.luxdVersionToUpdateTo := by
  induction l with
  | nil => intro st; simp [hasPlugin]
  | cons a t ih =>
    intro st
    rw [List.foldl_cons, ih]
    unfold hasPlugin at *
    rw [List.any_cons]
    unfold vmLoopStep
    rcases hr : resolver rpc with ⟨v, _ | err⟩ <;>
      cases hs : checkIfKeyIsStandardVMName a.1 <;>
      cases ht : t.any (fun e => !checkIfKeyIsStandardVMName e.1) <;>
      simp [hs, ht]

theorem vmLoop_nodeErrors_ok (resolver : Int → String × Option String) (rpc : Int)
    (latest hostID : String) (l : GoMap String JVal) (hres : (resolver rpc).2 = none) :
    ∀ st : VMLoopState,
      (l.foldl (vmLoopStep resolver rpc latest hostID) st).nodeErrors = st.nodeErrors := by
  induction l with
  | nil => intro st; rfl
  | cons a t ih =>
    intro st
    rw [List.foldl_cons, ih]
    unfold vmLoopStep
    rcases hr : resolver rpc with ⟨v, _ | err⟩
    · cases hs : checkIfKeyIsStandardVMName a.1 <;> simp [hs]
    · rw [hr] at hres
      cases hres

theorem vmLoop_nodeErrors_failed (resolver : Int → String × Option String) (rpc : Int)
    (latest hostID : String) (l : GoMap String JVal) (err : String)
    (hres : (resolver rpc).2 = some err) :
    ∀ st : VMLoopState,
      mapGet (l.foldl (vmLoopStep resolver rpc latest hostID) st).nodeErrors hostID =
        if hasPlugin l then some err else mapGet st.nodeErrors hostID := by
  induction l with
  | nil => intro st; simp [hasPlugin]
  | cons a t ih =>
    intro st
    rw [List.foldl_cons, ih]
    unfold hasPlugin at *
    rw [List.any_cons]
    unfold vmLoopStep
    rcases hr : resolver rpc with ⟨v, _ | e⟩
    · rw [hr] at hres
      cases hres
    · rw [hr] at hres
      have he : e = err := by simpa using hres
      subst he
      cases hs : checkIfKeyIsStandardVMName a.1 <;>
        cases ht : t.any (fun e => !checkIfKeyIsStandardVMName e.1) <;>
        simp [hs, ht, mapGet_mapSet_self]

theorem planHost_nodeErrors (resolver : Int → String × Option String) (rpc : Int)
    (latestLuxd latest : String) (nodeIDToHost : GoMap String Host) (st : PlannerState)
    (hostID : String) (vmVersions : GoMap String JVal) :
    (planHost resolver rpc latestLuxd latest nodeIDToHost st hostID vmVersions).nodeErrors =
      (vmLoop resolver rpc latestLuxd latest st.nodeErrors hostID vmVersions).nodeErrors := by
  unfold planHost
  simp only []
  split <;> rfl

theorem planHost_eq_of_ok (resolver : Int → String × Option String) (rpc : Int)
    (latestLuxd latest : String) (nodeIDToHost : GoMap String Host) (st : PlannerState)
    (hostID : String) (vmVersions : GoMap String JVal)
    (hnone : mapGet (vmLoop resolver rpc latestLuxd latest st.nodeErrors hostID
      vmVersions).nodeErrors hostID = none) :
    planHost resolver rpc latestLuxd latest nodeIDToHost st hostID vmVersions =
      { nodeErrors :=
          (vmLoop resolver rpc latestLuxd latest st.nodeErrors hostID vmVersions).nodeErrors
        nodesToUpgrade := mapSet st.nodesToUpgrade (mapGet nodeIDToHost hostID)
          (hostPlan resolver rpc latestLuxd latest vmVersions) } := by
  have hinfo := vmLoop_info resolver rpc latest hostID vmVersions
    { nodeErrors := st.nodeErrors, info := ⟨"", "", []⟩, luxdVersionToUpdateTo := latestLuxd }
  have hluxd := vmLoop_luxdVersion resolver rpc latest hostID vmVersions
    { nodeErrors := st.nodeErrors, info := ⟨"", "", []⟩, luxdVersionToUpdateTo := latestLuxd }
  unfold planHost
  simp only [hnone, Option.isSome_none, Bool.false_eq_true, if_false]
  unfold vmLoop hostPlan
  rw [hinfo, hluxd]
  cases interfaceEqString (mapGet vmVersions PlatformKeyName)
    (if hasPlugin vmVersions then (resolver rpc).1 else latestLuxd) <;> simp

theorem planHost_planned (resolver : Int → String × Option String) (rpc : Int)
    (latestLuxd latest : String) (nodeIDToHost : GoMap String Host) (st : PlannerState)
    (hostID : String) (vmVersions : GoMap String JVal)
    (hnone : mapGet (vmLoop resolver rpc latestLuxd latest st.nodeErrors hostID
      vmVersions).nodeErrors hostID = none) :
    mapGet (planHost resolver rpc latestLuxd latest nodeIDToHost st hostID
        vmVersions).nodesToUpgrade (mapGet nodeIDToHost hostID) =
      some
        { LuxdVersion :=
            if interfaceEqString (mapGet vmVersions PlatformKeyName)
                (if hasPlugin vmVersions then (resolver rpc).1 else latestLuxd) then ""
            else (if hasPlugin vmVersions then (resolver rpc).1 else latestLuxd)
          SubnetEVMVersion := if pluginsToUpgrade latest vmVersions = [] then "" else latest
          SubnetEVMIDsToUpgrade := pluginsToUpgrade latest vmVersions } := by
  rw [planHost_eq_of_ok resolver rpc latestLuxd latest nodeIDToHost st hostID vmVersions hnone]
  simp only []
  rw [mapGet_mapSet_self]
  rfl

theorem mem_pluginsToUpgrade (latest : String) (vmVersions : GoMap String JVal)
    (vmName : String) :
    vmName ∈ pluginsToUpgrade latest vmVersions ↔
      ∃ v, (vmName, v) ∈ vmVersions ∧ checkIfKeyIsStandardVMName vmName = false ∧
        v ≠ JVal.str latest := by
  unfold pluginsToUpgrade
  rw [List.mem_map]
  constructor
  · rintro ⟨⟨k, v⟩, hmem, rfl⟩
    rw [List.mem_filter] at hmem
    obtain ⟨hin, hcond⟩ := hmem
    simp only [Bool.and_eq_true, Bool.not_eq_true'] at hcond
    refine ⟨v, hin, hcond.1, ?_⟩
    intro hv
    have := (interfaceEqString_iff v latest).2 hv
    rw [hcond.2] at this
    cases this
  · rintro ⟨v, hin, hstd, hv⟩
    refine ⟨(vmName, v), List.mem_filter.2 ⟨hin, ?_⟩, rfl⟩
    have hne : interfaceEqString (some v) latest = false := by
      cases h : interfaceEqString (some v) latest with
      | false => rfl
      | true => exact absurd ((interfaceEqString_iff v latest).1 h) hv
    simp [hstd, hne]

theorem pluginsToUpgrade_nodup (latest : String) (vmVersions : GoMap String JVal)
    (hkeys : (mapKeys vmVersions).Nodup) : (pluginsToUpgrade latest vmVersions).Nodup :=
  ((List.filter_sublist vmVersions).map Prod.fst).nodup hkeys

theorem pluginsToUpgrade_eq_nil (latest : String) (vmVersions : GoMap String JVal)
    (hall : ∀ vmName v, (vmName, v) ∈ vmVersions →
      checkIfKeyIsStandardVMName vmName = false → v = JVal.str latest) :
    pluginsToUpgrade latest vmVersions = [] := by
  apply List.eq_nil_iff_forall_not_mem.2
  intro vmName hmem
  obtain ⟨v, hin, hstd, hv⟩ := (mem_pluginsToUpgrade latest vmVersions vmName).1 hmem
  exact hv (hall vmName v hin hstd)

theorem hasPlugin_of_mem (vmVersions : GoMap String JVal) (vmName : String) (v : JVal)
    (hin : (vmName, v) ∈ vmVersions) (hstd : checkIfKeyIsStandardVMName vmName = false) :
    hasPlugin vmVersions = true := by
  unfold hasPlugin
  rw [List.any_eq_true]
  exact ⟨(vmName, v), hin, by simp [hstd]⟩

theorem interfaceEqString_eq_true_iff (o : Option JVal) (s : String) :
    interfaceEqString o s = true ↔ o = some (JVal.str s) := by
  cases o with
  | none => simp [interfaceEqString]
  | some v =>
    rw [interfaceEqString_iff]
    simp

/-- C6, on the code: a host whose version reply decodes as JSON but has no
`vmVersions` under `result`.  `parseNodeVersionOutput` returns the `nil` map
and the `nil` error, so the round records a value for the host, not an error:
`HasErrors` is false and the error host map is empty, while a transport
failure of the same host is recorded as an error. -/
theorem missing_fields_recorded_as_value :
    parseNodeVersionOutput exUnmarshal "\x7b\"result\":\x7b\x7d\x7d" = (none, none) ∧
    (upgradeVersionRound exRunNoVersions exUnmarshal id [exHostA]).HasErrors = false ∧
    mapKeys (upgradeVersionRound exRunNoVersions exUnmarshal id [exHostA]).GetErrorHostMap
      = [] ∧
    mapKeys (upgradeVersionRound exRunNoVersions exUnmarshal id [exHostA]).GetResultMap
      = ["NodeID-A"] ∧
    (upgradeVersionRound exRunDown exUnmarshal id [exHostA]).HasErrors = true ∧
    mapKeys (upgradeVersionRound exRunDown exUnmarshal id [exHostA]).GetErrorHostMap
      = ["NodeID-A"] := by
  refine ⟨rfl, rfl, rfl, rfl, rfl, rfl⟩

/-- C7: when the plan of a host succeeds (no error is recorded for the host),
the list `SubnetEVMIDsToUpgrade` of its entry holds exactly the component
names that are none of "platform", "evm", "avm" and whose installed version
is not the latest plugin version, each once. -/
theorem plugin_ids_to_upgrade (resolver : Int → String × Option String) (rpc : Int)
    (latestLuxd latest : String) (nodeIDToHost : GoMap String Host) (st : PlannerState)
    (hostID : String) (vmVersions : GoMap String JVal)
    (hkeys : (mapKeys vmVersions).Nodup)
    (hok : mapGet (planHost resolver rpc latestLuxd latest nodeIDToHost st hostID
      vmVersions).nodeErrors hostID = none) :
    ∃ info, mapGet (planHost resolver rpc latestLuxd latest nodeIDToHost st hostID
        vmVersions).nodesToUpgrade (mapGet nodeIDToHost hostID) = some info ∧
      info.SubnetEVMIDsToUpgrade.Nodup ∧
      ∀ vmName, vmName ∈ info.SubnetEVMIDsToUpgrade ↔
        (vmName ≠ "platform" ∧ vmName ≠ "evm" ∧ vmName ≠ "avm" ∧
          ∃ v, mapGet vmVersions vmName = some v ∧ v ≠ JVal.str latest) := by
  rw [planHost_nodeErrors] at hok
  refine ⟨_, planHost_planned resolver rpc latestLuxd latest nodeIDToHost st hostID
    vmVersions hok, pluginsToUpgrade_nodup latest vmVersions hkeys, ?_⟩
  intro vmName
  show vmName ∈ pluginsToUpgrade latest vmVersions ↔ _
  rw [mem_pluginsToUpgrade]
  have hstd : checkIfKeyIsStandardVMName vmName = false ↔
      (vmName ≠ "platform" ∧ vmName ≠ "evm" ∧ vmName ≠ "avm") := by
    rw [← Bool.not_eq_true, checkIfKeyIsStandardVMName_iff]
    tauto
  constructor
  · rintro ⟨v, hin, hs, hv⟩
    obtain ⟨h1, h2, h3⟩ := hstd.1 hs
    exact ⟨h1, h2, h3, v, (mapGet_eq_some_iff vmVersions hkeys vmName v).2 hin, hv⟩
  · rintro ⟨h1, h2, h3, v, hget, hv⟩
    exact ⟨v, (mapGet_eq_some_iff vmVersions hkeys vmName v).1 hget, hstd.2 ⟨h1, h2, h3⟩, hv⟩

/-- C7, at a concrete input: one Subnet EVM at v0.5.0, the latest being
v0.6.0. -/
theorem plugin_ids_to_upgrade_witness :
    (mapKeys exVersionsOld).Nodup ∧
    mapGet (planHost exResolver 19 "v1.3.0" "v0.6.0" [("NodeID-A", exHostA)] ⟨[], []⟩
      "NodeID-A" exVersionsOld).nodeErrors "NodeID-A" = none ∧
    ∃ info, mapGet (planHost exResolver 19 "v1.3.0" "v0.6.0" [("NodeID-A", exHostA)] ⟨[], []⟩
        "NodeID-A" exVersionsOld).nodesToUpgrade (mapGet [("NodeID-A", exHostA)] "NodeID-A")
        = some info ∧
      info.SubnetEVMIDsToUpgrade.Nodup ∧
      ∀ vmName, vmName ∈ info.SubnetEVMIDsToUpgrade ↔
        (vmName ≠ "platform" ∧ vmName ≠ "evm" ∧ vmName ≠ "avm" ∧
          ∃ v, mapGet exVersionsOld vmName = some v ∧ v ≠ JVal.str "v0.6.0") :=
  ⟨by decide, by decide,
    plugin_ids_to_upgrade exResolver 19 "v1.3.0" "v0.6.0" [("NodeID-A", exHostA)] ⟨[], []⟩
      "NodeID-A" exVersionsOld (by decide) (by decide)⟩

theorem exVersionsQuoted_plugins_latest :
    ∀ vmName v, (vmName, v) ∈ exVersionsQuoted →
      checkIfKeyIsStandardVMName vmName = false → v = JVal.str "v0.5.6" := by
  intro vmName v hin hstd
  simp only [exVersionsQuoted, List.mem_cons, Prod.mk.injEq, List.mem_singleton,
    List.not_mem_nil, or_false] at hin
  rcases hin with ⟨h1, _⟩ | ⟨h1, _⟩ | ⟨_, h2⟩ | ⟨h1, _⟩
  · rw [h1] at hstd; exact absurd hstd (by decide)
  · rw [h1] at hstd; exact absurd hstd (by decide)
  · exact h2
  · rw [h1] at hstd; exact absurd hstd (by decide)

theorem vmLoop_fresh_of_ok (resolver : Int → String × Option String) (rpc : Int)
    (latestLuxd latest : String) (st : PlannerState) (hostID : String)
    (vmVersions : GoMap String JVal) (hfresh : mapGet st.nodeErrors hostID = none)
    (hres : hasPlugin vmVersions = false ∨ (resolver rpc).2 = none) :
    mapGet (vmLoop resolver rpc latestLuxd latest st.nodeErrors hostID
      vmVersions).nodeErrors hostID = none := by
  unfold vmLoop
  rcases hres with hp | hr
  · rw [vmLoop_no_plugin resolver rpc latest hostID vmVersions hp]
    exact hfresh
  · rw [vmLoop_nodeErrors_ok resolver rpc latest hostID vmVersions hr]
    exact hfresh

/-- C8: a host with a plugin instance whose installed version is not the
latest plugin version, a resolver that returns the runtime version `R`, and
an installed runtime version that is not `R`: the entry of the host has
`SubnetEVMVersion` equal to the latest plugin version, lists that plugin
instance, and has `LuxdVersion` equal to `R`. -/
theorem plugin_and_runtime_upgrade (resolver : Int → String × Option String) (rpc : Int)
    (latestLuxd latest : String) (nodeIDToHost : GoMap String Host) (st : PlannerState)
    (hostID : String) (vmVersions : GoMap String JVal)
    (vmName : String) (v : JVal) (R : String)
    (hfresh : mapGet st.nodeErrors hostID = none)
    (hin : (vmName, v) ∈ vmVersions)
    (hstd : checkIfKeyIsStandardVMName vmName = false)
    (hdiff : v ≠ JVal.str latest)
    (hres : resolver rpc = (R, none))
    (hcur : mapGet vmVersions PlatformKeyName ≠ some (JVal.str R)) :
    ∃ info, mapGet (planHost resolver rpc latestLuxd latest nodeIDToHost st hostID
        vmVersions).nodesToUpgrade (mapGet nodeIDToHost hostID) = some info ∧
      info.SubnetEVMVersion = latest ∧
      vmName ∈ info.SubnetEVMIDsToUpgrade ∧
      info.LuxdVersion = R := by
  have hr2 : (resolver rpc).2 = none := by rw [hres]
  have hr1 : (resolver rpc).1 = R := by rw [hres]
  have hplug : hasPlugin vmVersions = true := hasPlugin_of_mem vmVersions vmName v hin hstd
  have hmem : vmName ∈ pluginsToUpgrade latest vmVersions :=
    (mem_pluginsToUpgrade latest vmVersions vmName).2 ⟨v, hin, hstd, hdiff⟩
  have hne : pluginsToUpgrade latest vmVersions ≠ [] := List.ne_nil_of_mem hmem
  have hcmp : interfaceEqString (mapGet vmVersions PlatformKeyName) R = false := by
    cases h : interfaceEqString (mapGet vmVersions PlatformKeyName) R with
    | false => rfl
    | true => exact absurd ((interfaceEqString_eq_true_iff _ _).1 h) hcur
  refine ⟨_, planHost_planned resolver rpc latestLuxd latest nodeIDToHost st hostID vmVersions
    (vmLoop_fresh_of_ok resolver rpc latestLuxd latest st hostID vmVersions hfresh
      (Or.inr hr2)), ?_, hmem, ?_⟩
  · simp [hne]
  · simp [hplug, hr1, hcmp]

/-- C8, at the input of the spec: plugin v0.5.0, latest plugin v0.6.0 on
protocol 19, the resolver giving v1.3.0 for protocol 19, installed runtime
v1.2.0. -/
theorem plugin_and_runtime_upgrade_witness :
    mapGet ([] : GoMap String String) "NodeID-A" = none ∧
    ("subnetEvmA", JVal.str "v0.5.0") ∈ exVersionsOld ∧
    checkIfKeyIsStandardVMName "subnetEvmA" = false ∧
    JVal.str "v0.5.0" ≠ JVal.str "v0.6.0" ∧
    exResolver 19 = ("v1.3.0", none) ∧
    mapGet exVersionsOld PlatformKeyName ≠ some (JVal.str "v1.3.0") ∧
    ∃ info, mapGet (planHost exResolver 19 "v1.4.0" "v0.6.0" [("NodeID-A", exHostA)] ⟨[], []⟩
        "NodeID-A" exVersionsOld).nodesToUpgrade (mapGet [("NodeID-A", exHostA)] "NodeID-A")
        = some info ∧
      info.SubnetEVMVersion = "v0.6.0" ∧
      "subnetEvmA" ∈ info.SubnetEVMIDsToUpgrade ∧
      info.LuxdVersion = "v1.3.0" :=
  have hin : ("subnetEvmA", JVal.str "v0.5.0") ∈ exVersionsOld := by
    simp [exVersionsOld]
  have hdiff : JVal.str "v0.5.0" ≠ JVal.str "v0.6.0" := by
    intro h
    have := JVal.str.inj h
    revert this
    decide
  have hcur : mapGet exVersionsOld PlatformKeyName ≠ some (JVal.str "v1.3.0") := by
    intro h
    have h2 : mapGet exVersionsOld PlatformKeyName = some (JVal.str "v1.2.0") := rfl
    rw [h2] at h
    have := JVal.str.inj (Option.some.inj h)
    revert this
    decide
  ⟨rfl, hin, by decide, hdiff, rfl, hcur,
    plugin_and_runtime_upgrade exResolver 19 "v1.4.0" "v0.6.0" [("NodeID-A", exHostA)] ⟨[], []⟩
      "NodeID-A" exVersionsOld "subnetEvmA" (JVal.str "v0.5.0") "v1.3.0" rfl hin (by decide)
      hdiff rfl hcur⟩

/-- C9, as stated, fails: a host whose only plugin instance is at the latest
plugin version v0.6.0 and whose runtime is at the latest runtime version
v1.3.0, while the resolver gives v1.2.0.  No plugin is marked, yet the runtime
is compared with the resolved version and `LuxdVersion` is set to v1.2.0. -/
theorem runtime_compared_with_resolved_version :
    pluginsToUpgrade "v0.6.0" exVersionsNew = [] ∧
    interfaceEqString (mapGet exVersionsNew PlatformKeyName) "v1.3.0" = true ∧
    mapGet (planHost exResolverOld 19 "v1.3.0" "v0.6.0" [("NodeID-A", exHostA)] ⟨[], []⟩
        "NodeID-A" exVersionsNew).nodesToUpgrade (some exHostA)
      = some ⟨"v1.2.0", "", []⟩ := by
  refine ⟨rfl, rfl, rfl⟩

/-- C9, amended: on a host with no component outside the standard names the
runtime is compared with the latest runtime version: `LuxdVersion` is that
version when the installed one differs and is empty when they are equal.  On
a host that has such components, all at the latest plugin version, the
runtime is compared in the same way with the version the resolver returns. -/
theorem runtime_target_without_plugin_upgrade (resolver : Int → String × Option String)
    (rpc : Int) (latestLuxd latest : String) (nodeIDToHost : GoMap String Host)
    (st : PlannerState) (hostID : String) (vmVersions : GoMap String JVal)
    (hfresh : mapGet st.nodeErrors hostID = none) :
    (hasPlugin vmVersions = false →
      ∃ info, mapGet (planHost resolver rpc latestLuxd latest nodeIDToHost st hostID
          vmVersions).nodesToUpgrade (mapGet nodeIDToHost hostID) = some info ∧
        info.LuxdVersion =
          if interfaceEqString (mapGet vmVersions PlatformKeyName) latestLuxd then ""
          else latestLuxd) ∧
    (hasPlugin vmVersions = true →
      (∀ vmName v, (vmName, v) ∈ vmVersions →
        checkIfKeyIsStandardVMName vmName = false → v = JVal.str latest) →
      ∀ R, resolver rpc = (R, none) →
      ∃ info, mapGet (planHost resolver rpc latestLuxd latest nodeIDToHost st hostID
          vmVersions).nodesToUpgrade (mapGet nodeIDToHost hostID) = some info ∧
        info.SubnetEVMIDsToUpgrade = [] ∧
        info.LuxdVersion =
          if interfaceEqString (mapGet vmVersions PlatformKeyName) R then "" else R) := by
  constructor
  · intro hp
    refine ⟨_, planHost_planned resolver rpc latestLuxd latest nodeIDToHost st hostID
      vmVersions (vmLoop_fresh_of_ok resolver rpc latestLuxd latest st hostID vmVersions
        hfresh (Or.inl hp)), ?_⟩
    simp [hp]
  · intro hp hall R hres
    have hr2 : (resolver rpc).2 = none := by rw [hres]
    have hr1 : (resolver rpc).1 = R := by rw [hres]
    refine ⟨_, planHost_planned resolver rpc latestLuxd latest nodeIDToHost st hostID
      vmVersions (vmLoop_fresh_of_ok resolver rpc latestLuxd latest st hostID vmVersions
        hfresh (Or.inr hr2)), pluginsToUpgrade_eq_nil latest vmVersions hall, ?_⟩
    simp [hp, hr1]

/-- C9, amended, at two concrete inputs: a host with the standard components
only, on v1.2.0, the latest runtime being v1.3.0; and the host of the reply
quoted in the source, its plugin instance at the latest plugin version, the
resolver giving v1.10.11. -/
theorem runtime_target_without_plugin_upgrade_witness :
    mapGet ([] : GoMap String String) "NodeID-A" = none ∧
    hasPlugin exVersionsPlain = false ∧
    (∃ info, mapGet (planHost exResolver 19 "v1.3.0" "v0.6.0" [("NodeID-A", exHostA)] ⟨[], []⟩
        "NodeID-A" exVersionsPlain).nodesToUpgrade (mapGet [("NodeID-A", exHostA)] "NodeID-A")
        = some info ∧
      info.LuxdVersion =
        if interfaceEqString (mapGet exVersionsPlain PlatformKeyName) "v1.3.0" then ""
        else "v1.3.0") ∧
    hasPlugin exVersionsQuoted = true ∧
    (∀ vmName v, (vmName, v) ∈ exVersionsQuoted →
      checkIfKeyIsStandardVMName vmName = false → v = JVal.str "v0.5.6") ∧
    exResolverQuoted 19 = ("v1.10.11", none) ∧
    (∃ info, mapGet (planHost exResolverQuoted 19 "v1.10.12" "v0.5.6" [("NodeID-A", exHostA)]
        ⟨[], []⟩ "NodeID-A" exVersionsQuoted).nodesToUpgrade
        (mapGet [("NodeID-A", exHostA)] "NodeID-A") = some info ∧
      info.SubnetEVMIDsToUpgrade = [] ∧
      info.LuxdVersion =
        if interfaceEqString (mapGet exVersionsQuoted PlatformKeyName) "v1.10.11" then ""
        else "v1.10.11") :=
  ⟨rfl, by decide,
    (runtime_target_without_plugin_upgrade exResolver 19 "v1.3.0" "v0.6.0"
      [("NodeID-A", exHostA)] ⟨[], []⟩ "NodeID-A" exVersionsPlain rfl).1 (by decide),
    by decide, exVersionsQuoted_plugins_latest, rfl,
    (runtime_target_without_plugin_upgrade exResolverQuoted 19 "v1.10.12" "v0.5.6"
      [("NodeID-A", exHostA)] ⟨[], []⟩ "NodeID-A" exVersionsQuoted rfl).2 (by decide)
      exVersionsQuoted_plugins_latest "v1.10.11" rfl⟩

/-- C10, as stated, fails: the host of the reply quoted in the source, its
plugin instance at the latest plugin version v0.5.6 and its runtime at the
latest runtime version v1.10.12, while the resolver gives v1.10.11: the plan
marks the runtime, with `LuxdVersion` set to v1.10.11. -/
theorem up_to_date_host_still_marked :
    pluginsToUpgrade "v0.5.6" exVersionsQuoted = [] ∧
    interfaceEqString (mapGet exVersionsQuoted PlatformKeyName) "v1.10.12" = true ∧
    mapGet (planHost exResolverQuoted 19 "v1.10.12" "v0.5.6" [("NodeID-A", exHostA)] ⟨[], []⟩
        "NodeID-A" exVersionsQuoted).nodesToUpgrade (some exHostA)
      = some ⟨"v1.10.11", "", []⟩ := by
  refine ⟨rfl, rfl, rfl⟩

/-- C10, amended: a host whose plugin instances are all at the latest plugin
version and whose runtime is at the latest runtime version, and which either
has no plugin instance or gets that same latest runtime version from the
resolver, has no marks: `LuxdVersion` and `SubnetEVMVersion` are empty and
`SubnetEVMIDsToUpgrade` is empty. -/
theorem no_marks_when_up_to_date (resolver : Int → String × Option String)
    (rpc : Int) (latestLuxd latest : String) (nodeIDToHost : GoMap String Host)
    (st : PlannerState) (hostID : String) (vmVersions : GoMap String JVal)
    (hfresh : mapGet st.nodeErrors hostID = none)
    (hall : ∀ vmName v, (vmName, v) ∈ vmVersions →
      checkIfKeyIsStandardVMName vmName = false → v = JVal.str latest)
    (hcur : mapGet vmVersions PlatformKeyName = some (JVal.str latestLuxd))
    (hcase : hasPlugin vmVersions = false ∨ resolver rpc = (latestLuxd, none)) :
    ∃ info, mapGet (planHost resolver rpc latestLuxd latest nodeIDToHost st hostID
        vmVersions).nodesToUpgrade (mapGet nodeIDToHost hostID) = some info ∧
      info.LuxdVersion = "" ∧ info.SubnetEVMVersion = "" ∧
      info.SubnetEVMIDsToUpgrade = [] := by
  have hnil := pluginsToUpgrade_eq_nil latest vmVersions hall
  have hcmp : interfaceEqString (mapGet vmVersions PlatformKeyName) latestLuxd = true :=
    (interfaceEqString_eq_true_iff _ _).2 hcur
  have hres : hasPlugin vmVersions = false ∨ (resolver rpc).2 = none := by
    rcases hcase with hp | hr
    · exact Or.inl hp
    · exact Or.inr (by rw [hr])
  have htarget : (if hasPlugin vmVersions then (resolver rpc).1 else latestLuxd) = latestLuxd := by
    rcases hcase with hp | hr
    · simp [hp]
    · simp [hr]
  refine ⟨_, planHost_planned resolver rpc latestLuxd latest nodeIDToHost st hostID vmVersions
    (vmLoop_fresh_of_ok resolver rpc latestLuxd latest st hostID vmVersions hfresh hres),
    ?_, ?_, hnil⟩
  · simp only [htarget, hcmp, if_true]
  · simp [hnil]

/-- C10, amended, at a concrete input: the host of the reply quoted in the
source, its plugin instance at the latest plugin version v0.5.6, its runtime
at the latest runtime version v1.10.12, the resolver giving v1.10.12. -/
theorem no_marks_when_up_to_date_witness :
    mapGet ([] : GoMap String String) "NodeID-A" = none ∧
    (∀ vmName v, (vmName, v) ∈ exVersionsQuoted →
      checkIfKeyIsStandardVMName vmName = false → v = JVal.str "v0.5.6") ∧
    mapGet exVersionsQuoted PlatformKeyName = some (JVal.str "v1.10.12") ∧
    (hasPlugin exVersionsQuoted = false ∨ exResolverLatest 19 = ("v1.10.12", none)) ∧
    ∃ info, mapGet (planHost exResolverLatest 19 "v1.10.12" "v0.5.6" [("NodeID-A", exHostA)]
        ⟨[], []⟩ "NodeID-A" exVersionsQuoted).nodesToUpgrade
        (mapGet [("NodeID-A", exHostA)] "NodeID-A") = some info ∧
      info.LuxdVersion = "" ∧ info.SubnetEVMVersion = "" ∧
      info.SubnetEVMIDsToUpgrade = [] :=
  ⟨rfl, exVersionsQuoted_plugins_latest, rfl, Or.inr rfl,
    no_marks_when_up_to_date exResolverLatest 19 "v1.10.12" "v0.5.6" [("NodeID-A", exHostA)]
      ⟨[], []⟩ "NodeID-A" exVersionsQuoted rfl exVersionsQuoted_plugins_latest rfl
      (Or.inr rfl)⟩

/-! ## The whole of `getNodesUpgradeInfo` -/

theorem mapSet_ne_nil {κ V : Type} [BEq κ] [LawfulBEq κ] (m : GoMap κ V) (k : κ) (v : V) :
    mapSet m k v ≠ [] := by
  intro h
  have := mapGet_mapSet_self m k v
  rw [h] at this
  simp [mapGet] at this

theorem lookup_map_replace {κ V : Type} [BEq κ] [LawfulBEq κ] (m : GoMap κ V) (k k' : κ)
    (v : V) (hne : k' ≠ k) :
    List.lookup k' (m.map (fun p => if p.1 == k then (k, v) else p)) = List.lookup k' m := by
  have hb : (k' == k) = false := by simpa using hne
  induction m with
  | nil => rfl
  | cons p t ih =>
    obtain ⟨a, b⟩ := p
    rw [List.map_cons]
    by_cases hak : a = k
    · subst hak
      simp [List.lookup_cons, hb, ih]
    · have hab : (a == k) = false := by simpa using hak
      simp only [hab, Bool.false_eq_true, if_false, List.lookup_cons]
      rw [ih]

theorem mapGet_mapSet_ne {κ V : Type} [BEq κ] [LawfulBEq κ] (m : GoMap κ V) (k k' : κ) (v : V)
    (hne : k' ≠ k) : mapGet (mapSet m k v) k' = mapGet m k' := by
  have hb : (k' == k) = false := by simpa using hne
  unfold mapSet
  split
  · exact lookup_map_replace m k k' v hne
  · unfold mapGet
    rw [List.lookup_append]
    simp [List.lookup_cons, hb]

theorem foldl_mapSet_fresh {κ V X : Type} [BEq κ] [LawfulBEq κ] (key : X → κ) (val : X → V) :
    ∀ (l : List X) (init : GoMap κ V), (l.map key).Nodup →
      (∀ x ∈ l, key x ∉ mapKeys init) →
      l.foldl (fun m x => mapSet m (key x) (val x)) init =
        init ++ l.map (fun x => (key x, val x)) := by
  intro l
  induction l with
  | nil => intro init _ _; simp
  | cons a t ih =>
    intro init hnd hfresh
    rw [List.map_cons, List.nodup_cons] at hnd
    have ha : key a ∉ mapKeys init := hfresh a (List.mem_cons_self _ _)
    rw [List.foldl_cons, mapSet_of_not_mem _ _ _ ha, ih _ hnd.2]
    · simp
    · intro x hx hmem
      unfold mapKeys at hmem
      rw [List.map_append, List.mem_append] at hmem
      rcases hmem with hmem | hmem
      · exact hfresh x (List.mem_cons_of_mem _ hx) hmem
      · simp at hmem
        exact hnd.1 (hmem ▸ List.mem_map_of_mem _ hx)

theorem nodeIDToHost_get (hosts : List Host) (hnd : (hosts.map Host.NodeID).Nodup)
    (h : Host) (hh : h ∈ hosts) :
    mapGet (hosts.foldl (fun m host => mapSet m host.NodeID host) []) h.NodeID = some h := by
  have hfold : hosts.foldl (fun m host => mapSet m host.NodeID host) [] =
      [] ++ hosts.map (fun x => (x.NodeID, x)) :=
    foldl_mapSet_fresh Host.NodeID (fun x => x) hosts [] hnd (by intro x _; simp [mapKeys])
  rw [hfold, List.nil_append, mapGet_eq_some_iff]
  · exact List.mem_map.2 ⟨h, hh, rfl⟩
  · unfold mapKeys
    rw [List.map_map]
    exact hnd

theorem vmLoopStep_nodeErrors_nil (resolver : Int → String × Option String) (rpc : Int)
    (latest hostID : String) (st : VMLoopState) (a : String × JVal)
    (h : (vmLoopStep resolver rpc latest hostID st a).nodeErrors = []) :
    st.nodeErrors = [] ∧
      (checkIfKeyIsStandardVMName a.1 = false → (resolver rpc).2 = none) := by
  unfold vmLoopStep at h
  cases hs : checkIfKeyIsStandardVMName a.1 with
  | true =>
    simp only [hs, Bool.not_true, Bool.false_eq_true, if_false] at h
    exact ⟨h, fun hc => by cases hc⟩
  | false =>
    simp only [hs, Bool.not_false, if_true] at h
    rcases hr : resolver rpc with ⟨v, _ | err⟩
    · rw [hr] at h
      exact ⟨h, fun _ => rfl⟩
    · rw [hr] at h
      exact absurd h (mapSet_ne_nil _ _ _)

theorem vmLoop_nodeErrors_nil (resolver : Int → String × Option String) (rpc : Int)
    (latest hostID : String) (l : GoMap String JVal) :
    ∀ st : VMLoopState,
      (l.foldl (vmLoopStep resolver rpc latest hostID) st).nodeErrors = [] →
      st.nodeErrors = [] ∧ (hasPlugin l = false ∨ (resolver rpc).2 = none) := by
  induction l with
  | nil => intro st h; exact ⟨h, Or.inl rfl⟩
  | cons a t ih =>
    intro st h
    rw [List.foldl_cons] at h
    obtain ⟨h1, h2⟩ := ih _ h
    obtain ⟨h3, h4⟩ := vmLoopStep_nodeErrors_nil resolver rpc latest hostID st a h1
    refine ⟨h3, ?_⟩
    cases hs : checkIfKeyIsStandardVMName a.1 with
    | false => exact Or.inr (h4 hs)
    | true =>
      rcases h2 with h2 | h2
      · left
        unfold hasPlugin at h2 ⊢
        rw [List.any_cons, h2, hs]
        rfl
      · exact Or.inr h2

theorem planLoop_entries (env : UpgradeEnv) (rpc : Int) (L E : String)
    (nodeIDToHost : GoMap String Host) (hosts : List Host)
    (hmap : ∀ h ∈ hosts, mapGet nodeIDToHost h.NodeID = some h)
    (payload : Host → Option (Option (GoMap String JVal))) :
    ∀ (l : List Host), (∀ h ∈ l, h ∈ hosts) → l.Nodup → ∀ st st' : PlannerState,
      planLoop env rpc L E nodeIDToHost (l.map (fun h => (h.NodeID, payload h))) st
        = Except.ok st' →
      st'.nodeErrors = [] →
      st.nodeErrors = [] ∧
      (∀ h ∈ l, ∃ vmVersions, env.ConvertInterfaceToMap (payload h) = Except.ok vmVersions ∧
        (hasPlugin vmVersions = false ∨ (env.GetLatestLuxdVersionForRPC rpc).2 = none) ∧
        mapGet st'.nodesToUpgrade (some h) =
          some (hostPlan env.GetLatestLuxdVersionForRPC rpc L E vmVersions)) ∧
      (∀ k, (∀ h ∈ l, k ≠ some h) →
        mapGet st'.nodesToUpgrade k = mapGet st.nodesToUpgrade k) := by
  intro l
  induction l with
  | nil =>
    intro _ _ st st' hok hnil
    simp only [List.map_nil, planLoop] at hok
    cases hok
    refine ⟨hnil, ?_, ?_⟩
    · intro h hh
      cases hh
    · intro _ _
      rfl
  | cons a t ih =>
    intro hsub hndl st st' hok hnil
    rw [List.nodup_cons] at hndl
    rw [List.map_cons] at hok
    unfold planLoop at hok
    cases hc : env.ConvertInterfaceToMap (payload a) with
    | error e =>
      rw [hc] at hok
      cases hok
    | ok vmv =>
      rw [hc] at hok
      simp only [] at hok
      obtain ⟨h1, h2, h3⟩ := ih (fun h hh => hsub h (List.mem_cons_of_mem _ hh)) hndl.2 _ st'
        hok hnil
      rw [planHost_nodeErrors] at h1
      have hloop := h1
      unfold vmLoop at hloop
      obtain ⟨hst, hres⟩ := vmLoop_nodeErrors_nil _ _ _ _ _ _ hloop
      have hnone : mapGet (vmLoop env.GetLatestLuxdVersionForRPC rpc L E st.nodeErrors
          a.NodeID vmv).nodeErrors a.NodeID = none := by
        rw [h1]
        rfl
      have hkey : mapGet nodeIDToHost a.NodeID = some a := hmap a (hsub a (List.mem_cons_self _ _))
      have hstep := planHost_eq_of_ok env.GetLatestLuxdVersionForRPC rpc L E nodeIDToHost st
        a.NodeID vmv hnone
      rw [hkey] at hstep
      refine ⟨hst, ?_, ?_⟩
      · intro h hh
        rcases List.mem_cons.1 hh with rfl | hh
        · refine ⟨vmv, hc, hres, ?_⟩
          rw [h3 (some h) (fun x hx hxe => hndl.1 (by rw [Option.some.inj hxe]; exact hx)),
            hstep]
          exact mapGet_mapSet_self _ _ _
        · exact h2 h hh
      · intro k hk
        rw [h3 k (fun h hh => hk h (List.mem_cons_of_mem _ hh)), hstep]
        exact mapGet_mapSet_ne _ _ _ _ (hk a (List.mem_cons_self _ _))

theorem getResultMap_of_no_errors {α : Type} (l : List Host) (res : Host → NodeResult α)
    (hno : (NodeResults.mk (l.map (fun h => (h.NodeID, res h)))).HasErrors = false) :
    (NodeResults.mk (l.map (fun h => (h.NodeID, res h)))).GetResultMap =
      l.map (fun h => (h.NodeID, (res h).payload)) := by
  unfold NodeResults.GetResultMap NodeResults.HasErrors at *
  induction l with
  | nil => rfl
  | cons a t ih =>
    simp only [List.map_cons, List.any_cons, Bool.or_eq_false_iff] at hno
    cases hr : res a with
    | error e =>
      rw [hr] at hno
      simp at hno
    | value v =>
      simp only [List.map_cons, List.filterMap_cons, hr]
      rw [ih hno.2]
      rfl

/-- When `getNodesUpgradeInfo` returns a plan, the plan holds for every host
the entry `hostPlan` computed from the components the host reported, and the
resolver was either not asked for that host or gave no error. -/
theorem getNodesUpgradeInfo_entry (env : UpgradeEnv) (sched : List Host → List Host)
    (hosts : List Host) (plan : GoMap (Option Host) nodeUpgradeInfo)
    (hsched : (sched hosts).Perm hosts) (hnd : (hosts.map Host.NodeID).Nodup)
    (hok : getNodesUpgradeInfo env sched hosts = Except.ok plan) :
    ∃ L E rpc, env.latestLuxdRelease = Except.ok L ∧ env.latestSubnetEVMRelease = Except.ok E ∧
      env.GetRPCProtocolVersion E = Except.ok rpc ∧
      ∀ h ∈ hosts, ∃ vmVersions,
        env.ConvertInterfaceToMap
          (upgradePayload env.RunSSHCheckLuxdVersion env.unmarshal h) = Except.ok vmVersions ∧
        (hasPlugin vmVersions = false ∨ (env.GetLatestLuxdVersionForRPC rpc).2 = none) ∧
        mapGet plan (some h) =
          some (hostPlan env.GetLatestLuxdVersionForRPC rpc L E vmVersions) := by
  unfold getNodesUpgradeInfo at hok
  cases hL : env.latestLuxdRelease with
  | error e => rw [hL] at hok; cases hok
  | ok L =>
    cases hE : env.latestSubnetEVMRelease with
    | error e => rw [hL, hE] at hok; cases hok
    | ok E =>
      cases hR : env.GetRPCProtocolVersion E with
      | error e => rw [hL, hE] at hok; simp only [hR] at hok; cases hok
      | ok rpc =>
        rw [hL, hE] at hok
        simp only [hR] at hok
        refine ⟨L, E, rpc, rfl, rfl, hR, ?_⟩
        have hres := upgradeVersionRound_results env.RunSSHCheckLuxdVersion env.unmarshal sched
          hosts hsched hnd
        have hnr : upgradeVersionRound env.RunSSHCheckLuxdVersion env.unmarshal sched hosts =
            NodeResults.mk ((sched hosts).map (fun h =>
              (h.NodeID, upgradeVersionResult env.RunSSHCheckLuxdVersion env.unmarshal h))) := by
          cases hf : upgradeVersionRound env.RunSSHCheckLuxdVersion env.unmarshal sched hosts with
          | mk r =>
            rw [hf] at hres
            simp only at hres
            rw [hres]
        rw [hnr] at hok
        cases hHas : (NodeResults.mk ((sched hosts).map (fun h =>
            (h.NodeID, upgradeVersionResult env.RunSSHCheckLuxdVersion env.unmarshal h)))).HasErrors
          with
        | true => rw [hHas] at hok; simp at hok
        | false =>
          rw [hHas, getResultMap_of_no_errors _ _ hHas] at hok
          simp only [Bool.false_eq_true, if_false] at hok
          split at hok
          · cases hok
          · rename_i st hP
            by_cases hlen : st.nodeErrors.length > 0
            · rw [if_pos hlen] at hok; cases hok
            · rw [if_neg hlen] at hok
              have hplan : st.nodesToUpgrade = plan := by
                injection hok
              have hnil : st.nodeErrors = [] :=
                List.length_eq_zero.1 (Nat.eq_zero_of_not_pos hlen)
              have hndl : (sched hosts).Nodup :=
                List.Nodup.of_map _ ((hsched.map Host.NodeID).nodup_iff.2 hnd)
              obtain ⟨_, hent, _⟩ := planLoop_entries env rpc L E _ hosts
                (nodeIDToHost_get hosts hnd)
                (upgradePayload env.RunSSHCheckLuxdVersion env.unmarshal) (sched hosts)
                (fun h hh => hsched.mem_iff.1 hh) hndl _ st hP hnil
              intro h hh
              obtain ⟨vmv, h1, h2, h3⟩ := hent h (hsched.mem_iff.2 hh)
              exact ⟨vmv, h1, h2, hplan ▸ h3⟩

/-! ## Failures of the resolver -/

theorem vmLoop_nodeErrors_other (resolver : Int → String × Option String) (rpc : Int)
    (latest hostID : String) (l : GoMap String JVal) (k : String) (hk : k ≠ hostID) :
    ∀ st : VMLoopState,
      mapGet (l.foldl (vmLoopStep resolver rpc latest hostID) st).nodeErrors k =
        mapGet st.nodeErrors k := by
  induction l with
  | nil => intro st; rfl
  | cons a t ih =>
    intro st
    rw [List.foldl_cons, ih]
    unfold vmLoopStep
    rcases hr : resolver rpc with ⟨v, _ | err⟩ <;>
      cases hs : checkIfKeyIsStandardVMName a.1 <;>
      simp [hs, mapGet_mapSet_ne _ _ _ _ hk]

theorem planHost_failed (resolver : Int → String × Option String) (rpc : Int)
    (latestLuxd latest : String) (nodeIDToHost : GoMap String Host) (st : PlannerState)
    (hostID : String) (vmVersions : GoMap String JVal) (v err : String)
    (hres : resolver rpc = (v, some err)) (hp : hasPlugin vmVersions = true) :
    (planHost resolver rpc latestLuxd latest nodeIDToHost st hostID vmVersions).nodesToUpgrade
      = st.nodesToUpgrade ∧
    mapGet (planHost resolver rpc latestLuxd latest nodeIDToHost st hostID
      vmVersions).nodeErrors hostID = some err ∧
    ∀ k, k ≠ hostID →
      mapGet (planHost resolver rpc latestLuxd latest nodeIDToHost st hostID
        vmVersions).nodeErrors k = mapGet st.nodeErrors k := by
  have hr2 : (resolver rpc).2 = some err := by rw [hres]
  have hfail : mapGet (vmLoop resolver rpc latestLuxd latest st.nodeErrors hostID
      vmVersions).nodeErrors hostID = some err := by
    unfold vmLoop
    rw [vmLoop_nodeErrors_failed resolver rpc latest hostID vmVersions err hr2, hp]
    rfl
  refine ⟨?_, ?_, ?_⟩
  · unfold planHost
    simp only [hfail, Option.isSome_some, if_true]
  · rw [planHost_nodeErrors]
    exact hfail
  · intro k hk
    rw [planHost_nodeErrors]
    unfold vmLoop
    rw [vmLoop_nodeErrors_other resolver rpc latest hostID vmVersions k hk]

theorem planHost_plain (resolver : Int → String × Option String) (rpc : Int)
    (latestLuxd latest : String) (nodeIDToHost : GoMap String Host) (st : PlannerState)
    (hostID : String) (vmVersions : GoMap String JVal)
    (hfresh : mapGet st.nodeErrors hostID = none) (hp : hasPlugin vmVersions = false) :
    planHost resolver rpc latestLuxd latest nodeIDToHost st hostID vmVersions =
      { nodeErrors := st.nodeErrors
        nodesToUpgrade := mapSet st.nodesToUpgrade (mapGet nodeIDToHost hostID)
          (hostPlan resolver rpc latestLuxd latest vmVersions) } := by
  have hloop : (vmLoop resolver rpc latestLuxd latest st.nodeErrors hostID
      vmVersions).nodeErrors = st.nodeErrors := by
    unfold vmLoop
    rw [vmLoop_no_plugin resolver rpc latest hostID vmVersions hp]
  rw [planHost_eq_of_ok resolver rpc latestLuxd latest nodeIDToHost st hostID vmVersions
    (by rw [hloop]; exact hfresh), hloop]

theorem planLoop_failing (env : UpgradeEnv) (rpc : Int) (L E : String)
    (nodeIDToHost : GoMap String Host) (hosts : List Host)
    (hnd : (hosts.map Host.NodeID).Nodup)
    (hmap : ∀ h ∈ hosts, mapGet nodeIDToHost h.NodeID = some h)
    (payload : Host → Option (Option (GoMap String JVal)))
    (vm : Host → GoMap String JVal) (v err : String)
    (hres : env.GetLatestLuxdVersionForRPC rpc = (v, some err)) :
    ∀ (l : List Host), (∀ h ∈ l, h ∈ hosts) → l.Nodup →
      (∀ h ∈ l, env.ConvertInterfaceToMap (payload h) = Except.ok (vm h)) →
      ∀ st : PlannerState, (∀ h ∈ l, mapGet st.nodeErrors h.NodeID = none) →
      ∃ st', planLoop env rpc L E nodeIDToHost (l.map (fun h => (h.NodeID, payload h))) st
          = Except.ok st' ∧
        (∀ h ∈ l, hasPlugin (vm h) = true → mapGet st'.nodeErrors h.NodeID = some err) ∧
        (∀ h ∈ l, hasPlugin (vm h) = false → mapGet st'.nodesToUpgrade (some h) =
          some (hostPlan env.GetLatestLuxdVersionForRPC rpc L E (vm h))) ∧
        (∀ id, (∀ h ∈ l, hasPlugin (vm h) = true → h.NodeID ≠ id) →
          mapGet st'.nodeErrors id = mapGet st.nodeErrors id) ∧
        (∀ k, (∀ h ∈ l, hasPlugin (vm h) = false → k ≠ some h) →
          mapGet st'.nodesToUpgrade k = mapGet st.nodesToUpgrade k) := by
  intro l
  induction l with
  | nil =>
    intro _ _ _ st _
    refine ⟨st, rfl, ?_, ?_, ?_, ?_⟩
    · intro h hh; cases hh
    · intro h hh; cases hh
    · intro _ _; rfl
    · intro _ _; rfl
  | cons a t ih =>
    intro hsub hndl hconv st hfresh
    rw [List.nodup_cons] at hndl
    have ha : a ∈ hosts := hsub a (List.mem_cons_self _ _)
    have hne : ∀ h ∈ t, h.NodeID ≠ a.NodeID := by
      intro h hh heq
      have : h = a := List.inj_on_of_nodup_map hnd (hsub h (List.mem_cons_of_mem _ hh)) ha heq
      exact hndl.1 (this ▸ hh)
    have hkey : mapGet nodeIDToHost a.NodeID = some a := hmap a ha
    have hstep : planLoop env rpc L E nodeIDToHost
        ((a :: t).map (fun h => (h.NodeID, payload h))) st =
        planLoop env rpc L E nodeIDToHost (t.map (fun h => (h.NodeID, payload h)))
          (planHost env.GetLatestLuxdVersionForRPC rpc L E nodeIDToHost st a.NodeID (vm a)) := by
      rw [List.map_cons]
      conv_lhs => unfold planLoop
      rw [hconv a (List.mem_cons_self _ _)]
    rw [hstep]
    cases hp : hasPlugin (vm a) with
    | true =>
      obtain ⟨h1, h2, h3⟩ := planHost_failed env.GetLatestLuxdVersionForRPC rpc L E nodeIDToHost
        st a.NodeID (vm a) v err hres hp
      obtain ⟨st', hs', i1, i2, i3, i4⟩ := ih (fun h hh => hsub h (List.mem_cons_of_mem _ hh))
        hndl.2 (fun h hh => hconv h (List.mem_cons_of_mem _ hh)) _
        (fun h hh => by rw [h3 _ (hne h hh)]; exact hfresh h (List.mem_cons_of_mem _ hh))
      refine ⟨st', hs', ?_, ?_, ?_, ?_⟩
      · intro h hh hph
        rcases List.mem_cons.1 hh with rfl | hh
        · rw [i3 _ (fun x hx _ => hne x hx)]
          exact h2
        · exact i1 h hh hph
      · intro h hh hph
        rcases List.mem_cons.1 hh with rfl | hh
        · rw [hp] at hph; cases hph
        · exact i2 h hh hph
      · intro id hid
        rw [i3 id (fun h hh => hid h (List.mem_cons_of_mem _ hh))]
        exact h3 id (Ne.symm (hid a (List.mem_cons_self _ _) hp))
      · intro k hk
        rw [i4 k (fun h hh => hk h (List.mem_cons_of_mem _ hh)), h1]
    | false =>
      have h0 := planHost_plain env.GetLatestLuxdVersionForRPC rpc L E nodeIDToHost st a.NodeID
        (vm a) (hfresh a (List.mem_cons_self _ _)) hp
      rw [hkey] at h0
      rw [h0]
      obtain ⟨st', hs', i1, i2, i3, i4⟩ := ih (fun h hh => hsub h (List.mem_cons_of_mem _ hh))
        hndl.2 (fun h hh => hconv h (List.mem_cons_of_mem _ hh))
        { nodeErrors := st.nodeErrors
          nodesToUpgrade := mapSet st.nodesToUpgrade (some a)
            (hostPlan env.GetLatestLuxdVersionForRPC rpc L E (vm a)) }
        (fun h hh => hfresh h (List.mem_cons_of_mem _ hh))
      refine ⟨st', hs', ?_, ?_, ?_, ?_⟩
      · intro h hh hph
        rcases List.mem_cons.1 hh with rfl | hh
        · rw [hp] at hph; cases hph
        · exact i1 h hh hph
      · intro h hh hph
        rcases List.mem_cons.1 hh with rfl | hh
        · rw [i4 (some h) (fun x hx _ hxe => hndl.1 (by rw [Option.some.inj hxe]; exact hx))]
          exact mapGet_mapSet_self _ _ _
        · exact i2 h hh hph
      · intro id hid
        exact i3 id (fun h hh => hid h (List.mem_cons_of_mem _ hh))
      · intro k hk
        rw [i4 k (fun h hh => hk h (List.mem_cons_of_mem _ hh))]
        exact mapGet_mapSet_ne _ _ _ _ (hk a (List.mem_cons_self _ _) hp)

theorem upgradeVersionRound_getResultMap (run : Host → Except String String)
    (unmarshal : String → Except String (GoMap String JVal)) (sched : List Host → List Host)
    (hosts : List Host) (hsched : (sched hosts).Perm hosts)
    (hnd : (hosts.map Host.NodeID).Nodup)
    (hno : (upgradeVersionRound run unmarshal sched hosts).HasErrors = false) :
    (upgradeVersionRound run unmarshal sched hosts).GetResultMap =
      (sched hosts).map (fun h => (h.NodeID, upgradePayload run unmarshal h)) := by
  have hres := upgradeVersionRound_results run unmarshal sched hosts hsched hnd
  have hnr : upgradeVersionRound run unmarshal sched hosts =
      NodeResults.mk ((sched hosts).map (fun h =>
        (h.NodeID, upgradeVersionResult run unmarshal h))) := by
    cases hf : upgradeVersionRound run unmarshal sched hosts with
    | mk r =>
      rw [hf] at hres
      simp only at hres
      rw [hres]
  rw [hnr] at hno ⊢
  rw [getResultMap_of_no_errors _ _ hno]
  rfl

/-- C11, as stated, fails: two hosts, the first with a plugin instance, the
second without, and a resolver that fails.  The second host is planned in
the loop, but `getNodesUpgradeInfo` returns no plan at all: only the error
naming the first host. -/
theorem partial_plan_not_returned :
    getNodesUpgradeInfo (exEnv exResolverFails) id [exHostA, exHostB] =
      Except.error (UpgradeError.failedToUpgrade ["NodeID-A"]) ∧
    ¬ ∃ plan, getNodesUpgradeInfo (exEnv exResolverFails) id [exHostA, exHostB] =
      Except.ok plan := by
  have h : getNodesUpgradeInfo (exEnv exResolverFails) id [exHostA, exHostB] =
      Except.error (UpgradeError.failedToUpgrade ["NodeID-A"]) := by rfl
  refine ⟨h, ?_⟩
  rintro ⟨plan, hp⟩
  rw [h] at hp
  cases hp

/-- C11, amended: in an inventory with pairwise distinct node IDs, once the
two latest releases and the protocol version are fetched, when the version
round has no error, the payload of every host converts to a map, the resolver
fails and some host has a plugin instance, the loop of `getNodesUpgradeInfo`
still passes over every host: the hosts with a plugin instance (the ones the
resolver is asked for) are exactly the keys of `nodeErrors` and have no entry
in `nodesToUpgrade`, every other host has its entry in `nodesToUpgrade` and no
error.  The function then returns no plan: it returns the error built from
the keys of `nodeErrors`. -/
theorem resolution_failure_returns_no_plan (env : UpgradeEnv) (sched : List Host → List Host)
    (hosts : List Host) (L E : String) (rpc : Int) (v err : String)
    (vm : Host → GoMap String JVal)
    (hsched : (sched hosts).Perm hosts) (hnd : (hosts.map Host.NodeID).Nodup)
    (hL : env.latestLuxdRelease = Except.ok L) (hE : env.latestSubnetEVMRelease = Except.ok E)
    (hR : env.GetRPCProtocolVersion E = Except.ok rpc)
    (hnoerr : (upgradeVersionRound env.RunSSHCheckLuxdVersion env.unmarshal sched
      hosts).HasErrors = false)
    (hconv : ∀ h ∈ hosts, env.ConvertInterfaceToMap
      (upgradePayload env.RunSSHCheckLuxdVersion env.unmarshal h) = Except.ok (vm h))
    (hres : env.GetLatestLuxdVersionForRPC rpc = (v, some err))
    (hsome : ∃ h ∈ hosts, hasPlugin (vm h) = true) :
    ∃ st, planLoop env rpc L E (hosts.foldl (fun m host => mapSet m host.NodeID host) [])
        (upgradeVersionRound env.RunSSHCheckLuxdVersion env.unmarshal sched hosts).GetResultMap
        ⟨[], []⟩ = Except.ok st ∧
      (∀ h ∈ hosts, hasPlugin (vm h) = true →
        h.NodeID ∈ mapKeys st.nodeErrors ∧ mapGet st.nodesToUpgrade (some h) = none) ∧
      (∀ h ∈ hosts, hasPlugin (vm h) = false →
        h.NodeID ∉ mapKeys st.nodeErrors ∧
        mapGet st.nodesToUpgrade (some h) =
          some (hostPlan env.GetLatestLuxdVersionForRPC rpc L E (vm h))) ∧
      (∀ id ∈ mapKeys st.nodeErrors, ∃ h ∈ hosts, h.NodeID = id) ∧
      getNodesUpgradeInfo env sched hosts =
        Except.error (UpgradeError.failedToUpgrade (mapKeys st.nodeErrors)) := by
  have hget := upgradeVersionRound_getResultMap env.RunSSHCheckLuxdVersion env.unmarshal sched
    hosts hsched hnd hnoerr
  have hndl : (sched hosts).Nodup :=
    List.Nodup.of_map _ ((hsched.map Host.NodeID).nodup_iff.2 hnd)
  have hinj : ∀ a ∈ hosts, ∀ b ∈ hosts, a.NodeID = b.NodeID → a = b :=
    fun a ha b hb => List.inj_on_of_nodup_map hnd ha hb
  obtain ⟨st, hst, i1, i2, i3, i4⟩ := planLoop_failing env rpc L E
    (hosts.foldl (fun m host => mapSet m host.NodeID host) []) hosts hnd
    (nodeIDToHost_get hosts hnd) (upgradePayload env.RunSSHCheckLuxdVersion env.unmarshal)
    vm v err hres (sched hosts) (fun h hh => hsched.mem_iff.1 hh) hndl
    (fun h hh => hconv h (hsched.mem_iff.1 hh)) ⟨[], []⟩ (fun _ _ => rfl)
  rw [← hget] at hst
  have hkeys : ∀ h ∈ hosts, hasPlugin (vm h) = true → h.NodeID ∈ mapKeys st.nodeErrors := by
    intro h hh hp
    by_contra hc
    have := (mapGet_eq_none_iff st.nodeErrors h.NodeID).2 hc
    rw [i1 h (hsched.mem_iff.2 hh) hp] at this
    cases this
  refine ⟨st, hst, ?_, ?_, ?_, ?_⟩
  · intro h hh hp
    refine ⟨hkeys h hh hp, ?_⟩
    rw [i4 (some h)]
    · rfl
    · intro x _ hpx hxe
      rw [← Option.some.inj hxe, hp] at hpx
      cases hpx
  · intro h hh hp
    refine ⟨?_, i2 h (hsched.mem_iff.2 hh) hp⟩
    rw [← mapGet_eq_none_iff, i3 h.NodeID]
    · rfl
    · intro x hx hpx hxe
      have : x = h := hinj x (hsched.mem_iff.1 hx) h hh hxe
      rw [this, hp] at hpx
      cases hpx
  · intro id hid
    by_contra hc
    have hnone : mapGet st.nodeErrors id = none := by
      rw [i3 id]
      · rfl
      · intro x hx _ hxe
        exact hc ⟨x, hsched.mem_iff.1 hx, hxe⟩
    exact (mapGet_eq_none_iff st.nodeErrors id).1 hnone hid
  · obtain ⟨h, hh, hp⟩ := hsome
    have hpos : st.nodeErrors.length > 0 := by
      have hmem := hkeys h hh hp
      unfold mapKeys at hmem
      exact List.length_pos_of_mem (List.mem_map.1 hmem).choose_spec.1
    unfold getNodesUpgradeInfo
    rw [hL, hE]
    simp only [hR, hnoerr, Bool.false_eq_true, if_false]
    rw [hst]
    simp only [if_pos hpos]

theorem exEnv_convert (resolver : Int → String × Option String) :
    ∀ h ∈ [exHostA, exHostB], (exEnv resolver).ConvertInterfaceToMap
      (upgradePayload (exEnv resolver).RunSSHCheckLuxdVersion (exEnv resolver).unmarshal h) =
        Except.ok (exHostVersions h) := by
  intro h hh
  simp only [List.mem_cons, List.mem_singleton, List.not_mem_nil, or_false] at hh
  rcases hh with rfl | rfl <;> rfl

/-- C11, amended, at a concrete input: two hosts, the first with a plugin
instance, the second without, and a resolver that fails. -/
theorem resolution_failure_returns_no_plan_witness :
    (id [exHostA, exHostB]).Perm [exHostA, exHostB] ∧
    ([exHostA, exHostB].map Host.NodeID).Nodup ∧
    (exEnv exResolverFails).latestLuxdRelease = Except.ok "v1.3.0" ∧
    (exEnv exResolverFails).latestSubnetEVMRelease = Except.ok "v0.6.0" ∧
    (exEnv exResolverFails).GetRPCProtocolVersion "v0.6.0" = Except.ok 19 ∧
    (upgradeVersionRound (exEnv exResolverFails).RunSSHCheckLuxdVersion
      (exEnv exResolverFails).unmarshal id [exHostA, exHostB]).HasErrors = false ∧
    (∀ h ∈ [exHostA, exHostB], (exEnv exResolverFails).ConvertInterfaceToMap
      (upgradePayload (exEnv exResolverFails).RunSSHCheckLuxdVersion
        (exEnv exResolverFails).unmarshal h) = Except.ok (exHostVersions h)) ∧
    (exEnv exResolverFails).GetLatestLuxdVersionForRPC 19 = ("", some "no compatible version") ∧
    (∃ h ∈ [exHostA, exHostB], hasPlugin (exHostVersions h) = true) ∧
    ∃ st, planLoop (exEnv exResolverFails) 19 "v1.3.0" "v0.6.0"
        ([exHostA, exHostB].foldl (fun m host => mapSet m host.NodeID host) [])
        (upgradeVersionRound (exEnv exResolverFails).RunSSHCheckLuxdVersion
          (exEnv exResolverFails).unmarshal id [exHostA, exHostB]).GetResultMap
        ⟨[], []⟩ = Except.ok st ∧
      (∀ h ∈ [exHostA, exHostB], hasPlugin (exHostVersions h) = true →
        h.NodeID ∈ mapKeys st.nodeErrors ∧ mapGet st.nodesToUpgrade (some h) = none) ∧
      (∀ h ∈ [exHostA, exHostB], hasPlugin (exHostVersions h) = false →
        h.NodeID ∉ mapKeys st.nodeErrors ∧
        mapGet st.nodesToUpgrade (some h) =
          some (hostPlan (exEnv exResolverFails).GetLatestLuxdVersionForRPC 19 "v1.3.0" "v0.6.0"
            (exHostVersions h))) ∧
      (∀ id ∈ mapKeys st.nodeErrors, ∃ h ∈ [exHostA, exHostB], h.NodeID = id) ∧
      getNodesUpgradeInfo (exEnv exResolverFails) id [exHostA, exHostB] =
        Except.error (UpgradeError.failedToUpgrade (mapKeys st.nodeErrors)) :=
  ⟨List.Perm.refl _, by decide, rfl, rfl, rfl, rfl, exEnv_convert exResolverFails, rfl,
    ⟨exHostA, List.mem_cons_self _ _, rfl⟩,
    resolution_failure_returns_no_plan (exEnv exResolverFails) id [exHostA, exHostB]
      "v1.3.0" "v0.6.0" 19 "" "no compatible version" exHostVersions
      (List.Perm.refl _) (by decide) rfl rfl rfl rfl (exEnv_convert exResolverFails) rfl
      ⟨exHostA, List.mem_cons_self _ _, rfl⟩⟩

/-- C12: `checkIfKeyIsStandardVMName` is true exactly on the three texts
"avm", "evm" and "platform" (whole text, case as written); on every other
name the loop of the planner takes the component for a plugin instance: it
asks the resolver, and lists the name for upgrade when its version is not the
latest plugin version, while a standard name leaves the loop state as it
is. -/
theorem standard_vm_name_allow_list (s : String) :
    (checkIfKeyIsStandardVMName s = true ↔ s = "avm" ∨ s = "evm" ∨ s = "platform") ∧
    (∀ (resolver : Int → String × Option String) (rpc : Int) (latest hostID : String)
        (st : VMLoopState) (v : JVal),
      (vmLoopStep resolver rpc latest hostID st (s, v)).info.SubnetEVMIDsToUpgrade =
        if s = "avm" ∨ s = "evm" ∨ s = "platform" then st.info.SubnetEVMIDsToUpgrade
        else if interfaceEqString (some v) latest then st.info.SubnetEVMIDsToUpgrade
        else st.info.SubnetEVMIDsToUpgrade ++ [s]) ∧
    (∀ (resolver : Int → String × Option String) (rpc : Int) (latest hostID : String)
        (st : VMLoopState) (v : JVal),
      (vmLoopStep resolver rpc latest hostID st (s, v)).luxdVersionToUpdateTo =
        if s = "avm" ∨ s = "evm" ∨ s = "platform" then st.luxdVersionToUpdateTo
        else (resolver rpc).1) := by
  have hiff := checkIfKeyIsStandardVMName_iff s
  refine ⟨hiff, ?_, ?_⟩
  · intro resolver rpc latest hostID st v
    unfold vmLoopStep
    by_cases hs : s = "avm" ∨ s = "evm" ∨ s = "platform"
    · simp only [hiff.2 hs, if_pos hs, Bool.not_true, Bool.false_eq_true, if_false]
    · have hf : checkIfKeyIsStandardVMName s = false := by
        cases hc : checkIfKeyIsStandardVMName s with
        | false => rfl
        | true => exact absurd (hiff.1 hc) hs
      rcases hr : resolver rpc with ⟨w, _ | err⟩ <;>
        cases he : interfaceEqString (some v) latest <;>
        simp [hf, hs, he]
  · intro resolver rpc latest hostID st v
    unfold vmLoopStep
    by_cases hs : s = "avm" ∨ s = "evm" ∨ s = "platform"
    · simp only [hiff.2 hs, if_pos hs, Bool.not_true, Bool.false_eq_true, if_false]
    · have hf : checkIfKeyIsStandardVMName s = false := by
        cases hc : checkIfKeyIsStandardVMName s with
        | false => rfl
        | true => exact absurd (hiff.1 hc) hs
      rcases hr : resolver rpc with ⟨w, _ | err⟩ <;> simp [hf, hs]

/-! ## The run of `upgrade` -/

theorem issue_ok (run : RemoteAction → Option String) (hrun : ∀ a, run a = none)
    (l : List RemoteAction) (a : RemoteAction) :
    issue run ⟨l, none⟩ a = ⟨l ++ [a], none⟩ := by
  unfold issue
  simp [hrun a]

theorem replace_foldl_ok (run : RemoteAction → Option String) (hrun : ∀ a, run a = none)
    (host : Option Host) (version : String) (vmIDs : List String) :
    ∀ l : List RemoteAction,
      vmIDs.foldl (fun acc vmID =>
        upgradeSubnetEVM run acc host (CloudNodeSubnetEvmBinaryPath vmID) version) ⟨l, none⟩ =
      ⟨l ++ replaceActions host vmIDs, none⟩ := by
  induction vmIDs with
  | nil => intro l; simp [replaceActions]
  | cons a t ih =>
    intro l
    rw [List.foldl_cons]
    unfold upgradeSubnetEVM
    rw [issue_ok run hrun]
    unfold upgradeSubnetEVM at ih
    rw [ih]
    simp [replaceActions]

theorem upgradeNode_ok (run : RemoteAction → Option String) (hrun : ∀ a, run a = none)
    (l : List RemoteAction) (host : Option Host) (upgradeInfo : nodeUpgradeInfo) :
    upgradeNode run ⟨l, none⟩ host upgradeInfo = ⟨l ++ nodeActions host upgradeInfo, none⟩ := by
  unfold upgradeNode nodeActions upgradeLuxd getNewSubnetEVMRelease downloadAction
  cases h1 : (upgradeInfo.LuxdVersion != "") <;> cases h2 : (upgradeInfo.SubnetEVMVersion != "") <;>
    simp [issue_ok run hrun, replace_foldl_ok run hrun]

theorem upgradeLoop_foldl_ok (run : RemoteAction → Option String) (hrun : ∀ a, run a = none)
    (entries : GoMap (Option Host) nodeUpgradeInfo) :
    ∀ l : List RemoteAction,
      entries.foldl (fun r entry => upgradeNode run r entry.1 entry.2) ⟨l, none⟩ =
        ⟨l ++ (entries.map (fun e => nodeActions e.1 e.2)).flatten, none⟩ := by
  induction entries with
  | nil => intro l; simp
  | cons a t ih =>
    intro l
    rw [List.foldl_cons, upgradeNode_ok run hrun, ih]
    simp

theorem upgradeLoop_ok (run : RemoteAction → Option String) (hrun : ∀ a, run a = none)
    (entries : GoMap (Option Host) nodeUpgradeInfo) :
    upgradeLoop run entries = ⟨(entries.map (fun e => nodeActions e.1 e.2)).flatten, none⟩ := by
  unfold upgradeLoop
  rw [upgradeLoop_foldl_ok run hrun]
  simp

theorem host_of_mem_nodeActions (host : Option Host) (upgradeInfo : nodeUpgradeInfo)
    (a : RemoteAction) (ha : a ∈ nodeActions host upgradeInfo) : a.host = host := by
  unfold nodeActions replaceActions downloadAction at ha
  simp only [List.mem_append] at ha
  rcases ha with ha | ha
  · split at ha
    · simp only [List.mem_singleton] at ha
      rw [ha]; rfl
    · cases ha
  · split at ha
    · simp only [List.mem_append, List.mem_cons, List.mem_singleton, List.mem_map,
        List.not_mem_nil, or_false] at ha
      rcases ha with ((ha | ha) | ⟨vmID, _, ha⟩) | ha
      · rw [ha]; rfl
      · rw [ha]; rfl
      · rw [← ha]; rfl
      · rw [ha]; rfl
    · cases ha

theorem actionsFor_nodeActions_self (host : Option Host) (upgradeInfo : nodeUpgradeInfo) :
    actionsFor host (nodeActions host upgradeInfo) = nodeActions host upgradeInfo := by
  unfold actionsFor
  rw [List.filter_eq_self]
  intro a ha
  rw [host_of_mem_nodeActions host upgradeInfo a ha]
  simp

theorem actionsFor_nodeActions_ne (host other : Option Host) (upgradeInfo : nodeUpgradeInfo)
    (hne : other ≠ host) : actionsFor host (nodeActions other upgradeInfo) = [] := by
  unfold actionsFor
  rw [List.filter_eq_nil_iff]
  intro a ha
  rw [host_of_mem_nodeActions other upgradeInfo a ha]
  simpa using hne

theorem actionsFor_flatten (host : Option Host) (upgradeInfo : nodeUpgradeInfo)
    (entries : GoMap (Option Host) nodeUpgradeInfo) (hkeys : (mapKeys entries).Nodup)
    (hmem : (host, upgradeInfo) ∈ entries) :
    actionsFor host (entries.map (fun e => nodeActions e.1 e.2)).flatten =
      nodeActions host upgradeInfo := by
  induction entries with
  | nil => cases hmem
  | cons e t ih =>
    have hnd : e.1 ∉ mapKeys t ∧ (mapKeys t).Nodup := by
      simpa [mapKeys] using hkeys
    have hsplit : actionsFor host ((e :: t).map (fun e => nodeActions e.1 e.2)).flatten =
        actionsFor host (nodeActions e.1 e.2) ++
          actionsFor host (t.map (fun e => nodeActions e.1 e.2)).flatten := by
      unfold actionsFor
      rw [List.map_cons, List.flatten_cons, List.filter_append]
    rw [hsplit]
    rcases List.mem_cons.1 hmem with heq | hin
    · have htail : actionsFor host (t.map (fun e => nodeActions e.1 e.2)).flatten = [] := by
        unfold actionsFor
        rw [List.filter_eq_nil_iff]
        intro a ha
        obtain ⟨l, hl, hal⟩ := List.mem_flatten.1 ha
        obtain ⟨e', he', rfl⟩ := List.mem_map.1 hl
        rw [host_of_mem_nodeActions e'.1 e'.2 a hal]
        have hne : e'.1 ≠ host := by
          intro hc
          apply hnd.1
          rw [← heq]
          exact List.mem_map.2 ⟨e', he', hc⟩
        simpa using hne
      rw [htail, ← heq, actionsFor_nodeActions_self]
      simp
    · have hne : e.1 ≠ host := by
        intro hc
        apply hnd.1
        rw [hc]
        exact List.mem_map.2 ⟨(host, upgradeInfo), hin, rfl⟩
      rw [actionsFor_nodeActions_ne host e.1 e.2 hne, ih hnd.2 hin]
      rfl

/-- The steps a run of `upgrade` issues for a host of the plan when every
remote step succeeds. -/
theorem actionsFor_upgradeLoop (run : RemoteAction → Option String) (hrun : ∀ a, run a = none)
    (entries : GoMap (Option Host) nodeUpgradeInfo) (host : Option Host)
    (upgradeInfo : nodeUpgradeInfo) (hkeys : (mapKeys entries).Nodup)
    (hmem : (host, upgradeInfo) ∈ entries) :
    (upgradeLoop run entries).err = none ∧
    actionsFor host (upgradeLoop run entries).issued = nodeActions host upgradeInfo := by
  rw [upgradeLoop_ok run hrun]
  exact ⟨rfl, actionsFor_flatten host upgradeInfo entries hkeys hmem⟩

theorem run_shape {α : Type} [DecidableEq α] (pre mid : List α) (d s e : α)
    (hd : d ∉ pre) (hs : s ∉ pre) (he : e ∉ pre) (hds : d ≠ s) (hde : d ≠ e) (hse : s ≠ e)
    (hsm : s ∉ mid) (hem : e ∉ mid) :
    (pre ++ [d, s] ++ mid ++ [e]).indexOf d = pre.length ∧
    (pre ++ [d, s] ++ mid ++ [e]).indexOf s = pre.length + 1 ∧
    (pre ++ [d, s] ++ mid ++ [e]).indexOf e = pre.length + 2 + mid.length ∧
    (pre ++ [d, s] ++ mid ++ [e]).count s = 1 ∧
    (pre ++ [d, s] ++ mid ++ [e]).count e = 1 ∧
    (pre ++ [d, s] ++ mid ++ [e]).getLast? = some e ∧
    ∀ i x, x ∉ pre → x ≠ d → x ≠ s → x ≠ e → (pre ++ [d, s] ++ mid ++ [e])[i]? = some x →
      pre.length + 1 < i ∧ i < pre.length + 2 + mid.length := by
  have hassoc : pre ++ [d, s] ++ mid ++ [e] = pre ++ (d :: s :: (mid ++ [e])) := by simp
  refine ⟨?_, ?_, ?_, ?_, ?_, ?_, ?_⟩
  · rw [hassoc, List.indexOf_append_of_not_mem hd, List.indexOf_cons_self]
    rfl
  · rw [hassoc, List.indexOf_append_of_not_mem hs, List.indexOf_cons_ne _ hds,
      List.indexOf_cons_self]
  · rw [hassoc, List.indexOf_append_of_not_mem he, List.indexOf_cons_ne _ hde,
      List.indexOf_cons_ne _ hse, List.indexOf_append_of_not_mem hem, List.indexOf_cons_self]
    omega
  · rw [hassoc, List.count_append, List.count_eq_zero_of_not_mem hs, List.count_cons,
      List.count_cons, List.count_append, List.count_eq_zero_of_not_mem hsm]
    simp [hds, hse]
  · rw [hassoc, List.count_append, List.count_eq_zero_of_not_mem he, List.count_cons,
      List.count_cons, List.count_append, List.count_eq_zero_of_not_mem hem]
    simp [hde, hse]
  · exact List.getLast?_concat _
  · intro i x hxp hxd hxs hxe hi
    rw [hassoc] at hi
    by_cases h1 : i < pre.length
    · rw [List.getElem?_append_left h1] at hi
      exact absurd (List.getElem?_mem hi) hxp
    · rw [List.getElem?_append_right (by omega)] at hi
      obtain ⟨k, hk⟩ : ∃ k, i = pre.length + k := ⟨i - pre.length, by omega⟩
      subst hk
      simp only [Nat.add_sub_cancel_left] at hi
      match k, hi with
      | 0, hi => simp at hi; exact absurd hi.symm hxd
      | 1, hi => simp at hi; exact absurd hi.symm hxs
      | k + 2, hi =>
        simp only [List.getElem?_cons_succ] at hi
        by_cases h2 : k < mid.length
        · omega
        · rw [List.getElem?_append_right (by omega)] at hi
          have : x = e := by
            have hm := List.getElem?_mem hi
            simpa using hm
          exact absurd this hxe

theorem nodeActions_shape (host : Option Host) (upgradeInfo : nodeUpgradeInfo)
    (hp : upgradeInfo.SubnetEVMVersion ≠ "") :
    ∃ pre, nodeActions host upgradeInfo =
        pre ++ [downloadAction host upgradeInfo.SubnetEVMVersion, RemoteAction.stopNode host] ++
          replaceActions host upgradeInfo.SubnetEVMIDsToUpgrade ++
          [RemoteAction.startNode host] ∧
      (∀ a ∈ pre, a = RemoteAction.upgradeLuxd host upgradeInfo.LuxdVersion) := by
  have hb : (upgradeInfo.SubnetEVMVersion != "") = true := by simpa using hp
  refine ⟨if upgradeInfo.LuxdVersion != "" then
    [RemoteAction.upgradeLuxd host upgradeInfo.LuxdVersion] else [], ?_, ?_⟩
  · unfold nodeActions
    rw [if_pos hb]
    simp
  · intro a ha
    split at ha
    · simpa using ha
    · cases ha

/-- C14: on a run of `upgrade` where every remote step succeeds, for a host
whose plan marks a plugin upgrade, among the steps issued for that host the
download comes before the stop, the stop and the start are each issued
exactly once, every plugin replacement lies after the stop and before the
start, every marked plugin instance is replaced, and the start is the last
step.  The run is the one `upgrade` returns whenever `getNodesUpgradeInfo`
returns the plan. -/
theorem plugin_upgrade_order (run : RemoteAction → Option String)
    (entries : GoMap (Option Host) nodeUpgradeInfo) (host : Option Host)
    (upgradeInfo : nodeUpgradeInfo)
    (hrun : ∀ a, run a = none) (hkeys : (mapKeys entries).Nodup)
    (hmem : (host, upgradeInfo) ∈ entries) (hp : upgradeInfo.SubnetEVMVersion ≠ "") :
    (∀ (env : UpgradeEnv) (sched : List Host → List Host) (hosts : List Host),
      getNodesUpgradeInfo env sched hosts = Except.ok entries →
      upgrade env run sched hosts = Except.ok (upgradeLoop run entries)) ∧
    (upgradeLoop run entries).err = none ∧
    downloadAction host upgradeInfo.SubnetEVMVersion ∈
      actionsFor host (upgradeLoop run entries).issued ∧
    (actionsFor host (upgradeLoop run entries).issued).indexOf
        (downloadAction host upgradeInfo.SubnetEVMVersion) <
      (actionsFor host (upgradeLoop run entries).issued).indexOf (RemoteAction.stopNode host) ∧
    (actionsFor host (upgradeLoop run entries).issued).count (RemoteAction.stopNode host) = 1 ∧
    (actionsFor host (upgradeLoop run entries).issued).count (RemoteAction.startNode host) = 1 ∧
    (∀ i p, (actionsFor host (upgradeLoop run entries).issued)[i]? =
        some (RemoteAction.upgradeSubnetEVM host p) →
      (actionsFor host (upgradeLoop run entries).issued).indexOf (RemoteAction.stopNode host) < i ∧
      i < (actionsFor host (upgradeLoop run entries).issued).indexOf
        (RemoteAction.startNode host)) ∧
    (∀ vmID ∈ upgradeInfo.SubnetEVMIDsToUpgrade,
      RemoteAction.upgradeSubnetEVM host (CloudNodeSubnetEvmBinaryPath vmID) ∈
        actionsFor host (upgradeLoop run entries).issued) ∧
    (actionsFor host (upgradeLoop run entries).issued).getLast? =
      some (RemoteAction.startNode host) := by
  refine ⟨fun env sched hosts hplan => by unfold upgrade; rw [hplan], ?_⟩
  obtain ⟨herr, hact⟩ := actionsFor_upgradeLoop run hrun entries host upgradeInfo hkeys hmem
  obtain ⟨pre, hshape, hpre⟩ := nodeActions_shape host upgradeInfo hp
  rw [hact, hshape]
  have hd : downloadAction host upgradeInfo.SubnetEVMVersion ∉ pre := by
    intro h
    have := hpre _ h
    unfold downloadAction at this
    cases this
  have hs : RemoteAction.stopNode host ∉ pre := by
    intro h
    have := hpre _ h
    cases this
  have he : RemoteAction.startNode host ∉ pre := by
    intro h
    have := hpre _ h
    cases this
  have hsm : RemoteAction.stopNode host ∉
      replaceActions host upgradeInfo.SubnetEVMIDsToUpgrade := by
    simp [replaceActions]
  have hem : RemoteAction.startNode host ∉
      replaceActions host upgradeInfo.SubnetEVMIDsToUpgrade := by
    simp [replaceActions]
  obtain ⟨i1, i2, i3, c1, c2, hl, hbetween⟩ := run_shape pre
    (replaceActions host upgradeInfo.SubnetEVMIDsToUpgrade)
    (downloadAction host upgradeInfo.SubnetEVMVersion) (RemoteAction.stopNode host)
    (RemoteAction.startNode host) hd hs he (by simp [downloadAction])
    (by simp [downloadAction]) (by simp) hsm hem
  refine ⟨herr, by simp, ?_, c1, c2, ?_, ?_, hl⟩
  · rw [i1, i2]
    omega
  · intro i p hi
    rw [i2, i3]
    refine hbetween i _ ?_ (by simp [downloadAction]) (by simp) (by simp) hi
    intro h
    have := hpre _ h
    cases this
  · intro vmID hv
    have : RemoteAction.upgradeSubnetEVM host (CloudNodeSubnetEvmBinaryPath vmID) ∈
        replaceActions host upgradeInfo.SubnetEVMIDsToUpgrade :=
      List.mem_map.2 ⟨vmID, hv, rfl⟩
    simp [this]

/-- C14, at a concrete input: a plan for two hosts, the first with two plugin
instances marked and the runtime left as it is. -/
theorem plugin_upgrade_order_witness :
    (∀ a, exRunAllOk a = none) ∧
    (mapKeys exPlanMap).Nodup ∧
    (some exHostA, exPlanPlugins) ∈ exPlanMap ∧
    exPlanPlugins.SubnetEVMVersion ≠ "" ∧
    (upgradeLoop exRunAllOk exPlanMap).err = none ∧
    downloadAction (some exHostA) exPlanPlugins.SubnetEVMVersion ∈
      actionsFor (some exHostA) (upgradeLoop exRunAllOk exPlanMap).issued ∧
    (actionsFor (some exHostA) (upgradeLoop exRunAllOk exPlanMap).issued).indexOf
        (downloadAction (some exHostA) exPlanPlugins.SubnetEVMVersion) <
      (actionsFor (some exHostA) (upgradeLoop exRunAllOk exPlanMap).issued).indexOf
        (RemoteAction.stopNode (some exHostA)) ∧
    (actionsFor (some exHostA) (upgradeLoop exRunAllOk exPlanMap).issued).count
      (RemoteAction.stopNode (some exHostA)) = 1 ∧
    (actionsFor (some exHostA) (upgradeLoop exRunAllOk exPlanMap).issued).count
      (RemoteAction.startNode (some exHostA)) = 1 ∧
    (∀ i p, (actionsFor (some exHostA) (upgradeLoop exRunAllOk exPlanMap).issued)[i]? =
        some (RemoteAction.upgradeSubnetEVM (some exHostA) p) →
      (actionsFor (some exHostA) (upgradeLoop exRunAllOk exPlanMap).issued).indexOf
        (RemoteAction.stopNode (some exHostA)) < i ∧
      i < (actionsFor (some exHostA) (upgradeLoop exRunAllOk exPlanMap).issued).indexOf
        (RemoteAction.startNode (some exHostA))) ∧
    (∀ vmID ∈ exPlanPlugins.SubnetEVMIDsToUpgrade,
      RemoteAction.upgradeSubnetEVM (some exHostA) (CloudNodeSubnetEvmBinaryPath vmID) ∈
        actionsFor (some exHostA) (upgradeLoop exRunAllOk exPlanMap).issued) ∧
    (actionsFor (some exHostA) (upgradeLoop exRunAllOk exPlanMap).issued).getLast? =
      some (RemoteAction.startNode (some exHostA)) :=
  ⟨fun _ => rfl, by decide, by decide, by decide,
    (plugin_upgrade_order exRunAllOk exPlanMap (some exHostA) exPlanPlugins (fun _ => rfl)
      (by decide) (by decide) (by decide)).2⟩

/-- C13, as stated, fails: a host whose plan marks the runtime and one plugin
instance, every remote step succeeding.  The runtime is replaced first,
before the download and the stop, not between the plugin replacement and the
start. -/
theorem runtime_replaced_first :
    (upgradeLoop exRunAllOk [(some exHostA, exPlanBoth)]).issued =
      [RemoteAction.upgradeLuxd (some exHostA) "v1.3.0",
        downloadAction (some exHostA) "v0.6.0",
        RemoteAction.stopNode (some exHostA),
        RemoteAction.upgradeSubnetEVM (some exHostA) "/home/ubuntu/.node/plugins/subnetEvmA",
        RemoteAction.startNode (some exHostA)] ∧
    (upgradeLoop exRunAllOk [(some exHostA, exPlanBoth)]).issued ≠
      [downloadAction (some exHostA) "v0.6.0",
        RemoteAction.stopNode (some exHostA),
        RemoteAction.upgradeSubnetEVM (some exHostA) "/home/ubuntu/.node/plugins/subnetEvmA",
        RemoteAction.upgradeLuxd (some exHostA) "v1.3.0",
        RemoteAction.startNode (some exHostA)] := by
  decide

/-- C13, amended: on a run of `upgrade` where every remote step succeeds, for
a host whose plan marks both the runtime and a plugin upgrade, the steps
issued for that host are, in order: replace the runtime, download the new
plugin artifact, stop the runtime, replace each marked plugin binary in list
order, start the runtime.  The run is the one `upgrade` returns whenever
`getNodesUpgradeInfo` returns the plan. -/
theorem upgrade_sequence_both_marks (run : RemoteAction → Option String)
    (entries : GoMap (Option Host) nodeUpgradeInfo) (host : Option Host)
    (upgradeInfo : nodeUpgradeInfo)
    (hrun : ∀ a, run a = none) (hkeys : (mapKeys entries).Nodup)
    (hmem : (host, upgradeInfo) ∈ entries)
    (hl : upgradeInfo.LuxdVersion ≠ "") (hp : upgradeInfo.SubnetEVMVersion ≠ "") :
    (∀ (env : UpgradeEnv) (sched : List Host → List Host) (hosts : List Host),
      getNodesUpgradeInfo env sched hosts = Except.ok entries →
      upgrade env run sched hosts = Except.ok (upgradeLoop run entries)) ∧
    (upgradeLoop run entries).err = none ∧
    actionsFor host (upgradeLoop run entries).issued =
      [RemoteAction.upgradeLuxd host upgradeInfo.LuxdVersion,
        RemoteAction.getNewSubnetEVMRelease host
          (SubnetEVMReleaseURL upgradeInfo.SubnetEVMVersion
            (SubnetEVMArchive (trimPrefixV upgradeInfo.SubnetEVMVersion)))
          (SubnetEVMArchive (trimPrefixV upgradeInfo.SubnetEVMVersion)),
        RemoteAction.stopNode host] ++
      upgradeInfo.SubnetEVMIDsToUpgrade.map
        (fun vmID => RemoteAction.upgradeSubnetEVM host (CloudNodeSubnetEvmBinaryPath vmID)) ++
      [RemoteAction.startNode host] := by
  refine ⟨fun env sched hosts hplan => by unfold upgrade; rw [hplan], ?_⟩
  obtain ⟨herr, hact⟩ := actionsFor_upgradeLoop run hrun entries host upgradeInfo hkeys hmem
  refine ⟨herr, ?_⟩
  rw [hact]
  have h1 : (upgradeInfo.LuxdVersion != "") = true := by simpa using hl
  have h2 : (upgradeInfo.SubnetEVMVersion != "") = true := by simpa using hp
  unfold nodeActions downloadAction replaceActions
  rw [if_pos h1, if_pos h2]
  simp

/-- C13, amended, at a concrete input: a plan for two hosts, the second with
the runtime and one plugin instance marked. -/
theorem upgrade_sequence_both_marks_witness :
    (∀ a, exRunAllOk a = none) ∧
    (mapKeys exPlanMap).Nodup ∧
    (some exHostB, exPlanBoth) ∈ exPlanMap ∧
    exPlanBoth.LuxdVersion ≠ "" ∧
    exPlanBoth.SubnetEVMVersion ≠ "" ∧
    (upgradeLoop exRunAllOk exPlanMap).err = none ∧
    actionsFor (some exHostB) (upgradeLoop exRunAllOk exPlanMap).issued =
      [RemoteAction.upgradeLuxd (some exHostB) exPlanBoth.LuxdVersion,
        RemoteAction.getNewSubnetEVMRelease (some exHostB)
          (SubnetEVMReleaseURL exPlanBoth.SubnetEVMVersion
            (SubnetEVMArchive (trimPrefixV exPlanBoth.SubnetEVMVersion)))
          (SubnetEVMArchive (trimPrefixV exPlanBoth.SubnetEVMVersion)),
        RemoteAction.stopNode (some exHostB)] ++
      exPlanBoth.SubnetEVMIDsToUpgrade.map
        (fun vmID =>
          RemoteAction.upgradeSubnetEVM (some exHostB) (CloudNodeSubnetEvmBinaryPath vmID)) ++
      [RemoteAction.startNode (some exHostB)] :=
  ⟨fun _ => rfl, by decide, by decide, by decide, by decide,
    (upgrade_sequence_both_marks exRunAllOk exPlanMap (some exHostB) exPlanBoth (fun _ => rfl)
      (by decide) (by decide) (by decide) (by decide)).2⟩

/-! ## The runtime resolver -/

theorem charLE_total (c d : Char) : charLE c d = true ∨ charLE d c = true := by
  unfold charLE
  simp only [decide_eq_true_eq]
  omega

theorem charLE_trans (a b c : Char) (hab : charLE a b = true) (hbc : charLE b c = true) :
    charLE a c = true := by
  unfold charLE at *
  simp only [decide_eq_true_eq] at *
  omega

theorem charLE_antisymm (c d : Char) (hcd : charLE c d = true) (hdc : charLE d c = true) :
    c = d := by
  unfold charLE at *
  simp only [decide_eq_true_eq] at *
  exact Char.le_antisymm hcd hdc

theorem listLexLE_refl {α : Type} [DecidableEq α] (le : α → α → Bool) (l : List α) :
    listLexLE le l l = true := by
  induction l with
  | nil => rfl
  | cons x xs ih =>
    unfold listLexLE
    rw [if_pos rfl]
    exact ih

theorem listLexLE_total {α : Type} [DecidableEq α] (le : α → α → Bool)
    (htot : ∀ a b, le a b = true ∨ le b a = true) :
    ∀ l m : List α, listLexLE le l m = true ∨ listLexLE le m l = true := by
  intro l
  induction l with
  | nil => intro m; exact Or.inl (by unfold listLexLE; rfl)
  | cons x xs ih =>
    intro m
    cases m with
    | nil => exact Or.inr (by unfold listLexLE; rfl)
    | cons y ys =>
      by_cases hxy : x = y
      · subst hxy
        rcases ih ys with h | h
        · exact Or.inl (by unfold listLexLE; rw [if_pos rfl]; exact h)
        · exact Or.inr (by unfold listLexLE; rw [if_pos rfl]; exact h)
      · have hyx : ¬ y = x := fun h => hxy h.symm
        rcases htot x y with h | h
        · exact Or.inl (by unfold listLexLE; rw [if_neg hxy]; exact h)
        · exact Or.inr (by unfold listLexLE; rw [if_neg hyx]; exact h)

theorem listLexLE_antisymm {α : Type} [DecidableEq α] (le : α → α → Bool)
    (hanti : ∀ a b, le a b = true → le b a = true → a = b) :
    ∀ l m : List α, listLexLE le l m = true → listLexLE le m l = true → l = m := by
  intro l
  induction l with
  | nil =>
    intro m _ h2
    cases m with
    | nil => rfl
    | cons y ys => unfold listLexLE at h2; cases h2
  | cons x xs ih =>
    intro m h1 h2
    cases m with
    | nil => unfold listLexLE at h1; cases h1
    | cons y ys =>
      unfold listLexLE at h1 h2
      by_cases hxy : x = y
      · subst hxy
        rw [if_pos rfl] at h1 h2
        rw [ih ys h1 h2]
      · have hyx : ¬ y = x := fun h => hxy h.symm
        rw [if_neg hxy] at h1
        rw [if_neg hyx] at h2
        exact absurd (hanti x y h1 h2) hxy

theorem listLexLE_trans {α : Type} [DecidableEq α] (le : α → α → Bool)
    (htr : ∀ a b c, le a b = true → le b c = true → le a c = true)
    (hanti : ∀ a b, le a b = true → le b a = true → a = b) :
    ∀ l m n : List α, listLexLE le l m = true → listLexLE le m n = true →
      listLexLE le l n = true := by
  intro l
  induction l with
  | nil => intro m n _ _; unfold listLexLE; rfl
  | cons x xs ih =>
    intro m n h1 h2
    cases m with
    | nil => unfold listLexLE at h1; cases h1
    | cons y ys =>
      cases n with
      | nil => unfold listLexLE at h2; cases h2
      | cons z zs =>
        unfold listLexLE at h1 h2 ⊢
        by_cases hxy : x = y
        · subst hxy
          rw [if_pos rfl] at h1
          by_cases hxz : x = z
          · subst hxz
            rw [if_pos rfl] at h2 ⊢
            exact ih ys zs h1 h2
          · rw [if_neg hxz] at h2 ⊢
            exact h2
        · rw [if_neg hxy] at h1
          by_cases hyz : y = z
          · subst hyz
            rw [if_neg hxy]
            exact h1
          · rw [if_neg hyz] at h2
            have hxz : ¬ x = z := by
              intro h
              subst h
              exact hxy (hanti x y h1 h2)
            rw [if_neg hxz]
            exact htr x y z h1 h2

theorem preId_le_total (a b : PreId) : PreId.le a b = true ∨ PreId.le b a = true := by
  cases a with
  | num m =>
    cases b with
    | num n =>
      unfold PreId.le
      simp only [decide_eq_true_eq]
      omega
    | alnum _ => exact Or.inl rfl
  | alnum s =>
    cases b with
    | num _ => exact Or.inr rfl
    | alnum t => exact listLexLE_total charLE charLE_total s t

theorem preId_le_antisymm (a b : PreId) (hab : PreId.le a b = true)
    (hba : PreId.le b a = true) : a = b := by
  cases a with
  | num m =>
    cases b with
    | num n =>
      unfold PreId.le at hab hba
      simp only [decide_eq_true_eq] at hab hba
      have : m = n := by omega
      rw [this]
    | alnum _ => cases hba
  | alnum s =>
    cases b with
    | num _ => cases hab
    | alnum t => rw [listLexLE_antisymm charLE charLE_antisymm s t hab hba]

theorem preId_le_trans (a b c : PreId) (hab : PreId.le a b = true)
    (hbc : PreId.le b c = true) : PreId.le a c = true := by
  cases a with
  | num m =>
    cases b with
    | num n =>
      cases c with
      | num k =>
        unfold PreId.le at *
        simp only [decide_eq_true_eq] at *
        omega
      | alnum _ => rfl
    | alnum _ =>
      cases c with
      | num _ => cases hbc
      | alnum _ => rfl
  | alnum s =>
    cases b with
    | num _ => cases hab
    | alnum t =>
      cases c with
      | num _ => cases hbc
      | alnum u => exact listLexLE_trans charLE charLE_trans charLE_antisymm s t u hab hbc

theorem prereleaseLE_total (a b : List PreId) :
    prereleaseLE a b = true ∨ prereleaseLE b a = true := by
  cases a with
  | nil =>
    cases b with
    | nil => exact Or.inl rfl
    | cons _ _ => exact Or.inr rfl
  | cons x xs =>
    cases b with
    | nil => exact Or.inl rfl
    | cons y ys => exact listLexLE_total PreId.le preId_le_total (x :: xs) (y :: ys)

theorem prereleaseLE_antisymm (a b : List PreId) (hab : prereleaseLE a b = true)
    (hba : prereleaseLE b a = true) : a = b := by
  cases a with
  | nil =>
    cases b with
    | nil => rfl
    | cons _ _ => cases hab
  | cons x xs =>
    cases b with
    | nil => cases hba
    | cons y ys => exact listLexLE_antisymm PreId.le preId_le_antisymm _ _ hab hba

theorem prereleaseLE_trans (a b c : List PreId) (hab : prereleaseLE a b = true)
    (hbc : prereleaseLE b c = true) : prereleaseLE a c = true := by
  cases a with
  | nil =>
    cases b with
    | nil => exact hbc
    | cons _ _ => cases hab
  | cons x xs =>
    cases c with
    | nil => rfl
    | cons z zs =>
      cases b with
      | nil => cases hbc
      | cons y ys =>
        exact listLexLE_trans PreId.le preId_le_trans preId_le_antisymm _ _ _ hab hbc

theorem semVer_le_iff (x y : SemVer) :
    SemVer.le x y = true ↔
      x.major < y.major ∨ (x.major = y.major ∧ (x.minor < y.minor ∨ (x.minor = y.minor ∧
        (x.patch < y.patch ∨ (x.patch = y.patch ∧
          prereleaseLE x.prerelease y.prerelease = true))))) := by
  unfold SemVer.le
  by_cases h1 : x.major = y.major
  · by_cases h2 : x.minor = y.minor
    · by_cases h3 : x.patch = y.patch
      · simp [h1, h2, h3]
      · simp [h1, h2, h3]
    · simp [h1, h2]
  · simp only [ne_eq, h1, not_false_eq_true, if_true, decide_eq_true_eq]
    constructor
    · intro h
      exact Or.inl h
    · rintro (h | ⟨h, _⟩)
      · exact h
      · exact h.elim

theorem semVer_le_total (x y : SemVer) : SemVer.le x y = true ∨ SemVer.le y x = true := by
  rw [semVer_le_iff, semVer_le_iff]
  by_cases h1 : x.major = y.major
  · by_cases h2 : x.minor = y.minor
    · by_cases h3 : x.patch = y.patch
      · rcases prereleaseLE_total x.prerelease y.prerelease with h | h
        · exact Or.inl (Or.inr ⟨h1, Or.inr ⟨h2, Or.inr ⟨h3, h⟩⟩⟩)
        · exact Or.inr (Or.inr ⟨h1.symm, Or.inr ⟨h2.symm, Or.inr ⟨h3.symm, h⟩⟩⟩)
      · rcases Nat.lt_or_gt_of_ne h3 with h | h
        · exact Or.inl (Or.inr ⟨h1, Or.inr ⟨h2, Or.inl h⟩⟩)
        · exact Or.inr (Or.inr ⟨h1.symm, Or.inr ⟨h2.symm, Or.inl h⟩⟩)
    · rcases Nat.lt_or_gt_of_ne h2 with h | h
      · exact Or.inl (Or.inr ⟨h1, Or.inl h⟩)
      · exact Or.inr (Or.inr ⟨h1.symm, Or.inl h⟩)
  · rcases Nat.lt_or_gt_of_ne h1 with h | h
    · exact Or.inl (Or.inl h)
    · exact Or.inr (Or.inl h)

theorem semVer_le_antisymm (x y : SemVer) (hxy : SemVer.le x y = true)
    (hyx : SemVer.le y x = true) : x = y := by
  rw [semVer_le_iff] at hxy hyx
  have h1 : x.major = y.major := by omega
  have h2 : x.minor = y.minor := by omega
  have h3 : x.patch = y.patch := by omega
  have h4 : x.prerelease = y.prerelease := by
    apply prereleaseLE_antisymm
    · rcases hxy with h | ⟨_, h | ⟨_, h | ⟨_, h⟩⟩⟩
      · omega
      · omega
      · omega
      · exact h
    · rcases hyx with h | ⟨_, h | ⟨_, h | ⟨_, h⟩⟩⟩
      · omega
      · omega
      · omega
      · exact h
  cases x
  cases y
  simp only [SemVer.mk.injEq]
  exact ⟨h1, h2, h3, h4⟩

theorem semVer_le_trans (x y z : SemVer) (hxy : SemVer.le x y = true)
    (hyz : SemVer.le y z = true) : SemVer.le x z = true := by
  rw [semVer_le_iff] at *
  rcases hxy with h | ⟨e1, h | ⟨e2, h | ⟨e3, hp⟩⟩⟩
  · omega
  · omega
  · omega
  · rcases hyz with h | ⟨f1, h | ⟨f2, h | ⟨f3, hq⟩⟩⟩
    · omega
    · omega
    · omega
    · exact Or.inr ⟨by omega, Or.inr ⟨by omega, Or.inr ⟨by omega,
        prereleaseLE_trans _ _ _ hp hq⟩⟩⟩

theorem textLE_antisymm (a b : String) (hab : textLE a b = true) (hba : textLE b a = true) :
    a = b :=
  String.ext (listLexLE_antisymm charLE charLE_antisymm _ _ hab hba)

theorem semverLE_refl (a : String) : semverLE a a = true := by
  unfold semverLE
  cases parseSemVer a with
  | none => exact listLexLE_refl charLE _
  | some x =>
    simp only [if_true]
    exact listLexLE_refl charLE _

theorem semverLE_total (a b : String) : semverLE a b = true ∨ semverLE b a = true := by
  unfold semverLE
  cases parseSemVer a with
  | none =>
    cases parseSemVer b with
    | none => exact listLexLE_total charLE charLE_total _ _
    | some y => exact Or.inl rfl
  | some x =>
    cases parseSemVer b with
    | none => exact Or.inr rfl
    | some y =>
      by_cases hxy : x = y
      · subst hxy
        simp only [if_true]
        exact listLexLE_total charLE charLE_total _ _
      · have hyx : ¬ y = x := fun h => hxy h.symm
        simp only [hxy, hyx, if_false]
        exact semVer_le_total x y

theorem semverLE_antisymm (a b : String) (hab : semverLE a b = true)
    (hba : semverLE b a = true) : a = b := by
  unfold semverLE at hab hba
  cases ha : parseSemVer a with
  | none =>
    rw [ha] at hab hba
    cases hb : parseSemVer b with
    | none =>
      rw [hb] at hab hba
      exact textLE_antisymm a b hab hba
    | some y =>
      rw [hb] at hba
      cases hba
  | some x =>
    rw [ha] at hab hba
    cases hb : parseSemVer b with
    | none =>
      rw [hb] at hab
      cases hab
    | some y =>
      rw [hb] at hab hba
      by_cases hxy : x = y
      · subst hxy
        simp only [if_true] at hab hba
        exact textLE_antisymm a b hab hba
      · have hyx : ¬ y = x := fun h => hxy h.symm
        simp only [hxy, hyx, if_false] at hab hba
        exact absurd (semVer_le_antisymm x y hab hba) hxy

theorem semverLE_trans (a b c : String) (hab : semverLE a b = true)
    (hbc : semverLE b c = true) : semverLE a c = true := by
  unfold semverLE at *
  cases ha : parseSemVer a with
  | none =>
    rw [ha] at hab
    cases hc : parseSemVer c with
    | some z => rfl
    | none =>
      rw [hc] at hbc
      cases hb : parseSemVer b with
      | some y => rw [hb] at hbc; cases hbc
      | none =>
        rw [hb] at hab hbc
        exact listLexLE_trans charLE charLE_trans charLE_antisymm _ _ _ hab hbc
  | some x =>
    rw [ha] at hab
    cases hb : parseSemVer b with
    | none => rw [hb] at hab; cases hab
    | some y =>
      rw [hb] at hab hbc
      cases hc : parseSemVer c with
      | none => rw [hc] at hbc; cases hbc
      | some z =>
        rw [hc] at hbc
        simp only [] at hab hbc ⊢
        by_cases hxy : x = y
        · subst hxy
          rw [if_pos rfl] at hab
          by_cases hxz : x = z
          · subst hxz
            rw [if_pos rfl] at hbc ⊢
            exact listLexLE_trans charLE charLE_trans charLE_antisymm _ _ _ hab hbc
          · rw [if_neg hxz] at hbc ⊢
            exact hbc
        · rw [if_neg hxy] at hab
          by_cases hyz : y = z
          · subst hyz
            rw [if_neg hxy]
            exact hab
          · rw [if_neg hyz] at hbc
            have hxz : ¬ x = z := by
              intro h
              subst h
              exact hxy (semVer_le_antisymm x y hab hbc)
            rw [if_neg hxz]
            exact semVer_le_trans x y z hab hbc

theorem resolveStep_spec (p : Int) (best : Option String) (a : String × List Int) :
    (p ∉ a.2 → resolveStep p best a = best) ∧
    (p ∈ a.2 → ∃ w, resolveStep p best a = some w ∧ (w = a.1 ∨ best = some w) ∧
      semverLE a.1 w = true ∧ ∀ b, best = some b → semverLE b w = true) := by
  unfold resolveStep
  constructor
  · intro hp
    have : a.2.contains p = false := by simpa using hp
    rw [this]
    rfl
  · intro hp
    have hc : a.2.contains p = true := by simpa using hp
    simp only [hc, if_true]
    cases best with
    | none =>
      exact ⟨a.1, rfl, Or.inl rfl, semverLE_refl _, fun b hb => by cases hb⟩
    | some b =>
      simp only []
      cases hle : semverLE b a.1 with
      | true =>
        refine ⟨a.1, by simp, Or.inl rfl, semverLE_refl _, ?_⟩
        intro b' hb'
        cases hb'
        exact hle
      | false =>
        refine ⟨b, by simp, Or.inr rfl, ?_, ?_⟩
        · rcases semverLE_total a.1 b with h | h
          · exact h
          · rw [hle] at h; cases h
        · intro b' hb'
          cases hb'
          exact semverLE_refl _

theorem resolve_foldl (p : Int) (l : CompatibilityTable) :
    ∀ best : Option String,
      (l.foldl (resolveStep p) best = none ↔ best = none ∧ ∀ e ∈ l, p ∉ e.2) ∧
      (∀ v, l.foldl (resolveStep p) best = some v →
        (best = some v ∨ ∃ e ∈ l, p ∈ e.2 ∧ e.1 = v) ∧
        (∀ b, best = some b → semverLE b v = true) ∧
        ∀ e ∈ l, p ∈ e.2 → semverLE e.1 v = true) := by
  induction l with
  | nil =>
    intro best
    refine ⟨by simp, ?_⟩
    intro v hv
    simp only [List.foldl_nil] at hv
    refine ⟨Or.inl hv, ?_, ?_⟩
    · intro b hb
      rw [hv] at hb
      cases hb
      exact semverLE_refl _
    · intro e he
      cases he
  | cons a t ih =>
    intro best
    rw [List.foldl_cons]
    obtain ⟨hno, hyes⟩ := resolveStep_spec p best a
    obtain ⟨ih1, ih2⟩ := ih (resolveStep p best a)
    by_cases hp : p ∈ a.2
    · obtain ⟨w, hw, hwa, haw, hbw⟩ := hyes hp
      rw [hw] at ih1 ih2 ⊢
      constructor
      · constructor
        · intro h
          have := ih1.1 h
          cases this.1
        · rintro ⟨_, h⟩
          exact absurd hp (h a (List.mem_cons_self _ _))
      · intro v hv
        obtain ⟨j1, j2, j3⟩ := ih2 v hv
        have hwv : semverLE w v = true := j2 w rfl
        refine ⟨?_, ?_, ?_⟩
        · rcases j1 with j1 | ⟨e, he, hpe, hev⟩
          · have hwv' : w = v := Option.some.inj j1
            rcases hwa with hwa | hwa
            · exact Or.inr ⟨a, List.mem_cons_self _ _, hp, by rw [← hwa, hwv']⟩
            · exact Or.inl (by rw [hwa, hwv'])
          · exact Or.inr ⟨e, List.mem_cons_of_mem _ he, hpe, hev⟩
        · intro b hb
          exact semverLE_trans b w v (hbw b hb) hwv
        · intro e he hpe
          rcases List.mem_cons.1 he with rfl | he
          · exact semverLE_trans _ w v haw hwv
          · exact j3 e he hpe
    · rw [hno hp] at ih1 ih2 ⊢
      constructor
      · constructor
        · intro h
          obtain ⟨h1, h2⟩ := ih1.1 h
          refine ⟨h1, ?_⟩
          intro e he
          rcases List.mem_cons.1 he with rfl | he
          · exact hp
          · exact h2 e he
        · rintro ⟨h1, h2⟩
          exact ih1.2 ⟨h1, fun e he => h2 e (List.mem_cons_of_mem _ he)⟩
      · intro v hv
        obtain ⟨j1, j2, j3⟩ := ih2 v hv
        refine ⟨?_, j2, ?_⟩
        · rcases j1 with j1 | ⟨e, he, hpe, hev⟩
          · exact Or.inl j1
          · exact Or.inr ⟨e, List.mem_cons_of_mem _ he, hpe, hev⟩
        · intro e he hpe
          rcases List.mem_cons.1 he with rfl | he
          · exact absurd hpe hp
          · exact j3 e he hpe

theorem getLatest_of_none (table : CompatibilityTable) (p : Int)
    (h : table.foldl (resolveStep p) none = none) :
    GetLatestLuxdVersionForRPC table p = ("", some NoCompatibleVersion) := by
  unfold GetLatestLuxdVersionForRPC ResolveRuntimeFor
  rw [h]

theorem getLatest_of_some (table : CompatibilityTable) (p : Int) (v : String)
    (h : table.foldl (resolveStep p) none = some v) :
    GetLatestLuxdVersionForRPC table p = (v, none) := by
  unfold GetLatestLuxdVersionForRPC ResolveRuntimeFor
  rw [h]

theorem getLatest_unique (table : CompatibilityTable) (p : Int) (v : String)
    (hmem : ∃ e ∈ table, p ∈ e.2 ∧ e.1 = v)
    (hmax : ∀ e ∈ table, p ∈ e.2 → semverLE e.1 v = true) :
    GetLatestLuxdVersionForRPC table p = (v, none) := by
  obtain ⟨h1, h2⟩ := resolve_foldl p table none
  cases hf : table.foldl (resolveStep p) none with
  | none =>
    obtain ⟨e, he, hpe, _⟩ := hmem
    exact absurd hpe ((h1.1 hf).2 e he)
  | some w =>
    rw [getLatest_of_some table p w hf]
    obtain ⟨j1, _, j3⟩ := h2 w hf
    rcases j1 with j1 | ⟨e', he', hpe', hew⟩
    · cases j1
    · obtain ⟨e, he, hpe, hev⟩ := hmem
      have hvw : semverLE v w = true := by
        rw [← hev]
        exact j3 e he hpe
      have hwv : semverLE w v = true := by
        rw [← hew]
        exact hmax e' he' hpe'
      rw [semverLE_antisymm w v hwv hvw]

theorem getLatest_perm (table table2 : CompatibilityTable) (p : Int)
    (hperm : table2.Perm table) :
    GetLatestLuxdVersionForRPC table2 p = GetLatestLuxdVersionForRPC table p := by
  obtain ⟨h1, h2⟩ := resolve_foldl p table none
  cases hf : table.foldl (resolveStep p) none with
  | none =>
    rw [getLatest_of_none table p hf]
    apply getLatest_of_none
    apply (resolve_foldl p table2 none).1.2
    refine ⟨rfl, ?_⟩
    intro e he
    exact (h1.1 hf).2 e (hperm.mem_iff.1 he)
  | some v =>
    rw [getLatest_of_some table p v hf]
    obtain ⟨j1, _, j3⟩ := h2 v hf
    apply getLatest_unique
    · rcases j1 with j1 | ⟨e, he, hpe, hev⟩
      · cases j1
      · exact ⟨e, hperm.mem_iff.2 he, hpe, hev⟩
    · intro e he hpe
      exact j3 e (hperm.mem_iff.1 he) hpe

theorem semverLE_of_below (a b : String) (x y : SemVer)
    (ha : parseSemVer a = some x) (hb : parseSemVer b = some y)
    (hle : SemVer.le x y = true) (hxy : x ≠ y) :
    semverLE a b = true ∧ semverLE b a = false := by
  have hyx : y ≠ x := fun h => hxy h.symm
  have hnle : SemVer.le y x = false := by
    cases h : SemVer.le y x with
    | false => rfl
    | true => exact absurd (semVer_le_antisymm x y hle h) hxy
  unfold semverLE
  rw [ha, hb]
  simp only [hxy, hyx, if_false]
  exact ⟨hle, hnle⟩

theorem semverLE_of_numbers (a b : String) (x y : SemVer)
    (ha : parseSemVer a = some x) (hb : parseSemVer b = some y)
    (hlt : x.major < y.major ∨ (x.major = y.major ∧
      (x.minor < y.minor ∨ (x.minor = y.minor ∧ x.patch < y.patch)))) :
    semverLE a b = true ∧ semverLE b a = false := by
  apply semverLE_of_below a b x y ha hb
  · rw [semVer_le_iff]
    omega
  · intro h
    subst h
    omega

theorem semverLE_of_prerelease (a b : String) (x y : SemVer)
    (ha : parseSemVer a = some x) (hb : parseSemVer b = some y)
    (h1 : x.major = y.major) (h2 : x.minor = y.minor) (h3 : x.patch = y.patch)
    (hx : x.prerelease ≠ []) (hy : y.prerelease = []) :
    semverLE a b = true ∧ semverLE b a = false := by
  apply semverLE_of_below a b x y ha hb
  · rw [semVer_le_iff]
    refine Or.inr ⟨h1, Or.inr ⟨h2, Or.inr ⟨h3, ?_⟩⟩⟩
    rw [hy]
    cases hp : x.prerelease with
    | nil => exact absurd hp hx
    | cons c cs => rfl
  · intro h
    subst h
    exact hx hy

theorem semverLE_of_no_version (a b : String) (y : SemVer)
    (ha : parseSemVer a = none) (hb : parseSemVer b = some y) :
    semverLE a b = true ∧ semverLE b a = false := by
  unfold semverLE
  rw [ha, hb]
  exact ⟨rfl, rfl⟩

/-- C15: for every compatibility table and protocol version `p`, the resolver
fails, with `NoCompatibleVersion`, exactly when no entry supports `p`;
otherwise it returns the version of an entry that supports `p`, every entry
that supports `p` is at most that version in the order of `semverLE`, and the
answer is the same for every order of the table.  In that order a semantic
version with the higher major, minor or patch number is above the other,
whatever the texts are; a release is above the prereleases of its numbers;
and a semantic version is above a text that is none.  On the table of the spec the resolver returns v1.3.0
for 19 and fails for 20; it prefers v1.10.0 to v1.9.0 although the text
"v1.10.0" is the lower one, the prerelease v1.10.0-rc.1 to v1.2.0, the release
v1.10.0 to its prerelease, and v1.10.0-fuji to v1.9.0-fuji in either order of
the table. -/
theorem resolver_highest_semver (table : CompatibilityTable) (p : Int) :
    ((GetLatestLuxdVersionForRPC table p).2 = some NoCompatibleVersion ↔
      ∀ e ∈ table, p ∉ e.2) ∧
    ((GetLatestLuxdVersionForRPC table p).2 = none ↔ ∃ e ∈ table, p ∈ e.2) ∧
    (∀ e ∈ table, p ∈ e.2 →
      (∃ e' ∈ table, p ∈ e'.2 ∧ e'.1 = (GetLatestLuxdVersionForRPC table p).1) ∧
      semverLE e.1 (GetLatestLuxdVersionForRPC table p).1 = true) ∧
    (∀ table2 : CompatibilityTable, table2.Perm table →
      GetLatestLuxdVersionForRPC table2 p = GetLatestLuxdVersionForRPC table p) ∧
    (∀ (a b : String) (x y : SemVer), parseSemVer a = some x → parseSemVer b = some y →
      (x.major < y.major ∨ (x.major = y.major ∧
        (x.minor < y.minor ∨ (x.minor = y.minor ∧ x.patch < y.patch)))) →
      semverLE a b = true ∧ semverLE b a = false) ∧
    (∀ (a b : String) (x y : SemVer), parseSemVer a = some x → parseSemVer b = some y →
      x.major = y.major → x.minor = y.minor → x.patch = y.patch →
      x.prerelease ≠ [] → y.prerelease = [] →
      semverLE a b = true ∧ semverLE b a = false) ∧
    (∀ (a b : String) (y : SemVer), parseSemVer a = none → parseSemVer b = some y →
      semverLE a b = true ∧ semverLE b a = false) ∧
    GetLatestLuxdVersionForRPC exTable 19 = ("v1.3.0", none) ∧
    GetLatestLuxdVersionForRPC exTable 20 = ("", some NoCompatibleVersion) ∧
    GetLatestLuxdVersionForRPC exTableTen 18 = ("v1.10.0", none) ∧
    "v1.10.0" < "v1.9.0" ∧
    GetLatestLuxdVersionForRPC [("v1.2.0", [18]), ("v1.10.0-rc.1", [18])] 18 =
      ("v1.10.0-rc.1", none) ∧
    GetLatestLuxdVersionForRPC [("v1.10.0", [18]), ("v1.10.0-rc.1", [18])] 18 =
      ("v1.10.0", none) ∧
    GetLatestLuxdVersionForRPC [("v1.10.0-fuji", [18]), ("v1.9.0-fuji", [18])] 18 =
      ("v1.10.0-fuji", none) ∧
    GetLatestLuxdVersionForRPC [("v1.9.0-fuji", [18]), ("v1.10.0-fuji", [18])] 18 =
      ("v1.10.0-fuji", none) := by
  obtain ⟨h1, h2⟩ := resolve_foldl p table none
  have hlex : "v1.10.0" < "v1.9.0" := String.lt_iff_toList_lt.2 (by decide)
  refine ⟨?_, ?_, ?_, fun table2 hperm => getLatest_perm table table2 p hperm,
    semverLE_of_numbers, semverLE_of_prerelease, semverLE_of_no_version,
    by rfl, by rfl, by rfl, hlex, by rfl, by rfl, by rfl, by rfl⟩
  · cases hf : table.foldl (resolveStep p) none with
    | none =>
      rw [getLatest_of_none table p hf]
      exact ⟨fun _ => (h1.1 hf).2, fun _ => rfl⟩
    | some v =>
      rw [getLatest_of_some table p v hf]
      constructor
      · intro h
        cases h
      · intro h
        have := h1.2 ⟨rfl, h⟩
        rw [hf] at this
        cases this
  · cases hf : table.foldl (resolveStep p) none with
    | none =>
      rw [getLatest_of_none table p hf]
      constructor
      · intro h
        cases h
      · rintro ⟨e, he, hpe⟩
        exact absurd hpe ((h1.1 hf).2 e he)
    | some v =>
      rw [getLatest_of_some table p v hf]
      refine ⟨fun _ => ?_, fun _ => rfl⟩
      obtain ⟨j1, _, _⟩ := h2 v hf
      rcases j1 with j1 | ⟨e, he, hpe, _⟩
      · cases j1
      · exact ⟨e, he, hpe⟩
  · intro e he hpe
    cases hf : table.foldl (resolveStep p) none with
    | none => exact absurd hpe ((h1.1 hf).2 e he)
    | some v =>
      rw [getLatest_of_some table p v hf]
      obtain ⟨j1, _, j3⟩ := h2 v hf
      refine ⟨?_, j3 e he hpe⟩
      rcases j1 with j1 | ⟨e', he', hpe', hev⟩
      · cases j1
      · exact ⟨e', he', hpe', hev⟩

/-! ## `subnet create` -/

theorem space_toNat (r : Char) (h : (r == ' ') = true) : r.toNat = 32 := by
  have : r = ' ' := by simpa using h
  rw [this]
  rfl

theorem illegal_rune_iff (lT nT : Char → Bool) (r : Char) :
    (decide (r.toNat > unicodeMaxASCII) ||
      !(unicodeIsLetter lT r || unicodeIsNumber nT r || r == ' ')) =
      !isLetterDigitOrSpace r := by
  unfold unicodeIsLetter unicodeIsNumber isLetterDigitOrSpace unicodeMaxASCII
  have hA : 'A'.toNat = 65 := rfl
  have hZ : 'Z'.toNat = 90 := rfl
  have ha : 'a'.toNat = 97 := rfl
  have hz : 'z'.toNat = 122 := rfl
  have h0 : '0'.toNat = 48 := rfl
  have h9 : '9'.toNat = 57 := rfl
  rw [hA, hZ, ha, hz, h0, h9]
  by_cases hle : r.toNat ≤ 0x7F
  · have hgt : ¬ r.toNat > 0x7F := by omega
    simp only [hle, if_true, hgt, decide_False, Bool.false_or]
  · have hgt : r.toNat > 0x7F := by omega
    simp only [hgt, decide_True, Bool.true_or]
    have hsp : (r == ' ') = false := by
      cases h : r == ' ' with
      | false => rfl
      | true =>
        have := space_toNat r h
        omega
    have h1 : decide (r.toNat ≤ 90) = false := by
      simp only [decide_eq_false_iff_not]
      omega
    have h2 : decide (r.toNat ≤ 122) = false := by
      simp only [decide_eq_false_iff_not]
      omega
    have h3 : decide (r.toNat ≤ 57) = false := by
      simp only [decide_eq_false_iff_not]
      omega
    rw [hsp, h1, h2, h3]
    simp

theorem checkRunes_spec (lT nT : Char → Bool) (cs : List Char) :
    (subnetcmd.checkRunes lT nT cs = none ↔ ∀ r ∈ cs, isLetterDigitOrSpace r = true) ∧
    (subnetcmd.checkRunes lT nT cs = none ∨
      subnetcmd.checkRunes lT nT cs = some subnetcmd.errIllegalNameCharacter) := by
  induction cs with
  | nil =>
    refine ⟨⟨?_, ?_⟩, Or.inl rfl⟩
    · intro _ r hr
      cases hr
    · intro _
      rfl
  | cons c t ih =>
    unfold subnetcmd.checkRunes
    rw [illegal_rune_iff]
    cases hc : isLetterDigitOrSpace c with
    | false =>
      rw [if_pos (by rfl)]
      refine ⟨⟨?_, ?_⟩, Or.inr rfl⟩
      · intro h
        cases h
      · intro h
        have := h c (List.mem_cons_self _ _)
        rw [hc] at this
        cases this
    | true =>
      rw [if_neg (by decide)]
      refine ⟨⟨?_, ?_⟩, ih.2⟩
      · intro h r hr
        rcases List.mem_cons.1 hr with rfl | hr
        · exact hc
        · exact ih.1.1 h r hr
      · intro h
        exact ih.1.2 (fun r hr => h r (List.mem_cons_of_mem _ hr))

/-- C18: `checkInvalidSubnetNames` returns no error exactly when every
character of the name is an ASCII letter, an ASCII digit or a space, whatever
the `unicode` tables say above ASCII; the empty name is accepted; and the
only error it returns is `errIllegalNameCharacter`. -/
theorem subnet_name_characters (letterAboveASCII numberAboveASCII : Char → Bool)
    (name : String) :
    (subnetcmd.checkInvalidSubnetNames letterAboveASCII numberAboveASCII name = none ↔
      ∀ r ∈ name.toList,
        ('A'.toNat ≤ r.toNat ∧ r.toNat ≤ 'Z'.toNat) ∨ ('a'.toNat ≤ r.toNat ∧ r.toNat ≤ 'z'.toNat) ∨
        ('0'.toNat ≤ r.toNat ∧ r.toNat ≤ '9'.toNat) ∨ r = ' ') ∧
    (subnetcmd.checkInvalidSubnetNames letterAboveASCII numberAboveASCII name ≠ none →
      subnetcmd.checkInvalidSubnetNames letterAboveASCII numberAboveASCII name =
        some subnetcmd.errIllegalNameCharacter) ∧
    subnetcmd.checkInvalidSubnetNames letterAboveASCII numberAboveASCII "" = none := by
  obtain ⟨h1, h2⟩ := checkRunes_spec letterAboveASCII numberAboveASCII name.toList
  have hchar : ∀ r : Char, isLetterDigitOrSpace r = true ↔
      (('A'.toNat ≤ r.toNat ∧ r.toNat ≤ 'Z'.toNat) ∨
        ('a'.toNat ≤ r.toNat ∧ r.toNat ≤ 'z'.toNat) ∨
        ('0'.toNat ≤ r.toNat ∧ r.toNat ≤ '9'.toNat) ∨ r = ' ') := by
    intro r
    unfold isLetterDigitOrSpace
    simp only [Bool.or_eq_true, Bool.and_eq_true, decide_eq_true_eq, beq_iff_eq]
    tauto
  refine ⟨?_, ?_, rfl⟩
  · unfold subnetcmd.checkInvalidSubnetNames
    rw [h1]
    exact ⟨fun h r hr => (hchar r).1 (h r hr), fun h r hr => (hchar r).2 (h r hr)⟩
  · intro hne
    unfold subnetcmd.checkInvalidSubnetNames at hne ⊢
    rcases h2 with h2 | h2
    · exact absurd h2 hne
    · exact h2

theorem createAndWrite_err (env : subnetcmd.CreateEnv) (flags : subnetcmd.CreateFlags)
    (subnetName subnetType evmVersion : String) :
    (subnetcmd.createAndWrite env flags subnetName subnetType evmVersion).err = none ∨
    (subnetcmd.createAndWrite env flags subnetName subnetType evmVersion).err =
      some subnetcmd.CreateError.notImplemented ∨
    ∃ e, (subnetcmd.createAndWrite env flags subnetName subnetType evmVersion).err =
      some (subnetcmd.CreateError.collaborator e) := by
  unfold subnetcmd.createAndWrite subnetcmd.sendMetrics
  simp only []
  split
  · rename_i err hb
    split at hb
    · split at hb
      · cases hb; exact Or.inr (Or.inr ⟨_, rfl⟩)
      · cases hb
    · split at hb
      · split at hb
        · cases hb; exact Or.inr (Or.inr ⟨_, rfl⟩)
        · cases hb
      · cases hb; exact Or.inr (Or.inl rfl)
  · split
    · exact Or.inr (Or.inr ⟨_, rfl⟩)
    · split
      · exact Or.inr (Or.inr ⟨_, rfl⟩)
      · split
        · split
          · exact Or.inr (Or.inr ⟨_, rfl⟩)
          · exact Or.inl rfl
        · exact Or.inl rfl

/-- The error of `createSubnetConfig`, check by check. -/
theorem createSubnetConfig_cases (env : subnetcmd.CreateEnv) (flags : subnetcmd.CreateFlags)
    (subnetName : String) :
    ((env.GenesisExists subnetName && !flags.forceCreate) = true ∧
      subnetcmd.createSubnetConfig env flags subnetName =
        ⟨[], some subnetcmd.CreateError.configurationAlreadyExists⟩) ∨
    ((env.GenesisExists subnetName && !flags.forceCreate) = false ∧
      ((∃ e, subnetcmd.checkInvalidSubnetNames env.letterAboveASCII env.numberAboveASCII
            subnetName = some e ∧
          subnetcmd.createSubnetConfig env flags subnetName =
            ⟨[], some (subnetcmd.CreateError.invalidSubnetName subnetName e)⟩) ∨
       (subnetcmd.checkInvalidSubnetNames env.letterAboveASCII env.numberAboveASCII
            subnetName = none ∧
        ((subnetcmd.moreThanOneVMSelected flags.useSubnetEvm flags.useCustom = true ∧
            subnetcmd.createSubnetConfig env flags subnetName =
              ⟨[], some subnetcmd.CreateError.tooManyVMs⟩) ∨
         (subnetcmd.moreThanOneVMSelected flags.useSubnetEvm flags.useCustom = false ∧
          ((∃ e, subnetcmd.chooseSubnetType env flags = Except.error e ∧
              subnetcmd.createSubnetConfig env flags subnetName =
                ⟨[], some (subnetcmd.CreateError.collaborator e)⟩) ∨
           (∃ subnetType, subnetcmd.chooseSubnetType env flags = Except.ok subnetType ∧
              subnetcmd.createSubnetConfig env flags subnetName =
                if subnetcmd.effectiveEvmVersion flags != subnetcmd.latest &&
                    subnetcmd.effectiveEvmVersion flags != "" &&
                    !env.semverIsValid (subnetcmd.effectiveEvmVersion flags) then
                  ⟨[], some (subnetcmd.CreateError.invalidVersionString
                    (subnetcmd.effectiveEvmVersion flags))⟩
                else
                  subnetcmd.createAndWrite env flags subnetName subnetType
                    (subnetcmd.effectiveEvmVersion flags)))))))) := by
  unfold subnetcmd.createSubnetConfig
  cases h1 : (env.GenesisExists subnetName && !flags.forceCreate) with
  | true => exact Or.inl ⟨rfl, by simp⟩
  | false =>
    refine Or.inr ⟨rfl, ?_⟩
    simp only [Bool.false_eq_true, if_false]
    cases h2 : subnetcmd.checkInvalidSubnetNames env.letterAboveASCII env.numberAboveASCII
        subnetName with
    | some e => exact Or.inl ⟨e, rfl, rfl⟩
    | none =>
      refine Or.inr ⟨rfl, ?_⟩
      simp only []
      cases h3 : subnetcmd.moreThanOneVMSelected flags.useSubnetEvm flags.useCustom with
      | true => exact Or.inl ⟨rfl, by simp⟩
      | false =>
        refine Or.inr ⟨rfl, ?_⟩
        simp only [Bool.false_eq_true, if_false]
        cases h4 : subnetcmd.chooseSubnetType env flags with
        | error e => exact Or.inl ⟨e, rfl, rfl⟩
        | ok subnetType => exact Or.inr ⟨subnetType, rfl, rfl⟩

theorem createSubnetConfig_forced (env : subnetcmd.CreateEnv) (flags : subnetcmd.CreateFlags)
    (subnetName : String) (hforce : flags.forceCreate = true) (configExists : String → Bool) :
    subnetcmd.createSubnetConfig env flags subnetName =
      subnetcmd.createSubnetConfig { env with GenesisExists := configExists } flags
        subnetName := by
  unfold subnetcmd.createSubnetConfig
  simp only [hforce, Bool.not_true, Bool.and_false, Bool.false_eq_true, if_false]
  rfl

/-- C16: when a configuration for the subnet name exists and `--force` is not
set, `createSubnetConfig` fails with the error "configuration already exists"
and does nothing else: no genesis file and no sidecar is written.  With
`--force` set the command never fails with that error, and it does and
returns exactly what it does when no configuration exists. -/
theorem existing_configuration_refused (env : subnetcmd.CreateEnv)
    (flags : subnetcmd.CreateFlags) (subnetName : String) :
    (env.GenesisExists subnetName = true → flags.forceCreate = false →
      (subnetcmd.createSubnetConfig env flags subnetName).err =
        some subnetcmd.CreateError.configurationAlreadyExists ∧
      (subnetcmd.createSubnetConfig env flags subnetName).effects = []) ∧
    (flags.forceCreate = true →
      (subnetcmd.createSubnetConfig env flags subnetName).err ≠
        some subnetcmd.CreateError.configurationAlreadyExists ∧
      subnetcmd.createSubnetConfig env flags subnetName =
        subnetcmd.createSubnetConfig { env with GenesisExists := fun _ => false } flags
          subnetName) := by
  constructor
  · intro hex hforce
    unfold subnetcmd.createSubnetConfig
    simp [hex, hforce]
  · intro hforce
    refine ⟨?_, createSubnetConfig_forced env flags subnetName hforce _⟩
    rcases createSubnetConfig_cases env flags subnetName with
      ⟨h1, _⟩ | ⟨_, ⟨e, _, h⟩ | ⟨_, ⟨_, h⟩ | ⟨_, ⟨e, _, h⟩ | ⟨subnetType, _, h⟩⟩⟩⟩
    · rw [hforce] at h1
      simp at h1
    · rw [h]; simp
    · rw [h]; simp
    · rw [h]; simp
    · rw [h]
      split
      · simp
      · rcases createAndWrite_err env flags subnetName subnetType
          (subnetcmd.effectiveEvmVersion flags) with h' | h' | ⟨e, h'⟩ <;>
          rw [h'] <;> simp

/-- C16, at a concrete input: the subnet "mysubnet" is already configured;
without `--force` the command is refused, with `--force` it writes the
genesis file and the sidecar. -/
theorem existing_configuration_refused_witness :
    (exCreateEnv true).GenesisExists "mysubnet" = true ∧
    (exCreateFlags false false "v0.6.0").forceCreate = false ∧
    (subnetcmd.createSubnetConfig (exCreateEnv true) (exCreateFlags false false "v0.6.0")
        "mysubnet").err = some subnetcmd.CreateError.configurationAlreadyExists ∧
    (subnetcmd.createSubnetConfig (exCreateEnv true) (exCreateFlags false false "v0.6.0")
        "mysubnet").effects = [] ∧
    (exCreateFlags true false "v0.6.0").forceCreate = true ∧
    (subnetcmd.createSubnetConfig (exCreateEnv true) (exCreateFlags true false "v0.6.0")
        "mysubnet").err ≠ some subnetcmd.CreateError.configurationAlreadyExists ∧
    (subnetcmd.createSubnetConfig (exCreateEnv true) (exCreateFlags true false "v0.6.0")
        "mysubnet").effects =
      [subnetcmd.Effect.WriteGenesisFile "mysubnet" "genesis of mysubnet",
        subnetcmd.Effect.CreateSidecar
          { exSidecar "mysubnet" "v0.6.0" with ImportedFromAPM := false },
        subnetcmd.Effect.HandleTracking "subnet-evm" "mysubnet"] :=
  ⟨rfl, rfl,
    ((existing_configuration_refused (exCreateEnv true) (exCreateFlags false false "v0.6.0")
      "mysubnet").1 rfl rfl).1,
    ((existing_configuration_refused (exCreateEnv true) (exCreateFlags false false "v0.6.0")
      "mysubnet").1 rfl rfl).2,
    rfl,
    ((existing_configuration_refused (exCreateEnv true) (exCreateFlags true false "v0.6.0")
      "mysubnet").2 rfl).1,
    by decide⟩

/-- C17, as stated, fails: `subnet create mysubnet --evm --vm-version 1.2.3`
for a subnet that is already configured, without `--latest` and without
`--force`.  The version text is not empty, not "latest" and not a valid
semantic version, yet the command fails with "configuration already
exists", not with "invalid version string". -/
theorem invalid_version_not_reported :
    (exCreateFlags false false "1.2.3").useLatestEvmVersion = false ∧
    (exCreateFlags false false "1.2.3").evmVersion ≠ "" ∧
    (exCreateFlags false false "1.2.3").evmVersion ≠ "latest" ∧
    (exCreateEnv true).semverIsValid (exCreateFlags false false "1.2.3").evmVersion = false ∧
    (subnetcmd.createSubnetConfig (exCreateEnv true) (exCreateFlags false false "1.2.3")
        "mysubnet").err = some subnetcmd.CreateError.configurationAlreadyExists ∧
    (subnetcmd.createSubnetConfig (exCreateEnv true) (exCreateFlags false false "1.2.3")
        "mysubnet").err ≠ some (subnetcmd.CreateError.invalidVersionString "1.2.3") := by
  decide

/-- C17, amended: `createSubnetConfig` fails with "invalid version string"
only if `--latest` is not set and the `--vm-version` text is not empty, not
"latest" and not a valid semantic version; it does fail so in that case once
the checks before the version check have passed (no refusal for an existing
configuration, a legal subnet name, at most one VM flag, a VM type chosen).
When `--latest` is set the version in effect is "latest" whatever the text
is, and the text is never rejected. -/
theorem version_check (env : subnetcmd.CreateEnv) (flags : subnetcmd.CreateFlags)
    (subnetName : String) :
    (∀ w, (subnetcmd.createSubnetConfig env flags subnetName).err =
        some (subnetcmd.CreateError.invalidVersionString w) →
      w = flags.evmVersion ∧ flags.useLatestEvmVersion = false ∧ flags.evmVersion ≠ "" ∧
      flags.evmVersion ≠ "latest" ∧ env.semverIsValid flags.evmVersion = false) ∧
    ((env.GenesisExists subnetName && !flags.forceCreate) = false →
      subnetcmd.checkInvalidSubnetNames env.letterAboveASCII env.numberAboveASCII
        subnetName = none →
      subnetcmd.moreThanOneVMSelected flags.useSubnetEvm flags.useCustom = false →
      (∃ subnetType, subnetcmd.chooseSubnetType env flags = Except.ok subnetType) →
      flags.useLatestEvmVersion = false → flags.evmVersion ≠ "" →
      flags.evmVersion ≠ "latest" → env.semverIsValid flags.evmVersion = false →
      subnetcmd.createSubnetConfig env flags subnetName =
        ⟨[], some (subnetcmd.CreateError.invalidVersionString flags.evmVersion)⟩) ∧
    (flags.useLatestEvmVersion = true →
      subnetcmd.effectiveEvmVersion flags = "latest" ∧
      ∀ w, (subnetcmd.createSubnetConfig env flags subnetName).err ≠
        some (subnetcmd.CreateError.invalidVersionString w)) := by
  have honly : ∀ w, (subnetcmd.createSubnetConfig env flags subnetName).err =
        some (subnetcmd.CreateError.invalidVersionString w) →
      w = subnetcmd.effectiveEvmVersion flags ∧
      (subnetcmd.effectiveEvmVersion flags != subnetcmd.latest &&
        subnetcmd.effectiveEvmVersion flags != "" &&
        !env.semverIsValid (subnetcmd.effectiveEvmVersion flags)) = true := by
    intro w hw
    rcases createSubnetConfig_cases env flags subnetName with
      ⟨_, h⟩ | ⟨_, ⟨e, _, h⟩ | ⟨_, ⟨_, h⟩ | ⟨_, ⟨e, _, h⟩ | ⟨subnetType, _, h⟩⟩⟩⟩
    · rw [h] at hw; simp at hw
    · rw [h] at hw; simp at hw
    · rw [h] at hw; simp at hw
    · rw [h] at hw; simp at hw
    · rw [h] at hw
      split at hw
      · rename_i hc
        simp only [Option.some.injEq, subnetcmd.CreateError.invalidVersionString.injEq] at hw
        exact ⟨hw.symm, hc⟩
      · rcases createAndWrite_err env flags subnetName subnetType
          (subnetcmd.effectiveEvmVersion flags) with h' | h' | ⟨e, h'⟩ <;>
          rw [h'] at hw <;> simp at hw
  refine ⟨?_, ?_, ?_⟩
  · intro w hw
    obtain ⟨hweq, hc⟩ := honly w hw
    cases hl : flags.useLatestEvmVersion with
    | true =>
      simp [subnetcmd.effectiveEvmVersion, hl] at hc
    | false =>
      simp only [subnetcmd.effectiveEvmVersion, hl, Bool.false_eq_true, if_false] at hc hweq
      simp only [Bool.and_eq_true, bne_iff_ne, ne_eq, Bool.not_eq_true',
        subnetcmd.latest] at hc
      exact ⟨hweq, rfl, hc.1.2, hc.1.1, hc.2⟩
  · intro h1 h2 h3 h4 hl hne hnl hv
    obtain ⟨subnetType, h4⟩ := h4
    rcases createSubnetConfig_cases env flags subnetName with
      ⟨h1', _⟩ | ⟨_, ⟨e, h2', _⟩ | ⟨_, ⟨h3', _⟩ | ⟨_, ⟨e, h4', _⟩ | ⟨t, _, h⟩⟩⟩⟩
    · rw [h1] at h1'; cases h1'
    · rw [h2] at h2'; cases h2'
    · rw [h3] at h3'; cases h3'
    · rw [h4] at h4'; cases h4'
    · rw [h]
      have heff : subnetcmd.effectiveEvmVersion flags = flags.evmVersion := by
        simp [subnetcmd.effectiveEvmVersion, hl]
      rw [heff]
      have hc : (flags.evmVersion != subnetcmd.latest && flags.evmVersion != "" &&
          !env.semverIsValid flags.evmVersion) = true := by
        simp [subnetcmd.latest, hne, hnl, hv]
      rw [if_pos hc]
  · intro hl
    have heff : subnetcmd.effectiveEvmVersion flags = "latest" := by
      simp [subnetcmd.effectiveEvmVersion, hl, subnetcmd.latest]
    refine ⟨heff, ?_⟩
    intro w hw
    obtain ⟨_, hc⟩ := honly w hw
    rw [heff] at hc
    simp [subnetcmd.latest] at hc

/-- C17, amended, at concrete inputs: `--vm-version 1.2.3` on a new subnet is
rejected; with `--latest` the same text is not. -/
theorem version_check_witness :
    ((exCreateEnv false).GenesisExists "mysubnet" &&
      !(exCreateFlags false false "1.2.3").forceCreate) = false ∧
    subnetcmd.checkInvalidSubnetNames (exCreateEnv false).letterAboveASCII
      (exCreateEnv false).numberAboveASCII "mysubnet" = none ∧
    subnetcmd.moreThanOneVMSelected (exCreateFlags false false "1.2.3").useSubnetEvm
      (exCreateFlags false false "1.2.3").useCustom = false ∧
    (∃ subnetType, subnetcmd.chooseSubnetType (exCreateEnv false)
      (exCreateFlags false false "1.2.3") = Except.ok subnetType) ∧
    (exCreateFlags false false "1.2.3").useLatestEvmVersion = false ∧
    (exCreateFlags false false "1.2.3").evmVersion ≠ "" ∧
    (exCreateFlags false false "1.2.3").evmVersion ≠ "latest" ∧
    (exCreateEnv false).semverIsValid (exCreateFlags false false "1.2.3").evmVersion = false ∧
    subnetcmd.createSubnetConfig (exCreateEnv false) (exCreateFlags false false "1.2.3")
        "mysubnet" =
      ⟨[], some (subnetcmd.CreateError.invalidVersionString
        (exCreateFlags false false "1.2.3").evmVersion)⟩ ∧
    (exCreateFlags false true "1.2.3").useLatestEvmVersion = true ∧
    subnetcmd.effectiveEvmVersion (exCreateFlags false true "1.2.3") = "latest" ∧
    (∀ w, (subnetcmd.createSubnetConfig (exCreateEnv false) (exCreateFlags false true "1.2.3")
        "mysubnet").err ≠ some (subnetcmd.CreateError.invalidVersionString w)) :=
  ⟨rfl, by decide, by decide, ⟨"Subnet-EVM", rfl⟩, rfl, by decide, by decide, rfl,
    (version_check (exCreateEnv false) (exCreateFlags false false "1.2.3") "mysubnet").2.1
      rfl (by decide) (by decide) ⟨"Subnet-EVM", rfl⟩ rfl (by decide) (by decide) rfl,
    rfl,
    ((version_check (exCreateEnv false) (exCreateFlags false true "1.2.3") "mysubnet").2.2
      rfl).1,
    ((version_check (exCreateEnv false) (exCreateFlags false true "1.2.3") "mysubnet").2.2
      rfl).2⟩

/-! ## Import of a running subnet -/

/-- C19, on the code: `importRunningSubnet` reads neither the `--force` flag
nor whether a configuration of the retrieved name exists, so its writes and
its result are the same whatever these two are; and on the import of the
chain `mysubnet`, where a configuration named `mysubnet` already exists and
`--force` is not given, it writes the genesis file and the sidecar of
`mysubnet` and reports no error. -/
theorem import_overwrites_existing_configuration :
    (∀ (env : subnetcmd.ImportEnv) (flags : subnetcmd.ImportFlags)
        (exists_ : String → Bool) (force : Bool),
      subnetcmd.importRunningSubnet { env with GenesisExists := exists_ }
          { flags with overwriteImport := force }
        = subnetcmd.importRunningSubnet env flags) ∧
    (exImportEnv true).GenesisExists "mysubnet" = true ∧
    (exImportFlags false).overwriteImport = false ∧
    subnetcmd.importRunningSubnet (exImportEnv true) (exImportFlags false)
      = ⟨[subnetcmd.Effect.WriteGenesisFile "mysubnet" "contents of genesis.json",
          subnetcmd.Effect.CreateSidecar exImportedSidecar], none⟩ := by
  refine ⟨fun env flags exists_ force => rfl, by decide, rfl, ?_⟩
  rfl

/-! ## Start of the local network -/

/-- C20, on the code: when everything before it succeeds and `LoadSnapshot`
reports that the network is already bootstrapped, `startNetwork` prints
"Network has already been booted. Wait until healthy..." and goes on to wait
for the network; it returns an error exactly when `WaitForHealthy` fails, and
none when the running network is healthy. -/
theorem start_on_running_network {ι : Type} (env : networkcmd.StartEnv ι)
    (avagoVersion snapshotName avalancheGoBinPath pluginDir outputDir configStr err : String)
    (hServer : env.StartServer avagoVersion = none)
    (hSetup : env.SetupLocalEnv avagoVersion = Except.ok (avalancheGoBinPath, pluginDir))
    (hClient : env.NewGRPCClient = none)
    (hDir : env.MkDirWithTimestamp (env.pathJoin env.GetRunDir "restart") = Except.ok outputDir)
    (hConf : env.LoadNodeConfig = Except.ok configStr)
    (hLoad : env.LoadSnapshot snapshotName
        (networkcmd.loadSnapshotOpts avalancheGoBinPath pluginDir outputDir configStr) = some err)
    (hBoot : env.IsServerError err env.ErrAlreadyBootstrapped = true) :
    networkcmd.Output.PrintToUser "Network has already been booted. Wait until healthy..."
        ∈ (networkcmd.startNetwork env avagoVersion snapshotName).printed ∧
    (∀ clusterInfo, env.WaitForHealthy avagoVersion = Except.ok clusterInfo →
      (networkcmd.startNetwork env avagoVersion snapshotName).err = none) ∧
    (∀ e, env.WaitForHealthy avagoVersion = Except.error e →
      (networkcmd.startNetwork env avagoVersion snapshotName).err
        = some (networkcmd.StartError.failedWaiting e)) := by
  have hrun : networkcmd.startNetwork env avagoVersion snapshotName
      = networkcmd.waitAndReport env avagoVersion
          ([networkcmd.Output.PrintToUser (networkcmd.startMsg snapshotName)] ++
            [networkcmd.Output.PrintToUser
              "Network has already been booted. Wait until healthy..."]) := by
    simp only [networkcmd.startNetwork, hServer, hSetup, hClient, hDir, hConf,
      networkcmd.loadAndWait, hLoad, hBoot]
    rfl
  rw [hrun]
  refine ⟨?_, ?_, ?_⟩
  · unfold networkcmd.waitAndReport
    cases env.WaitForHealthy avagoVersion with
    | error e => simp
    | ok clusterInfo =>
      by_cases hlen : (env.GetEndpoints clusterInfo).length > 0 <;> simp [hlen]
  · intro clusterInfo hw
    unfold networkcmd.waitAndReport
    rw [hw]
    by_cases hlen : (env.GetEndpoints clusterInfo).length > 0 <;> simp [hlen]
  · intro e hw
    unfold networkcmd.waitAndReport
    rw [hw]

/-- C20, on a concrete input: the local network is already running and
healthy, `LoadSnapshot` reports so, and `startNetwork` returns no error. -/
theorem start_on_running_network_witness :
    exStartEnv.LoadSnapshot DefaultSnapshotName
        (networkcmd.loadSnapshotOpts "bin/luxd" "plugins" "runs/restart_20221104" "")
      = some "already bootstrapped" ∧
    exStartEnv.IsServerError "already bootstrapped" exStartEnv.ErrAlreadyBootstrapped = true ∧
    (networkcmd.startNetwork exStartEnv "latest" DefaultSnapshotName).err = none :=
  ⟨rfl, by decide,
    (start_on_running_network exStartEnv "latest" DefaultSnapshotName "bin/luxd" "plugins"
      "runs/restart_20221104" "" "already bootstrapped" rfl rfl rfl rfl rfl rfl
      (by decide)).2.1 ["http://127.0.0.1:9650"] rfl⟩

/-! ## Clean of the local network -/

theorem childName_eq_some (dir name : OsPath) (n : String) :
    childName dir name = some n ↔ name = dir ++ [n] := by
  unfold childName
  constructor
  · intro h
    by_cases hd : name.dropLast = dir
    · rw [if_pos hd] at h
      rw [← hd]
      exact (List.dropLast_append_getLast? n h).symm
    · rw [if_neg hd] at h
      cases h
  · intro h
    subst h
    simp

theorem mem_osChildren (fs : FileSystem) (dir : OsPath) (n : String) :
    n ∈ osChildren fs dir ↔ ∃ e ∈ fs, e.path = dir ++ [n] := by
  unfold osChildren
  rw [List.mem_filterMap]
  constructor
  · rintro ⟨e, he, hc⟩
    exact ⟨e, he, (childName_eq_some _ _ _).1 hc⟩
  · rintro ⟨e, he, hp⟩
    exact ⟨e, he, (childName_eq_some _ _ _).2 hp⟩

theorem osRemove_ok (fault : OsCall → Option String) (fs fs1 : FileSystem) (name : OsPath)
    (h : osRemove fault fs name = Except.ok fs1) :
    fs1 = fs.filter (fun e => e.path != name) := by
  unfold osRemove at h
  cases hf : fault (OsCall.Remove name) with
  | some err => rw [hf] at h; cases h
  | none =>
    rw [hf] at h
    by_cases h1 : (!osExists fs name) = true
    · simp only [h1, if_true] at h
      cases h
    · by_cases h2 : (!(osChildren fs name).isEmpty) = true
      · simp only [h1, h2, if_true, if_false] at h
        cases h
      · simp only [h1, h2, if_false] at h
        cases h
        rfl

theorem removePlugins_ok (env : networkcmd.CleanEnv) (pluginDir : OsPath)
    (names : List String) :
    ∀ (fs fs1 : FileSystem),
      networkcmd.removePlugins env pluginDir names fs = (fs1, none) →
      fs1 = fs.filter
        (fun e => !(names.any (fun n => n != env.EVMPlugin && e.path == pluginDir ++ [n]))) := by
  induction names with
  | nil =>
    intro fs fs1 h
    simp only [networkcmd.removePlugins] at h
    cases h
    simp
  | cons plugin rest ih =>
    intro fs fs1 h
    unfold networkcmd.removePlugins at h
    by_cases hp : (plugin != env.EVMPlugin) = true
    · rw [if_pos hp] at h
      cases hr : osRemove env.ioFault fs (pluginDir ++ [plugin]) with
      | error err => rw [hr] at h; cases h
      | ok fs2 =>
        rw [hr] at h
        have h2 := osRemove_ok _ _ _ _ hr
        have h3 := ih fs2 fs1 h
        rw [h3, h2, List.filter_filter]
        apply List.filter_congr
        intro e _
        simp only [List.any_cons, hp, Bool.true_and, Bool.not_or]
        cases hq : (e.path == pluginDir ++ [plugin]) <;> simp [hq, bne]
    · rw [if_neg hp] at h
      have h3 := ih fs fs1 h
      rw [h3]
      apply List.filter_congr
      intro e _
      have hp2 : (plugin != env.EVMPlugin) = false := by
        cases hb : (plugin != env.EVMPlugin) with
        | true => exact absurd hb hp
        | false => rfl
      simp only [List.any_cons, hp2, Bool.false_and, Bool.false_or]

theorem removable_iff (env : networkcmd.CleanEnv) (v : String) (e : OsEntry) :
    networkcmd.removable env v e = true ↔
      ∃ n, n ≠ env.EVMPlugin ∧ e.path = env.GetNodeBinDir ++ [v, "plugins", n] := by
  unfold networkcmd.removable
  constructor
  · intro h
    cases hc : childName (env.GetNodeBinDir ++ [v, "plugins"]) e.path with
    | none => rw [hc] at h; cases h
    | some n =>
      rw [hc] at h
      refine ⟨n, by simpa using h, ?_⟩
      have := (childName_eq_some _ _ _).1 hc
      simpa using this
  · rintro ⟨n, hn, hp⟩
    have hc : childName (env.GetNodeBinDir ++ [v, "plugins"]) e.path = some n :=
      (childName_eq_some _ _ _).2 (by simpa using hp)
    rw [hc]
    simpa using hn

theorem any_plugin_eq_removable (env : networkcmd.CleanEnv) (v : String) (fs : FileSystem)
    (e : OsEntry) (he : e ∈ fs) :
    (osChildren fs (env.GetNodeBinDir ++ [v, "plugins"])).any
        (fun n => n != env.EVMPlugin && e.path == env.GetNodeBinDir ++ [v, "plugins"] ++ [n])
      = networkcmd.removable env v e := by
  rw [Bool.eq_iff_iff, removable_iff, List.any_eq_true]
  constructor
  · rintro ⟨n, _, hn⟩
    simp only [Bool.and_eq_true, bne_iff_ne, ne_eq, beq_iff_eq] at hn
    exact ⟨n, hn.1, by simpa using hn.2⟩
  · rintro ⟨n, hn, hp⟩
    refine ⟨n, (mem_osChildren _ _ _).2 ⟨e, he, by simpa using hp⟩, ?_⟩
    simp only [Bool.and_eq_true, bne_iff_ne, ne_eq, beq_iff_eq]
    exact ⟨hn, by simpa using hp⟩

theorem osReadDir_ok (fault : OsCall → Option String) (fs : FileSystem) (name : OsPath)
    (names : List String) (h : osReadDir fault fs name = Except.ok names) :
    names = osChildren fs name := by
  unfold osReadDir at h
  cases hf : fault (OsCall.ReadDir name) with
  | some err => rw [hf] at h; cases h
  | none =>
    rw [hf] at h
    by_cases hd : fs.any (fun e => e.path == name && e.isDir) = true
    · simp only [hd, if_true] at h
      cases h
      rfl
    · simp only [hd, if_false] at h
      cases h

theorem cleanVersions_ok (env : networkcmd.CleanEnv) (versions : List String) :
    ∀ (fs fs1 : FileSystem),
      networkcmd.cleanVersions env versions fs = (fs1, none) →
      fs1 = fs.filter (fun e => !(versions.any (fun v => networkcmd.removable env v e))) := by
  induction versions with
  | nil =>
    intro fs fs1 h
    simp only [networkcmd.cleanVersions] at h
    cases h
    simp
  | cons v rest ih =>
    intro fs fs1 h
    unfold networkcmd.cleanVersions at h
    simp only at h
    cases hr : osReadDir env.ioFault fs (env.GetNodeBinDir ++ [v, "plugins"]) with
    | error err => rw [hr] at h; cases h
    | ok names =>
      rw [hr] at h
      simp only at h
      rcases hp : networkcmd.removePlugins env (env.GetNodeBinDir ++ [v, "plugins"]) names fs
        with ⟨fs2, _ | err⟩
      · rw [hp] at h
        simp only at h
        have h2 := removePlugins_ok env _ names fs fs2 hp
        have h3 := ih fs2 fs1 h
        have hn := osReadDir_ok _ _ _ _ hr
        subst hn
        have h4 : fs2 = fs.filter (fun e => !(networkcmd.removable env v e)) := by
          rw [h2]
          apply List.filter_congr
          intro e he
          rw [any_plugin_eq_removable env v fs e he]
        rw [h3, h4, List.filter_filter]
        apply List.filter_congr
        intro e _
        simp only [List.any_cons, Bool.not_or]
        rw [Bool.and_comm]
      · rw [hp] at h
        cases h

theorem osReadDir_of_notExist (fault : OsCall → Option String) (fs : FileSystem)
    (name : OsPath) (h : osStat fault fs name = some StatError.notExist) :
    ∀ names, osReadDir fault fs name ≠ Except.ok names := by
  intro names hr
  unfold osStat at h
  cases hf : fault (OsCall.Stat name) with
  | some err => rw [hf] at h; cases h
  | none =>
    rw [hf] at h
    by_cases hex : osExists fs name = true
    · simp only [hex, if_true] at h
      cases h
    · have hd : ¬ fs.any (fun e => e.path == name && e.isDir) = true := by
        intro hany
        apply hex
        unfold osExists
        rw [List.any_eq_true] at hany ⊢
        obtain ⟨e, he, hq⟩ := hany
        exact ⟨e, he, (Bool.and_eq_true _ _ ▸ hq).1⟩
      unfold osReadDir at hr
      cases hf2 : fault (OsCall.ReadDir name) with
      | some err => rw [hf2] at hr; cases hr
      | none =>
        rw [hf2] at hr
        simp only [hd, if_false] at hr
        cases hr

theorem clean_soft_cases (env : networkcmd.CleanEnv) (fs : FileSystem)
    (herr : (networkcmd.clean env false fs).err = none) :
    (osStat env.ioFault (networkcmd.afterShutdown env fs) env.GetNodeBinDir
        = some StatError.notExist ∧
      (networkcmd.clean env false fs).fs = networkcmd.afterShutdown env fs) ∨
    (∃ installed,
      osReadDir env.ioFault (networkcmd.afterShutdown env fs) env.GetNodeBinDir
        = Except.ok installed ∧
      (networkcmd.clean env false fs).fs = (networkcmd.afterShutdown env fs).filter
        (fun e => !(installed.any (fun v => networkcmd.removable env v e)))) := by
  have hmain : ∀ installed,
      osReadDir env.ioFault (networkcmd.afterShutdown env fs) env.GetNodeBinDir
        = Except.ok installed →
      (networkcmd.cleanVersions env installed (networkcmd.afterShutdown env fs)).2 = none →
      (networkcmd.cleanVersions env installed (networkcmd.afterShutdown env fs)).1 =
        (networkcmd.afterShutdown env fs).filter
          (fun e => !(installed.any (fun v => networkcmd.removable env v e))) := by
    intro installed _ h2
    exact cleanVersions_ok env installed _ _ (Prod.ext rfl h2)
  unfold networkcmd.clean at herr ⊢
  simp only [Bool.false_eq_true, if_false] at herr ⊢
  have hfs : (env.KillgRPCServerProcess (env.SetDefaultSnapshot env.GetSnapshotsDir true fs).1).1
      = networkcmd.afterShutdown env fs := rfl
  rw [hfs] at herr ⊢
  have hread : ∀ (out : List networkcmd.CleanOutput),
      (match osReadDir env.ioFault (networkcmd.afterShutdown env fs) env.GetNodeBinDir with
        | Except.error err => (⟨networkcmd.afterShutdown env fs, out, some err⟩ :
            networkcmd.CleanOutcome)
        | Except.ok installedVersions =>
          ⟨(networkcmd.cleanVersions env installedVersions
              (networkcmd.afterShutdown env fs)).1, out,
            (networkcmd.cleanVersions env installedVersions
              (networkcmd.afterShutdown env fs)).2⟩).err = none →
      ∃ installed,
        osReadDir env.ioFault (networkcmd.afterShutdown env fs) env.GetNodeBinDir
          = Except.ok installed ∧
        (match osReadDir env.ioFault (networkcmd.afterShutdown env fs) env.GetNodeBinDir with
          | Except.error err => (⟨networkcmd.afterShutdown env fs, out, some err⟩ :
              networkcmd.CleanOutcome)
          | Except.ok installedVersions =>
            ⟨(networkcmd.cleanVersions env installedVersions
                (networkcmd.afterShutdown env fs)).1, out,
              (networkcmd.cleanVersions env installedVersions
                (networkcmd.afterShutdown env fs)).2⟩).fs =
          (networkcmd.afterShutdown env fs).filter
            (fun e => !(installed.any (fun v => networkcmd.removable env v e))) := by
    intro out h
    cases hr : osReadDir env.ioFault (networkcmd.afterShutdown env fs) env.GetNodeBinDir with
    | error err => rw [hr] at h; cases h
    | ok installed =>
      rw [hr] at h
      exact ⟨installed, rfl, hmain installed hr h⟩
  cases hs : osStat env.ioFault (networkcmd.afterShutdown env fs) env.GetNodeBinDir with
  | none =>
    rw [hs] at herr
    exact Or.inr (hread _ herr)
  | some se =>
    cases se with
    | notExist => exact Or.inl ⟨rfl, rfl⟩
    | other err =>
      rw [hs] at herr
      exact Or.inr (hread _ herr)

/-- C21, as stated, fails: `clean` calls `SetDefaultSnapshot` with the force
flag before it looks at the plugins; with a `SetDefaultSnapshot` that then
removes the default snapshot, a clean that is not hard returns without error
and the file `cli/snapshots/default`, which is in no plugins directory, is
gone. -/
theorem soft_clean_removes_default_snapshot :
    (networkcmd.clean exCleanEnvReset false exCleanFS).err = none ∧
    (⟨["cli", "snapshots", "default"], false⟩ : OsEntry) ∈ exCleanFS ∧
    osExists (networkcmd.clean exCleanEnvReset false exCleanFS).fs
      ["cli", "snapshots", "default"] = false ∧
    (¬ ∃ v n, ["cli", "snapshots", "default"] =
      exCleanEnvReset.GetNodeBinDir ++ [v, "plugins", n]) := by
  refine ⟨rfl, by decide, rfl, ?_⟩
  rintro ⟨v, n, h⟩
  have hlen := congrArg List.length h
  simp [exCleanEnvReset] at hlen

/-- C21, amended: when a clean that is not hard returns without error, then,
on the file system that `SetDefaultSnapshot` and `KillgRPCServerProcess`,
which `clean` calls first, have left: in the plugins directory of every
installed node version (every entry of the node directory) no entry with a
name other than the EVM plugin name is left; an entry with the EVM plugin
name in such a directory is still there; every entry of that file system
that is gone was an entry of the plugins directory of an installed version
with a name other than the EVM plugin name; and nothing was created. -/
theorem soft_clean_keeps_only_evm_plugin (env : networkcmd.CleanEnv) (fs : FileSystem)
    (herr : (networkcmd.clean env false fs).err = none) :
    (∀ installed,
      osReadDir env.ioFault (networkcmd.afterShutdown env fs) env.GetNodeBinDir
        = Except.ok installed →
      ∀ v ∈ installed, ∀ n, n ≠ env.EVMPlugin →
        osExists (networkcmd.clean env false fs).fs
          (env.GetNodeBinDir ++ [v, "plugins", n]) = false) ∧
    (∀ v, ∀ e ∈ networkcmd.afterShutdown env fs,
      e.path = env.GetNodeBinDir ++ [v, "plugins", env.EVMPlugin] →
      e ∈ (networkcmd.clean env false fs).fs) ∧
    (∀ e ∈ networkcmd.afterShutdown env fs, e ∉ (networkcmd.clean env false fs).fs →
      ∃ installed,
        osReadDir env.ioFault (networkcmd.afterShutdown env fs) env.GetNodeBinDir
          = Except.ok installed ∧
        ∃ v ∈ installed, ∃ n, n ≠ env.EVMPlugin ∧
          e.path = env.GetNodeBinDir ++ [v, "plugins", n]) ∧
    (∀ e ∈ (networkcmd.clean env false fs).fs, e ∈ networkcmd.afterShutdown env fs) := by
  have hnot : ∀ (v w : String) (e : OsEntry),
      e.path = env.GetNodeBinDir ++ [v, "plugins", env.EVMPlugin] →
      networkcmd.removable env w e = false := by
    intro v w e hp
    cases hb : networkcmd.removable env w e with
    | false => rfl
    | true =>
      obtain ⟨n, hn, hq⟩ := (removable_iff env w e).1 hb
      rw [hp] at hq
      have := List.append_cancel_left hq
      simp only [List.cons.injEq, and_true] at this
      exact absurd this.2.2.symm hn
  rcases clean_soft_cases env fs herr with ⟨hstat, hfs⟩ | ⟨installed, hread, hfs⟩
  · refine ⟨?_, ?_, ?_, ?_⟩
    · intro installed hread
      exact absurd hread (osReadDir_of_notExist _ _ _ hstat installed)
    · intro v e he _
      rw [hfs]
      exact he
    · intro e he hne
      rw [hfs] at hne
      exact absurd he hne
    · intro e he
      rw [hfs] at he
      exact he
  · refine ⟨?_, ?_, ?_, ?_⟩
    · intro installed2 hread2 v hv n hn
      rw [hread] at hread2
      cases hread2
      rw [hfs]
      cases hex : osExists (List.filter
          (fun e => !(installed.any (fun v => networkcmd.removable env v e)))
          (networkcmd.afterShutdown env fs)) (env.GetNodeBinDir ++ [v, "plugins", n]) with
      | false => rfl
      | true =>
        unfold osExists at hex
        rw [List.any_eq_true] at hex
        obtain ⟨e, he, hp⟩ := hex
        rw [List.mem_filter] at he
        have hrem : networkcmd.removable env v e = true :=
          (removable_iff env v e).2 ⟨n, hn, by simpa using hp⟩
        have hany : installed.any (fun v => networkcmd.removable env v e) = true :=
          List.any_eq_true.2 ⟨v, hv, hrem⟩
        rw [hany] at he
        exact absurd he.2 (by decide)
    · intro v e he hp
      rw [hfs, List.mem_filter]
      refine ⟨he, ?_⟩
      have hany : installed.any (fun w => networkcmd.removable env w e) = false := by
        rw [List.any_eq_false]
        intro w _
        rw [hnot v w e hp]
        decide
      rw [hany]
      rfl
    · intro e he hne
      rw [hfs, List.mem_filter] at hne
      have hany : installed.any (fun w => networkcmd.removable env w e) = true := by
        cases hb : installed.any (fun w => networkcmd.removable env w e) with
        | true => rfl
        | false => exact absurd ⟨he, by rw [hb]; rfl⟩ hne
      obtain ⟨v, hv, hrem⟩ := List.any_eq_true.1 hany
      obtain ⟨n, hn, hp⟩ := (removable_iff env v e).1 hrem
      exact ⟨installed, hread, v, hv, n, hn, hp⟩
    · intro e he
      rw [hfs] at he
      exact (List.mem_filter.1 he).1

/-- C21, amended, on a directory with two installed versions: the clean
returns no error and leaves `exCleanedFS`, where the first version has kept its EVM
plugin and nothing else in its plugins directory, and the second has an
empty plugins directory. -/
theorem soft_clean_keeps_only_evm_plugin_witness :
    (networkcmd.clean exCleanEnv false exCleanFS).err = none ∧
    (networkcmd.clean exCleanEnv false exCleanFS).fs = exCleanedFS ∧
    osReadDir exCleanEnv.ioFault (networkcmd.afterShutdown exCleanEnv exCleanFS)
      exCleanEnv.GetNodeBinDir = Except.ok ["node-v1.2.0", "node-v1.3.0"] ∧
    osExists (networkcmd.clean exCleanEnv false exCleanFS).fs
      (exCleanEnv.GetNodeBinDir ++ ["node-v1.3.0", "plugins", "subnetEvmA"]) = false ∧
    (⟨["cli", "bin", "node", "node-v1.2.0", "plugins", "evm"], false⟩ : OsEntry)
      ∈ (networkcmd.clean exCleanEnv false exCleanFS).fs :=
  ⟨rfl, rfl, rfl,
    (soft_clean_keeps_only_evm_plugin exCleanEnv exCleanFS rfl).1
      ["node-v1.2.0", "node-v1.3.0"] rfl "node-v1.3.0" (by decide) "subnetEvmA" (by decide),
    (soft_clean_keeps_only_evm_plugin exCleanEnv exCleanFS rfl).2.1 "node-v1.2.0"
      ⟨["cli", "bin", "node", "node-v1.2.0", "plugins", "evm"], false⟩ (by decide) rfl⟩

/-! ## The `ssh` command -/

theorem sshHost_nil {κ : Type} (env : SshEnv κ) (indent : String) (host : Host) :
    sshHost env [] indent host = [sshLine env indent host] := by
  unfold sshHost sshLine
  simp only [List.length_nil, Nat.zero_add, gt_iff_lt, Nat.lt_irrefl, if_false]
  have hj : " ".intercalate [] = "" := rfl
  rw [hj, String.append_empty]

theorem flatten_map_singleton {α β : Type} (f : α → β) (l : List α) :
    (l.map (fun a => [f a])).flatten = l.map f := by
  induction l with
  | nil => rfl
  | cons a rest ih => simp only [List.map_cons, List.flatten_cons, ih, List.singleton_append]

theorem sshHost_run_only_with_command {κ : Type} (env : SshEnv κ) (rest : List String)
    (indent : String) (host : Host) (e : SshEffect) (he : e ∈ sshHost env rest indent host)
    (hrun : e.isRun = true) : rest ≠ [] := by
  intro hnil
  subst hnil
  rw [sshHost_nil] at he
  rw [List.mem_singleton] at he
  subst he
  cases hrun

/-- C22, as stated, fails: the cluster `mycluster` passes the cluster check,
its inventory cannot be read, and `sshCluster`, called with the cluster name
only, prints nothing and returns the error of the inventory. -/
theorem ssh_unreadable_inventory :
    (exSshEnv false).checkCluster "mycluster" = none ∧
    sshCluster (exSshEnv false) ["mycluster"] "" =
      some ⟨[], some "open inventories/mycluster/hosts: no such file or directory"⟩ ∧
    ¬ ∃ effects, sshCluster (exSshEnv false) ["mycluster"] "" = some ⟨effects, none⟩ := by
  refine ⟨rfl, rfl, ?_⟩
  rintro ⟨effects, h⟩
  have h2 : sshCluster (exSshEnv false) ["mycluster"] "" =
      some ⟨[], some "open inventories/mycluster/hosts: no such file or directory"⟩ := rfl
  rw [h2] at h
  cases h

/-- C22, amended: when the cluster check passes and the inventory is read,
`sshCluster` called with the cluster name only prints one line per host of
the inventory, in inventory order (indent, cloud ID, connection string), runs
no command and returns no error.  Whatever the cluster check and the
inventory do, a command is run only when a command word is given; and when
the check or the inventory fails, nothing is printed or run and that error is
returned. -/
theorem ssh_without_command {κ : Type} (env : SshEnv κ) (clusterName indent : String)
    (hosts : List Host)
    (hcheck : env.checkCluster clusterName = none)
    (hinv : env.GetInventoryFromAnsibleInventoryFile
      (env.GetAnsibleInventoryDirPath clusterName) = Except.ok hosts) :
    sshCluster env [clusterName] indent = some ⟨hosts.map (sshLine env indent), none⟩ ∧
    (∀ e ∈ hosts.map (sshLine env indent), e.isRun = false) ∧
    (∀ (args : List String) (ind : String) (out : SshOutcome),
      sshCluster env args ind = some out →
      (∃ e ∈ out.effects, e.isRun = true) → args.length > 1) ∧
    (∀ (cluster : String) (rest : List String) (ind : String) (out : SshOutcome),
      sshCluster env (cluster :: rest) ind = some out → out.err ≠ none →
      out.effects = [] ∧
      (out.err = env.checkCluster cluster ∨
        ∃ err, env.GetInventoryFromAnsibleInventoryFile
          (env.GetAnsibleInventoryDirPath cluster) = Except.error err ∧ out.err = some err)) := by
  refine ⟨?_, ?_, ?_, ?_⟩
  · simp only [sshCluster, sshClusterArgs, hcheck, hinv]
    congr 2
    have : sshHost env [] indent = fun host => [sshLine env indent host] := by
      funext host
      exact sshHost_nil env indent host
    rw [this, flatten_map_singleton]
  · intro e he
    rw [List.mem_map] at he
    obtain ⟨h, _, rfl⟩ := he
    rfl
  · intro args ind out hout hrun
    cases args with
    | nil => cases hout
    | cons cluster rest =>
      simp only [sshCluster, Option.some.injEq] at hout
      subst hout
      obtain ⟨e, he, hisrun⟩ := hrun
      have hrest : rest ≠ [] := by
        unfold sshClusterArgs at he
        cases hc : env.checkCluster cluster with
        | some err => rw [hc] at he; cases he
        | none =>
          rw [hc] at he
          cases hi : env.GetInventoryFromAnsibleInventoryFile
              (env.GetAnsibleInventoryDirPath cluster) with
          | error err => rw [hi] at he; cases he
          | ok hs =>
            rw [hi] at he
            simp only [List.mem_flatten, List.mem_map] at he
            obtain ⟨l, ⟨h, _, rfl⟩, hel⟩ := he
            exact sshHost_run_only_with_command env rest ind h e hel hisrun
      cases rest with
      | nil => exact absurd rfl hrest
      | cons w ws => simp
  · intro cluster rest ind out hout herr
    simp only [sshCluster, Option.some.injEq] at hout
    subst hout
    unfold sshClusterArgs at herr ⊢
    cases hc : env.checkCluster cluster with
    | some err => exact ⟨rfl, Or.inl rfl⟩
    | none =>
      rw [hc] at herr
      cases hi : env.GetInventoryFromAnsibleInventoryFile
          (env.GetAnsibleInventoryDirPath cluster) with
      | error err => exact ⟨rfl, Or.inr ⟨err, rfl, rfl⟩⟩
      | ok hs =>
        rw [hi] at herr
        exact absurd rfl herr

/-- C22, amended, on the cluster `mycluster` of two hosts: two lines, no
run, no error. -/
theorem ssh_without_command_witness :
    (exSshEnv true).checkCluster "mycluster" = none ∧
    sshCluster (exSshEnv true) ["mycluster"] "" =
      some ⟨[SshEffect.PrintToUser "[NodeID-A] ssh -i /keys/a.pem ubuntu@10.0.0.1 ",
        SshEffect.PrintToUser "[NodeID-B] ssh -i /keys/b.pem ubuntu@10.0.0.2 "], none⟩ :=
  ⟨rfl, (ssh_without_command (exSshEnv true) "mycluster" "" [exHostA, exHostB] rfl rfl).1⟩

/-! ## The metrics preference -/

/-- C23: for every argument `a` (and whatever `SetConfigValue` returns),
`handleMetricsSettings` on `a` stores the metrics preference `true`, once,
when `a` is "enable", stores `false`, once, when `a` is "disable", and
returns what the store returned; for any other `a`, also one that differs
only in case or has a blank, it stores and prints nothing and returns the
error "Invalid metrics argument '<a>'". -/
theorem metrics_argument (SetConfigValue : String → Bool → Option String) (a : String) :
    configcmd.handleMetricsSettings SetConfigValue [a] =
      some (configcmd.handleMetricsArg SetConfigValue a) ∧
    (a = "enable" →
      configcmd.handleMetricsArg SetConfigValue a =
        ⟨[configcmd.Effect.PrintToUser
            "Thank you for opting in Lux CLI usage metrics collection",
          configcmd.Effect.SetConfigValue "MetricsEnabled" true],
          SetConfigValue "MetricsEnabled" true⟩) ∧
    (a = "disable" →
      configcmd.handleMetricsArg SetConfigValue a =
        ⟨[configcmd.Effect.PrintToUser "Lux CLI usage metrics will no longer be collected",
          configcmd.Effect.SetConfigValue "MetricsEnabled" false],
          SetConfigValue "MetricsEnabled" false⟩) ∧
    (a ≠ "enable" → a ≠ "disable" →
      configcmd.handleMetricsArg SetConfigValue a =
        ⟨[], some ("Invalid metrics argument '" ++ a ++ "'")⟩) ∧
    (configcmd.handleMetricsArg SetConfigValue "Enable").effects = [] ∧
    (configcmd.handleMetricsArg SetConfigValue "enable ").effects = [] ∧
    (configcmd.handleMetricsArg SetConfigValue "").err =
      some "Invalid metrics argument ''" := by
  refine ⟨rfl, ?_, ?_, ?_, rfl, rfl, rfl⟩
  · intro h
    subst h
    rfl
  · intro h
    subst h
    rfl
  · intro h1 h2
    unfold configcmd.handleMetricsArg
    rw [if_neg (by simpa [Enable] using h1), if_neg (by simpa [Disable] using h2)]

/-! ## Versions of an imported subnet -/

theorem pickVMVersion_cases (vmIDstr current : String) (m : GoMap String String) :
    subnetcmd.pickVMVersion vmIDstr current m = current ∨
      subnetcmd.pickVMVersion vmIDstr current m = vmIDstr := by
  induction m with
  | nil => exact Or.inl rfl
  | cons kv rest ih =>
    obtain ⟨k, v⟩ := kv
    unfold subnetcmd.pickVMVersion
    by_cases hv : (v == vmIDstr) = true
    · rw [if_pos hv]
      exact Or.inr (by simpa using hv)
    · rw [if_neg hv]
      exact ih

theorem fillChainID_versions (env : subnetcmd.ImportEnv) (g : subnetcmd.Gathered)
    (vmType : String) (sc sc1 : Sidecar)
    (h : subnetcmd.fillChainID env g vmType sc = Except.ok sc1) :
    sc1.VMVersion = sc.VMVersion ∧ sc1.RPCVersion = sc.RPCVersion := by
  unfold subnetcmd.fillChainID at h
  by_cases h1 : (vmType == env.SubnetEvm) = true
  · rw [if_pos h1] at h
    cases hc : env.evmGenesisChainID g.genBytes with
    | error err => rw [hc] at h; cases h
    | ok chainID =>
      rw [hc] at h
      cases h
      exact ⟨rfl, rfl⟩
  · rw [if_neg h1] at h
    by_cases h2 : (vmType == env.SpacesVM) = true
    · rw [if_pos h2] at h
      cases hc : env.spacesGenesisCheck g.genBytes with
      | some err => rw [hc] at h; cases h
      | none =>
        rw [hc] at h
        cases h
        exact ⟨rfl, rfl⟩
    · rw [if_neg h2] at h
      cases h
      exact ⟨rfl, rfl⟩

/-- C25, on the code: when a node was queried, the RPC version of the
sidecar is the one of the reply, but the VM version is never looked up under
the VM ID: the loop compares the values of `VMVersions`, the version texts,
with the VM ID, so the VM version of the sidecar is empty or the VM ID
itself.  On the import of `vmX`, which the queried node reports at v0.6.0,
the sidecar is written with an empty VM version. -/
theorem import_vm_version_not_looked_up :
    (∀ (env : subnetcmd.ImportEnv) (flags : subnetcmd.ImportFlags) (g : subnetcmd.Gathered)
        (reply : GetNodeVersionReply) (sc : Sidecar),
      g.reply = some reply → subnetcmd.importSidecar env flags g = Except.ok sc →
      sc.RPCVersion = Int.ofNat reply.RPCProtocolVersion ∧
      (sc.VMVersion = "" ∨ sc.VMVersion = g.vmID)) ∧
    subnetcmd.queryNode exQueriedImportEnv exQueriedImportFlags = Except.ok (some exReply) ∧
    mapGet exReply.VMVersions "vmX" = some "v0.6.0" ∧
    subnetcmd.importRunningSubnet exQueriedImportEnv exQueriedImportFlags
      = ⟨[subnetcmd.Effect.WriteGenesisFile "mysubnet" "contents of genesis.json",
          subnetcmd.Effect.CreateSidecar
            { exImportedSidecar with VMVersion := "", RPCVersion := 21 }], none⟩ := by
  refine ⟨?_, rfl, rfl, rfl⟩
  intro env flags g reply sc hreply h
  unfold subnetcmd.importSidecar at h
  cases hv : subnetcmd.chooseImportVMType env flags with
  | error err => rw [hv] at h; cases h
  | ok vmType =>
    rw [hv] at h
    simp only at h
    unfold subnetcmd.fillVersions at h
    rw [hreply] at h
    simp only at h
    obtain ⟨h1, h2⟩ := fillChainID_versions env g vmType _ sc h
    rw [h1, h2]
    exact ⟨rfl, pickVMVersion_cases g.vmID "" reply.VMVersions⟩

end LuxCli
